import Mathlib

/-!
dump1090-mqtt: the publisher pipeline and the store subscriber.

A shallow embedding of `publisher/main.go` (line framing, SBS1 decoding,
compact re-encoding, batching) and of `subscribers/store/main.go` (hourly
rotation of the storage file) together with the properties stated for them.

Conventions of the embedding.

* A Go `string` / `[]byte` is a sequence of bytes; it is embedded as a Lean
  `String` / `List Char`, one `Char` per byte.  Every operation used by the
  program (splitting on `,`, searching `\r\n`, comparing with ASCII literals,
  reading decimal digits) looks only at ASCII bytes.
* Go `int64` values are embedded as `Int`; where the program's arithmetic can
  leave the 64-bit range the wrap-around is explicit (`wrapInt64`).
* A run-time panic (index out of range) is embedded as `none`.
* The store subscriber is embedded as a function from its state, a line and
  the environment (clock reading, outcome of the rename and of the open) to the
  next state and the file operations it issues, or to the way the process ends.
* The parts of the Go standard library that work on `float64`, the quoting of
  a string inside an error message and gzip are parameters of the embedding
  (`Strconv`, `gzip`).
-/

namespace Dump1090

/-! ## Library: strings -/

/-- The list of pieces of `s` between occurrences of the byte `sep`
(`strings.Split(s, sep)` for a one-byte separator): always non-empty, and the
empty input gives one empty piece. -/
def splitChars (sep : Char) : List Char → List (List Char)
  | [] => [[]]
  | c :: cs =>
    if c = sep then [] :: splitChars sep cs
    else
      match splitChars sep cs with
      | [] => [[c]]
      | h :: t => (c :: h) :: t

/-- Go `strings.Split(s, sep)` with a one-byte separator. -/
def Split (s : String) (sep : Char) : List String :=
  (splitChars sep s.data).map String.mk

/-! ## Library: strconv -/

/-- The `float64` part of Go's `strconv`, and `strconv.Quote`, kept abstract:
`ParseFloat s` is `strconv.ParseFloat(s, 64)` with the text of the error when
it fails, `FormatFloat f prec` is `strconv.FormatFloat(f, 'f', prec, 64)`,
`zero` is the constant `0.0`, and `Quote` is `strconv.Quote`. -/
structure Strconv where
  /-- The type of `float64` values. -/
  Float64 : Type
  /-- The value `0.0`. -/
  zero : Float64
  /-- The function `strconv.ParseFloat(s, 64)`. -/
  ParseFloat : String → Except String Float64
  /-- The function `strconv.FormatFloat(f, 'f', prec, 64)`. -/
  FormatFloat : Float64 → Nat → String
  /-- The function `strconv.Quote`. -/
  Quote : String → String

/-- The two sentinel errors of `strconv`. -/
inductive NumError where
  | ErrSyntax
  | ErrRange
  deriving DecidableEq, Repr

/-- The text of `ErrSyntax` / `ErrRange`. -/
def NumError.text : NumError → String
  | .ErrSyntax => "invalid syntax"
  | .ErrRange => "value out of range"

/-- The text of `(*strconv.NumError).Error()`. -/
def numErrorMessage (L : Strconv) (fn : String) (num : String) (e : NumError) : String :=
  "strconv." ++ fn ++ ": " ++ "parsing " ++ L.Quote num ++ ": " ++ e.text

/-- The largest `uint64`. -/
def maxUint64 : Nat := 18446744073709551615

/-- The digit loop of `strconv.ParseUint(s, 10, 64)`: `n` is the value read so
far.  A byte that is not a decimal digit stops with `ErrSyntax`; a value that
leaves the `uint64` range stops with `ErrRange` (before the rest is read). -/
def parseUintLoop : List Char → Nat → Except NumError Nat
  | [], n => .ok n
  | c :: cs, n =>
    if '0' ≤ c ∧ c ≤ '9' then
      let d := c.toNat - '0'.toNat
      if n ≥ maxUint64 / 10 + 1 then .error .ErrRange
      else
        let n1 := n * 10 + d
        if n1 > maxUint64 then .error .ErrRange
        else parseUintLoop cs n1
    else .error .ErrSyntax

/-- Go `strconv.ParseUint(s, 10, 64)`. -/
def ParseUint (s : List Char) : Except NumError Nat :=
  if s = [] then .error .ErrSyntax else parseUintLoop s 0

/-- Go `strconv.ParseInt(s, 10, 64)`; the error carries the text of
`err.Error()`. -/
def ParseInt (L : Strconv) (s : String) : Except String Int :=
  if s = "" then .error (numErrorMessage L "ParseInt" s .ErrSyntax)
  else
    let (neg, digits) : Bool × List Char :=
      match s.data with
      | '+' :: r => (false, r)
      | '-' :: r => (true, r)
      | r => (false, r)
    match ParseUint digits with
    | .error e => .error (numErrorMessage L "ParseInt" s e)
    | .ok un =>
      if !neg && un ≥ 2 ^ 63 then .error (numErrorMessage L "ParseInt" s .ErrRange)
      else if neg && un > 2 ^ 63 then .error (numErrorMessage L "ParseInt" s .ErrRange)
      else .ok (if neg then -(un : Int) else (un : Int))

/-- Go `strconv.FormatInt(i, 10)`. -/
def FormatInt (i : Int) : String := toString i

/-! ## Library: time -/

/-- The value of `x` as an `int64` after two's-complement wrap-around. -/
def wrapInt64 (x : Int) : Int := (x + 2 ^ 63) % 2 ^ 64 - 2 ^ 63

/-- Go `time.isLeap`. -/
def isLeap (year : Int) : Bool :=
  year % 4 == 0 && (year % 100 != 0 || year % 400 == 0)

/-- Go `time.daysBefore`: days in a non-leap year before month `m + 1`. -/
def daysBefore : Nat → Int
  | 0 => 0
  | 1 => 31
  | 2 => 59
  | 3 => 90
  | 4 => 120
  | 5 => 151
  | 6 => 181
  | 7 => 212
  | 8 => 243
  | 9 => 273
  | 10 => 304
  | 11 => 334
  | _ => 365

/-- Go `time.daysIn(m, year)`. -/
def daysIn (m : Nat) (year : Int) : Int :=
  if m = 2 ∧ isLeap year then 29 else daysBefore m - daysBefore (m - 1)

/-- A `time.Time` in UTC: seconds since 1970-01-01T00:00:00Z and nanoseconds
within the second. -/
structure Time where
  unixSec : Int
  nsec : Int
  deriving DecidableEq, Repr

/-- The zero `time.Time{}`: 0001-01-01T00:00:00Z. -/
def Time.zeroValue : Time := ⟨-62135596800, 0⟩

/-- Days from 0001-01-01 to the first day of `year` in the proleptic Gregorian
calendar (the 400/100/4/1-year cycles of `time.Date`). -/
def daysSinceYearOne (year : Int) : Int :=
  let y := year - 1
  365 * y + y / 4 - y / 100 + y / 400

/-- Go `time.Date(year, month, day, hour, min, sec, nsec, time.UTC)` for
arguments that are already in range. -/
def Date (year : Int) (month day hour min sec nsec : Nat) : Time :=
  let d : Int := daysSinceYearOne year + daysBefore (month - 1)
    + (if isLeap year ∧ month ≥ 3 then 1 else 0) + ((day : Int) - 1)
  let abs : Int := d * 86400 + (hour * 3600 + min * 60 + sec : Nat)
  ⟨abs - 62135596800, nsec⟩

/-- Go `(Time).UnixNano()`: computed in `int64`, so it wraps outside the years
1678..2262. -/
def Time.UnixNano (t : Time) : Int := wrapInt64 (t.unixSec * 1000000000 + t.nsec)

/-- Go `time.isDigit(s, i)`. -/
def isDigit (s : List Char) (i : Nat) : Bool :=
  match s[i]? with
  | some c => decide ('0' ≤ c ∧ c ≤ '9')
  | none => false

/-- The value of a decimal digit byte. -/
def digitVal (c : Char) : Nat := c.toNat - '0'.toNat

/-- Go `time.getnum(s, fixed)`: one or two leading digits (exactly two when
`fixed`). -/
def getnum (s : List Char) (fixed : Bool) : Option (Nat × List Char) :=
  if !isDigit s 0 then none
  else if !isDigit s 1 then
    if fixed then none else some (digitVal (s.headD '0'), s.drop 1)
  else some (digitVal (s.headD '0') * 10 + digitVal ((s.drop 1).headD '0'), s.drop 2)

/-- Go `time.leadingInt` followed by the "no rest" test of `time.atoi`: the
value of a string made of decimal digits only. -/
def allDigitsVal : List Char → Nat → Option Nat
  | [], n => some n
  | c :: cs, n => if '0' ≤ c ∧ c ≤ '9' then allDigitsVal cs (n * 10 + digitVal c) else none

/-- Go `time.atoi` (on the short strings the layout hands to it). -/
def atoi (s : List Char) : Option Int :=
  match s with
  | '-' :: r => (allDigitsVal r 0).map fun n => -(n : Int)
  | '+' :: r => (allDigitsVal r 0).map fun n => (n : Int)
  | r => (allDigitsVal r 0).map fun n => (n : Int)

/-- Go `time.skip(value, prefix)` for a one-byte prefix other than a space. -/
def skip (value : List Char) (pre : Char) : Option (List Char) :=
  match value with
  | c :: r => if c = pre then some r else none
  | [] => none

/-- Go `time.parseNanoseconds(value, nbytes)` with `nbytes ≤ 10` and
`nbytes ≤ len(value)`. -/
def parseNanoseconds (value : List Char) (nbytes : Nat) : Option Int :=
  match value with
  | c :: _ =>
    if c = '.' ∨ c = ',' then
      match atoi ((value.take nbytes).drop 1) with
      | some ns => if ns < 0 then none else some (ns * 10 ^ (10 - nbytes))
      | none => none
    else none
  | [] => none

/-- A range or shape test of the parser: `none` (a parse error) when the test
`bad` holds. -/
def failIf (bad : Bool) : Option Unit := if bad then none else some ()

/-- The chunks `2006/01/02` of the layout: year (`stdLongYear`, four digits),
`/`, month (`stdZeroMonth`, range-checked at once), `/`, day (`stdZeroDay`,
validated at the end).  Returns year, month, day and the unread rest. -/
def parseDateChunks (value : List Char) : Option (Int × Nat × Nat × List Char) := do
  failIf (value.length < 4 || !isDigit value 0)
  let year ← atoi (value.take 4)
  let value ← skip (value.drop 4) '/'
  let month ← getnum value true
  failIf (month.1 ≤ 0 || 12 < month.1)
  let value ← skip month.2 '/'
  let day ← getnum value true
  pure (year, month.1, day.1, day.2)

/-- The chunks `15:04:05` of the layout: hour (`stdHour`, one or two digits),
`:`, minute (`stdZeroMinute`), `:`, second (`stdZeroSecond`), each
range-checked.  Returns hour, minute, second and the unread rest. -/
def parseClockChunks (value : List Char) : Option (Nat × Nat × Nat × List Char) := do
  let hour ← getnum value false
  failIf (24 ≤ hour.1)
  let value ← skip hour.2 ':'
  let min ← getnum value true
  failIf (60 ≤ min.1)
  let value ← skip min.2 ':'
  let sec ← getnum value true
  failIf (60 ≤ sec.1)
  pure (hour.1, min.1, sec.1, sec.2)

/-- Go `time.ParseInLocation("2006/01/02T15:04:05.000", value, UTC)`: the
chunks of the layout are read in turn, then `.000` (`stdFracSecond0`, exactly
three digits), no text may be left, and the day of the month is validated;
`none` is a parse error. -/
def parseTime (value : List Char) : Option Time := do
  let date ← parseDateChunks value
  let value ← skip date.2.2.2 'T'
  let clock ← parseClockChunks value
  let value := clock.2.2.2
  failIf (value.length < 4)
  let nsec ← parseNanoseconds value 4
  failIf ((value.drop 4).length ≠ 0)
  failIf (date.2.2.1 < 1 || (date.2.2.1 : Int) > daysIn date.2.1 date.1)
  pure (Date date.1 date.2.1 date.2.2.1 clock.1 clock.2.1 clock.2.2.1 nsec.toNat)

/-! ## publisher/main.go -/

/-- The struct `radarRawLine`. -/
structure radarRawLine (F : Type) where
  status : String
  errorMessage : String
  messageType : String
  transmissionType : String
  sessionID : String
  aircraftID : String
  hexIdent : String
  flightID : String
  timestamp : Int
  callSign : String
  altitude : Int
  groundSpeed : F
  track : F
  latitude : F
  longitude : F
  verticalRate : Int
  squak : String
  alert : String
  emergency : String
  spiIdent : String
  isOnGround : String

/-- The zero value of `radarRawLine` (`var rawline radarRawLine`). -/
def radarRawLine.zeroValue (L : Strconv) : radarRawLine L.Float64 :=
  { status := "", errorMessage := "", messageType := "", transmissionType := "",
    sessionID := "", aircraftID := "", hexIdent := "", flightID := "", timestamp := 0,
    callSign := "", altitude := 0, groundSpeed := L.zero, track := L.zero,
    latitude := L.zero, longitude := L.zero, verticalRate := 0, squak := "", alert := "",
    emergency := "", spiIdent := "", isOnGround := "" }

/-- The function `dateStringToTimestamp`: a parse error is only logged, the
zero `Time` is then converted like any other. -/
def dateStringToTimestamp (dateString : String) : Int :=
  let t : Time :=
    match parseTime dateString.data with
    | some t => t
    | none => Time.zeroValue
  Int.tdiv t.UnixNano 1000000

/-- ALTITUDE block of `processLine`: `res` is the result of `strconv.ParseInt`. -/
def storeAltitude {F : Type} (rawline : radarRawLine F) (res : Except String Int) :
    radarRawLine F :=
  match res with
  | .error e => { rawline with status := "ERROR", errorMessage := e, altitude := 0 }
  | .ok altitude => { rawline with altitude := altitude }

/-- GROUND SPEED block of `processLine`. -/
def storeGroundSpeed {F : Type} (zero : F) (rawline : radarRawLine F) (res : Except String F) :
    radarRawLine F :=
  match res with
  | .error e => { rawline with status := "ERROR", errorMessage := e, groundSpeed := zero }
  | .ok groundSpeed => { rawline with groundSpeed := groundSpeed }

/-- TRACK block of `processLine`. -/
def storeTrack {F : Type} (zero : F) (rawline : radarRawLine F) (res : Except String F) :
    radarRawLine F :=
  match res with
  | .error e => { rawline with status := "ERROR", errorMessage := e, track := zero }
  | .ok track => { rawline with track := track }

/-- LATITUDE block of `processLine`. -/
def storeLatitude {F : Type} (zero : F) (rawline : radarRawLine F) (res : Except String F) :
    radarRawLine F :=
  match res with
  | .error e => { rawline with status := "ERROR", errorMessage := e, latitude := zero }
  | .ok latitude => { rawline with latitude := latitude }

/-- LONGITUDE block of `processLine`. -/
def storeLongitude {F : Type} (zero : F) (rawline : radarRawLine F) (res : Except String F) :
    radarRawLine F :=
  match res with
  | .error e => { rawline with status := "ERROR", errorMessage := e, longitude := zero }
  | .ok longitude => { rawline with longitude := longitude }

/-- VERTICAL RATE block of `processLine`. -/
def storeVerticalRate {F : Type} (rawline : radarRawLine F) (res : Except String Int) :
    radarRawLine F :=
  match res with
  | .error e => { rawline with status := "ERROR", errorMessage := e, verticalRate := 0 }
  | .ok verticalRate => { rawline with verticalRate := verticalRate }

/-- The Go expression `a[i]` followed by the rest `k` of the function: an
index out of range panics (`none`). -/
@[noinline] def index {β : Type} (a : List String) (i : Nat) (k : String → Option β) :
    Option β :=
  match a[i]? with
  | some x => k x
  | none => none

/-- The block "Add data for MSG" of `processLine` (taken when the line has 22
fields): each numeric field is parsed in turn; a failure sets `status` and
`errorMessage` and stores zero. -/
def processLineMsg (L : Strconv) (stringArray : List String)
    (rawline : radarRawLine L.Float64) : Option (radarRawLine L.Float64) :=
  index stringArray 10 fun f10 =>
  let rawline := { rawline with callSign := f10 }
  index stringArray 11 fun f11 =>
  let rawline := storeAltitude rawline (ParseInt L f11)
  index stringArray 12 fun f12 =>
  let rawline := storeGroundSpeed L.zero rawline (L.ParseFloat f12)
  index stringArray 13 fun f13 =>
  let rawline := storeTrack L.zero rawline (L.ParseFloat f13)
  index stringArray 14 fun f14 =>
  let rawline := storeLatitude L.zero rawline (L.ParseFloat f14)
  index stringArray 15 fun f15 =>
  let rawline := storeLongitude L.zero rawline (L.ParseFloat f15)
  index stringArray 16 fun f16 =>
  let rawline := storeVerticalRate rawline (ParseInt L f16)
  index stringArray 17 fun f17 =>
  index stringArray 18 fun f18 =>
  index stringArray 19 fun f19 =>
  index stringArray 20 fun f20 =>
  index stringArray 21 fun f21 =>
  some { rawline with
    squak := f17, alert := f18, emergency := f19, spiIdent := f20, isOnGround := f21 }

/-- The two length-guarded blocks of `processLine`: "Add on callsign for ID
message" (11 fields) and "Add data for MSG" (22 fields). -/
def processLineExtras (L : Strconv) (stringArray : List String)
    (rawline : radarRawLine L.Float64) : Option (radarRawLine L.Float64) :=
  let afterCallSign : Option (radarRawLine L.Float64) :=
    if stringArray.length = 11 then
      index stringArray 10 fun f10 => some { rawline with callSign := f10 }
    else some rawline
  afterCallSign.bind fun rawline =>
    if stringArray.length = 22 then processLineMsg L stringArray rawline
    else some rawline

/-- The function `processLine`: the eight common fields are read
unconditionally, then the length-guarded blocks run. -/
def processLine (L : Strconv) (line : String) : Option (radarRawLine L.Float64) :=
  let stringArray := Split line ','
  let rawline := radarRawLine.zeroValue L
  -- Common to All Messages
  index stringArray 0 fun f0 =>
  index stringArray 1 fun f1 =>
  index stringArray 2 fun f2 =>
  index stringArray 3 fun f3 =>
  index stringArray 4 fun f4 =>
  index stringArray 5 fun f5 =>
  index stringArray 6 fun f6 =>
  index stringArray 7 fun f7 =>
  let rawline := { rawline with
    messageType := f0, transmissionType := f1, sessionID := f2, aircraftID := f3,
    hexIdent := f4, flightID := f5, timestamp := dateStringToTimestamp (f6 ++ "T" ++ f7) }
  processLineExtras L stringArray rawline

/-- The function `processMsg1`. -/
def processMsg1 (L : Strconv) (messageData : radarRawLine L.Float64) : String :=
  let timestamp := messageData.timestamp
  let aircraftHexCode := messageData.hexIdent
  let callSign := messageData.callSign
  "1," ++ FormatInt timestamp ++ "," ++ aircraftHexCode ++ "," ++ callSign

/-- The function `processMsg2`. -/
def processMsg2 (L : Strconv) (messageData : radarRawLine L.Float64) : String :=
  let timestamp := messageData.timestamp
  let aircraftHexCode := messageData.hexIdent
  let altitude := messageData.altitude
  let latitude := messageData.latitude
  let longitude := messageData.longitude
  let onground := messageData.isOnGround
  "2," ++ FormatInt timestamp ++ "," ++ aircraftHexCode ++ "," ++ FormatInt altitude ++ ","
    ++ L.FormatFloat latitude 5 ++ "," ++ L.FormatFloat longitude 5 ++ "," ++ onground

/-- The function `processMsg3`. -/
def processMsg3 (L : Strconv) (messageData : radarRawLine L.Float64) : String :=
  let timestamp := messageData.timestamp
  let aircraftHexCode := messageData.hexIdent
  let altitude := messageData.altitude
  let latitude := messageData.latitude
  let longitude := messageData.longitude
  let onground := messageData.isOnGround
  "3," ++ FormatInt timestamp ++ "," ++ aircraftHexCode ++ "," ++ FormatInt altitude ++ ","
    ++ L.FormatFloat latitude 5 ++ "," ++ L.FormatFloat longitude 5 ++ "," ++ onground

/-- The function `processMsg4`. -/
def processMsg4 (L : Strconv) (messageData : radarRawLine L.Float64) : String :=
  let timestamp := messageData.timestamp
  let aircraftHexCode := messageData.hexIdent
  let speed := messageData.groundSpeed
  let track := messageData.track
  let verticalRate := messageData.verticalRate
  "4," ++ FormatInt timestamp ++ "," ++ aircraftHexCode ++ "," ++ L.FormatFloat speed 1 ++ ","
    ++ L.FormatFloat track 1 ++ "," ++ FormatInt verticalRate

/-- The function `processMsg5`. -/
def processMsg5 (L : Strconv) (messageData : radarRawLine L.Float64) : String :=
  let timestamp := messageData.timestamp
  let aircraftHexCode := messageData.hexIdent
  let altitude := messageData.altitude
  let onground := messageData.isOnGround
  "5," ++ FormatInt timestamp ++ "," ++ aircraftHexCode ++ "," ++ FormatInt altitude ++ ","
    ++ onground

/-- The function `processMsg6`. -/
def processMsg6 (L : Strconv) (messageData : radarRawLine L.Float64) : String :=
  let timestamp := messageData.timestamp
  let aircraftHexCode := messageData.hexIdent
  let altitude := messageData.altitude
  let squak := messageData.squak
  "6," ++ FormatInt timestamp ++ "," ++ aircraftHexCode ++ "," ++ FormatInt altitude ++ ","
    ++ squak

/-- The function `decodeData`: `processAIRMessage`, `processIDMessage` and
`processSTAMessage` have empty bodies, so those branches leave `message`
empty. -/
def decodeData (L : Strconv) (radarData : radarRawLine L.Float64) : String :=
  let message := ""
  if radarData.messageType = "AIR" then message
  else if radarData.messageType = "ID" then message
  else if radarData.messageType = "STA" then message
  else if radarData.messageType = "MSG" ∧ radarData.transmissionType = "1" then
    processMsg1 L radarData
  else if radarData.messageType = "MSG" ∧ radarData.transmissionType = "2" then
    processMsg2 L radarData
  else if radarData.messageType = "MSG" ∧ radarData.transmissionType = "3" then
    processMsg3 L radarData
  else if radarData.messageType = "MSG" ∧ radarData.transmissionType = "4" then
    processMsg4 L radarData
  else if radarData.messageType = "MSG" ∧ radarData.transmissionType = "5" then
    processMsg5 L radarData
  else if radarData.messageType = "MSG" ∧ radarData.transmissionType = "6" then
    processMsg6 L radarData
  else message

/-- The text `superString` that `compress` builds from the encoded messages:
each message followed by a newline. -/
def superString (decodedMessages : List String) : String :=
  decodedMessages.foldl (fun superString s => superString ++ s ++ "\n") ""

/-- The first loop of `compress`: every line is decoded and encoded, and the
non-empty encodings are appended to `decodedMessages`.  A panic of
`processLine` ends the function. -/
def decodedMessages (L : Strconv) (messageList : List String) : Option (List String) :=
  messageList.foldlM
    (fun decodedMessages s =>
      (processLine L s).map fun rawLine =>
        let processedLine := decodeData L rawLine
        if processedLine = "" then decodedMessages
        else decodedMessages ++ [processedLine])
    []

/-- The text that `compress` hands to the gzip writer. -/
def compressInput (L : Strconv) (messageList : List String) : Option String :=
  (decodedMessages L messageList).map superString

/-- The function `compress`; `gzip` is the gzip encoding of a text. -/
def compress (L : Strconv) {B : Type} (gzip : String → B) (messageList : List String) :
    Option B :=
  (compressInput L messageList).map gzip

/-- The variables of the read loop of `main`. -/
structure LoopState where
  tmpMessageBuffer : List String
  startTime : Int
  deriving DecidableEq, Repr

/-- One iteration of the loop `for scanner.Scan()` of `main` in which
`scanner.Err()` is nil.  `radarLine` is `scanner.Text()`, `endTime` is the
clock read after the append and `resetTime` the clock read after `send`; the
difference of the two `int64` readings wraps.  The result is the next state
and the payload handed to `send`, if any; `none` is a panic inside
`compress`. -/
def loopBody (L : Strconv) {B : Type} (gzip : String → B) (timeWindow : Int)
    (st : LoopState) (radarLine : String) (endTime resetTime : Int) :
    Option (LoopState × Option B) :=
  let tmpMessageBuffer := st.tmpMessageBuffer ++ [radarLine]
  let timeDelta := wrapInt64 (endTime - st.startTime)
  -- Check if time window for batch is exceeded
  if timeDelta ≥ timeWindow then
    (compress L gzip tmpMessageBuffer).map fun compressedMessage =>
      ({ tmpMessageBuffer := [], startTime := resetTime }, some compressedMessage)
  else some ({ tmpMessageBuffer := tmpMessageBuffer, startTime := st.startTime }, none)

/-- One arriving line with the two clock readings of its iteration. -/
structure Arrival where
  radarLine : String
  endTime : Int
  resetTime : Int
  deriving DecidableEq, Repr

/-- The read loop of `main` over a finite sequence of arrivals: the final
state and the payloads sent, in order. -/
def mainLoop (L : Strconv) {B : Type} (gzip : String → B) (timeWindow : Int) :
    LoopState → List Arrival → Option (LoopState × List B)
  | st, [] => some (st, [])
  | st, a :: rest =>
    match loopBody L gzip timeWindow st a.radarLine a.endTime a.resetTime with
    | none => none
    | some (st1, sent) =>
      (mainLoop L gzip timeWindow st1 rest).map fun r => (r.1, sent.toList ++ r.2)

/-- Go `bytes.Index(data, sep)`: the index of the first occurrence of `sep` in
`data`, or `-1`. -/
def Index : List Char → List Char → Int
  | [], sep => if sep = [] then 0 else -1
  | c :: rest, sep =>
    if sep.isPrefixOf (c :: rest) then 0
    else
      let i := Index rest sep
      if i < 0 then -1 else i + 1

/-- The function `dropCR`. -/
def dropCR (data : List Char) : List Char :=
  if data.length > 0 ∧ data[data.length - 1]? = some '\r' then data.take (data.length - 1)
  else data

/-- The function `ScanCRLF`: `(advance, token, err)`; a `nil` token or error
is `none`. -/
def ScanCRLF (data : List Char) (atEOF : Bool) : Int × Option (List Char) × Option String :=
  if atEOF ∧ data.length = 0 then (0, none, none)
  else
    let i := Index data ['\r', '\n']
    if i ≥ 0 then
      -- We have a full newline-terminated line.
      (i + 2, some (dropCR (data.take i.toNat)), none)
    else if atEOF then
      -- If we're at EOF, we have a final, non-terminated line. Return it.
      (data.length, some (dropCR data), none)
    else
      -- Request more data.
      (0, none, none)

/-! ## Vocabulary of the statements -/

/-- Field `i` of a line: the `i`-th piece between commas (empty when the line
has no such piece). -/
def field (line : String) (i : Nat) : String := (Split line ',').getD i ""

/-- The comma-join of a list of fields. -/
def joinComma (fields : List String) : String := String.intercalate "," fields

/-- The decoded value of a numeric field: the parsed value, or `zero` when the
parse failed. -/
def decoded {α : Type} (zero : α) (res : Except String α) : α :=
  match res with
  | .ok v => v
  | .error _ => zero

/-- The error text of a parse, if it failed. -/
def failure {α : Type} (res : Except String α) : Option String :=
  match res with
  | .ok _ => none
  | .error e => some e

/-- The error texts of the six numeric fields of a 22-field line that fail to
parse, in field order: altitude (11), ground speed (12), track (13), latitude
(14), longitude (15), vertical rate (16). -/
def numericFailures (L : Strconv) (line : String) : List String :=
  [failure (ParseInt L (field line 11)), failure (L.ParseFloat (field line 12)),
   failure (L.ParseFloat (field line 13)), failure (L.ParseFloat (field line 14)),
   failure (L.ParseFloat (field line 15)), failure (ParseInt L (field line 16))].filterMap id

/-- The encoding of a line: `decodeData (processLine line)`, or `none` when
`processLine` panics. -/
def encode (L : Strconv) (line : String) : Option String :=
  (processLine L line).map (decodeData L)

/-- An instance of the `strconv` interface on which the decoder can be
evaluated: a `float64` is a natural number, `ParseFloat` reads a run of
decimal digits without sign, point or exponent (anything else is a syntax
error), `FormatFloat` writes the digits followed by `prec` zero decimals, and
`Quote` puts the text between double quotes.  On digit strings below `2^53`
and on printable ASCII text without quote or backslash this is what Go's
`strconv` returns. -/
def sampleStrconv : Strconv where
  Float64 := Nat
  zero := 0
  ParseFloat := fun s =>
    match ParseUint s.data with
    | .ok n => .ok n
    | .error _ => .error ("strconv.ParseFloat: parsing \"" ++ s ++ "\": invalid syntax")
  FormatFloat := fun x prec =>
    if prec = 0 then toString x else toString x ++ "." ++ String.mk (List.replicate prec '0')
  Quote := fun s => "\"" ++ s ++ "\""

/-! ### Calendar vocabulary -/

/-- The Gregorian leap-year rule. -/
def isLeapYear (y : Nat) : Bool :=
  y % 4 = 0 ∧ (y % 100 ≠ 0 ∨ y % 400 = 0)

/-- The number of days of year `y`. -/
def daysInYear (y : Nat) : Nat := if isLeapYear y then 366 else 365

/-- The number of days of month `m` (1..12) of year `y`. -/
def daysInMonth (y m : Nat) : Nat :=
  match m with
  | 1 => 31
  | 2 => if isLeapYear y then 29 else 28
  | 3 => 31
  | 4 => 30
  | 5 => 31
  | 6 => 30
  | 7 => 31
  | 8 => 31
  | 9 => 30
  | 10 => 31
  | 11 => 30
  | 12 => 31
  | _ => 0

/-- The number of days from 0000-01-01 to the date `y-m-d`, counted year by
year and month by month. -/
def dayNumber (y m d : Nat) : Nat :=
  ((List.range y).map daysInYear).sum + ((List.range' 1 (m - 1)).map (daysInMonth y)).sum
    + (d - 1)

/-- The number of days from 1970-01-01 to the date `y-m-d` (negative before
1970). -/
def daysFromEpoch (y m d : Nat) : Int := (dayNumber y m d : Int) - (dayNumber 1970 1 1 : Int)

/-- The UTC epoch milliseconds of the instant `y-m-d hh:mm:ss.ms`. -/
def epochMillis (y m d hh mm ss ms : Nat) : Int :=
  (daysFromEpoch y m d * 86400 + hh * 3600 + mm * 60 + ss) * 1000 + ms

/-- A valid calendar date written with a four-digit year. -/
def validDate (y m d : Nat) : Prop :=
  y ≤ 9999 ∧ 1 ≤ m ∧ m ≤ 12 ∧ 1 ≤ d ∧ d ≤ daysInMonth y m

/-- A valid time of day with milliseconds. -/
def validTime (hh mm ss ms : Nat) : Prop :=
  hh < 24 ∧ mm < 60 ∧ ss < 60 ∧ ms < 1000

/-- The two decimal digits of `n < 100`. -/
def digits2 (n : Nat) : List Char := [Nat.digitChar (n / 10), Nat.digitChar (n % 10)]

/-- The three decimal digits of `n < 1000`. -/
def digits3 (n : Nat) : List Char := Nat.digitChar (n / 100) :: digits2 (n % 100)

/-- The four decimal digits of `n < 10000`. -/
def digits4 (n : Nat) : List Char := Nat.digitChar (n / 1000) :: digits3 (n % 1000)

/-- The date field `YYYY/MM/DD`. -/
def dateField (y m d : Nat) : String :=
  ⟨digits4 y ++ '/' :: digits2 m ++ '/' :: digits2 d⟩

/-- The time field `HH:MM:SS.mmm`. -/
def timeField (hh mm ss ms : Nat) : String :=
  ⟨digits2 hh ++ ':' :: digits2 mm ++ ':' :: digits2 ss ++ '.' :: digits3 ms⟩

/-! ## Library: more of strconv and time -/

/-- Go `strconv.ParseInt(s, 10, 64)` with the value it returns next to the
error: `0` with a syntax error, and the nearest `int64` with a range error. -/
def ParseIntValue (s : String) : Int × Option NumError :=
  if s = "" then (0, some .ErrSyntax)
  else
    let (neg, digits) : Bool × List Char :=
      match s.data with
      | '+' :: r => (false, r)
      | '-' :: r => (true, r)
      | r => (false, r)
    match ParseUint digits with
    | .error .ErrSyntax => (0, some .ErrSyntax)
    | .error .ErrRange => if neg then (-(2 ^ 63), some .ErrRange) else (2 ^ 63 - 1, some .ErrRange)
    | .ok un =>
      if !neg && un ≥ 2 ^ 63 then (2 ^ 63 - 1, some .ErrRange)
      else if neg && un > 2 ^ 63 then (-(2 ^ 63), some .ErrRange)
      else (if neg then -(un : Int) else (un : Int), none)

/-- Go `strconv.Itoa`. -/
def Itoa (i : Int) : String := FormatInt i

/-- The year and the day within the year (from 0) of the day that lies `days`
days after 0001-01-01: the 400-, 100-, 4- and 1-year cycles of Go's
`time.absDate`. -/
def absYear (days : Int) : Int × Int :=
  let d := days
  -- Account for 400 year cycles.
  let n := d / 146097
  let y := 400 * n
  let d := d - 146097 * n
  -- Cut off 100-year cycles.
  let n := d / 36524
  let n := n - n / 4
  let y := y + 100 * n
  let d := d - 36524 * n
  -- Cut off 4-year cycles.
  let n := d / 1461
  let y := y + 4 * n
  let d := d - 1461 * n
  -- Cut off years within a 4-year cycle.
  let n := d / 365
  let n := n - n / 4
  let y := y + n
  let d := d - 365 * n
  (y + 1, d)

/-- The month and the day of the month of day `yday` (from 0) of a year, as
`time.absDate` finds them: the leap day is set apart, then the month is
estimated as `day / 31` and adjusted with the table `daysBefore`. -/
def monthDay (leap : Bool) (yday : Nat) : Nat × Nat :=
  if leap ∧ yday = 31 + 29 - 1 then (2, 29)
  else
    let day := if leap ∧ yday > 31 + 29 - 1 then yday - 1 else yday
    let month := day / 31
    let endDay := (daysBefore (month + 1)).toNat
    if day ≥ endDay then (month + 2, day - endDay + 1)
    else (month + 1, day - (daysBefore month).toNat + 1)

/-- The days from 0001-01-01 to the day of `t` (`t.abs() / secondsPerDay`). -/
def Time.absDays (t : Time) : Int := (t.unixSec + 62135596800) / 86400

/-- Go `(Time).Year()`. -/
def Time.Year (t : Time) : Int := (absYear t.absDays).1

/-- Go `(Time).Month()`. -/
def Time.Month (t : Time) : Nat :=
  (monthDay (isLeap (absYear t.absDays).1) (absYear t.absDays).2.toNat).1

/-- Go `(Time).Day()`. -/
def Time.Day (t : Time) : Nat :=
  (monthDay (isLeap (absYear t.absDays).1) (absYear t.absDays).2.toNat).2

/-- Go `(Time).Clock()`: hour, minute and second of the day. -/
def Time.Clock (t : Time) : Nat × Nat × Nat :=
  let sec := ((t.unixSec + 62135596800) % 86400).toNat
  (sec / 3600, sec % 3600 / 60, sec % 60)

/-- Go `(Time).Add(d)` for a duration `d` in nanoseconds. -/
def Time.Add (t : Time) (d : Int) : Time :=
  let dsec := Int.tdiv d 1000000000
  let nsec := t.nsec + Int.tmod d 1000000000
  if nsec ≥ 1000000000 then ⟨t.unixSec + dsec + 1, nsec - 1000000000⟩
  else if nsec < 0 then ⟨t.unixSec + dsec - 1, nsec + 1000000000⟩
  else ⟨t.unixSec + dsec, nsec⟩

/-- Go `time.Hour`, in nanoseconds. -/
def Hour : Int := 3600000000000

/-! ## subscribers/store/main.go -/

/-- The function `genFileName`. -/
def genFileName (startTime : Time) : String :=
  let hour := startTime.Clock.1
  let year := startTime.Year
  let month := startTime.Month
  let day := startTime.Day
  let monthStr := if month < 10 then "0" ++ Itoa month else Itoa month
  let dayStr := if day < 10 then "0" ++ Itoa day else Itoa day
  let hourStr := if hour < 10 then "0" ++ Itoa hour else Itoa hour
  "fr-" ++ Itoa year ++ monthStr ++ dayStr ++ "_" ++ hourStr ++ "00.csv"

/-- The function `nextRollOver`; `currentTime` is the reading
`time.Now().In(loc)` of the wall clock.  Returns the deadline in epoch
milliseconds and the start of the window. -/
def nextRollOver (currentTime : Time) : Int × Time :=
  let hour := currentTime.Clock.1
  let year := currentTime.Year
  let month := currentTime.Month
  let day := currentTime.Day
  let windowInit := Date year month day hour 0 0 0
  let windowClose := windowInit.Add Hour
  let windowCloseTS := Int.tdiv windowClose.UnixNano 1000000
  (windowCloseTS, windowInit)

/-- A call of the `os` package made by `consume`, with the path of the file
it acts on. -/
inductive FileOp where
  | openAppend (path : String)
  | writeString (path : String) (text : String)
  | close (path : String)
  | rename (oldpath newpath : String)
  deriving DecidableEq, Repr

/-- The two ways in which `consume` ends the process. -/
inductive Exit where
  | fatal
  | panic
  deriving DecidableEq, Repr

/-- Equality of results is decidable. -/
instance decEqExcept {ε α : Type} [DecidableEq ε] [DecidableEq α] : DecidableEq (Except ε α)
  | .ok a, .ok b => if h : a = b then isTrue (by rw [h]) else isFalse (fun e => h (by cases e; rfl))
  | .error a, .error b =>
    if h : a = b then isTrue (by rw [h]) else isFalse (fun e => h (by cases e; rfl))
  | .ok _, .error _ => isFalse (fun e => by cases e)
  | .error _, .ok _ => isFalse (fun e => by cases e)

/-- What `consume` reads from its environment while it handles one line: the
wall clock, and whether `os.Rename` and `os.OpenFile` succeed. -/
structure Env where
  now : Time
  renameOk : Bool
  openOk : Bool
  deriving DecidableEq, Repr

/-- The variables of `consume`: the deadline `nextRoll`, `startTime`,
`filename`, the variable `fullpath` of the function body (the one that
`os.Rename` reads), and `file`, kept as the path it was opened on. -/
structure StoreState where
  nextRoll : Int
  startTime : Time
  filename : String
  fullpath : String
  file : String
  deriving DecidableEq, Repr

/-- The start of `consume`, before its loop; `joinPath filename` is
`filepath.Join(configuration.FilesPath, filename)`. -/
def consumeStart (joinPath : String → String) (env : Env) :
    Except Exit (StoreState × List FileOp) :=
  let (nextRoll, startTime) := nextRollOver env.now
  let filename := genFileName startTime
  let fullpath := joinPath filename
  if !env.openOk then .error .panic
  else
    .ok ({ nextRoll := nextRoll, startTime := startTime, filename := filename,
           fullpath := fullpath, file := fullpath ++ ".tmp" },
         [.openAppend (fullpath ++ ".tmp")])

/-- The body of the inner loop of `consume` for one `radarLine`: the next
state and the calls made, in order.  The `fullpath` declared inside the
rotation block is a new variable of that block: the variable `fullpath` of the
function body keeps its value. -/
def consumeLine (joinPath : String → String) (st : StoreState) (radarLine : String)
    (env : Env) : Except Exit (StoreState × List FileOp) :=
  let lineSplit := Split radarLine ','
  -- Last line is empty after split
  if lineSplit.length = 1 then .ok (st, [])
  else
    match lineSplit[1]? with
    | none => .error .panic
    | some timestampStr =>
      let timestamp := (ParseIntValue timestampStr).1
      if timestamp ≥ st.nextRoll then
        if !env.renameOk then .error .fatal
        else
          let (nextRoll, startTime) := nextRollOver env.now
          let filename := genFileName startTime
          let fullpathInner := joinPath filename
          if !env.openOk then .error .panic
          else
            .ok ({ nextRoll := nextRoll, startTime := startTime, filename := filename,
                   fullpath := st.fullpath, file := fullpathInner ++ ".tmp" },
                 [.close st.file, .rename (st.fullpath ++ ".tmp") st.fullpath,
                  .openAppend (fullpathInner ++ ".tmp"),
                  .writeString (fullpathInner ++ ".tmp") (radarLine ++ "\n")])
      else .ok (st, [.writeString st.file (radarLine ++ "\n")])

/-- The inner loop of `consume` over lines paired with the environment in
which each is handled. -/
def consumeLines (joinPath : String → String) :
    StoreState → List (String × Env) → Except Exit (StoreState × List FileOp)
  | st, [] => .ok (st, [])
  | st, (radarLine, env) :: rest =>
    match consumeLine joinPath st radarLine env with
    | .error e => .error e
    | .ok (st1, ops) =>
      match consumeLines joinPath st1 rest with
      | .error e => .error e
      | .ok (st2, ops2) => .ok (st2, ops ++ ops2)

/-- One pass of the outer loop of `consume`: the batch text `msg` is split on
newlines and every segment is handled in turn; `env i` is the environment of
segment `i`. -/
def consumeBatch (joinPath : String → String) (st : StoreState) (msg : String)
    (env : Nat → Env) : Except Exit (StoreState × List FileOp) :=
  consumeLines joinPath st ((Split msg '\n').enum.map fun p => (p.2, env p.1))

/-- A decimal number in fixed-point form with exactly `prec` digits after the
decimal point: an optional minus sign, at least one digit, a point, and `prec`
digits. -/
def isFixedPoint (prec : Nat) (s : String) : Prop :=
  ∃ sign intPart frac : List Char,
    s.data = sign ++ intPart ++ '.' :: frac ∧ (sign = [] ∨ sign = ['-']) ∧
    intPart ≠ [] ∧ (∀ c ∈ intPart, '0' ≤ c ∧ c ≤ '9') ∧
    frac.length = prec ∧ ∀ c ∈ frac, '0' ≤ c ∧ c ≤ '9'

/-- An instance of the `strconv` interface like `sampleStrconv` that also has
the value NaN (`none`): `ParseFloat` accepts the text "NaN" without error, as
Go's does, and `FormatFloat` writes it back as "NaN" whatever the precision. -/
def nanStrconv : Strconv where
  Float64 := Option Nat
  zero := some 0
  ParseFloat := fun s =>
    if s = "NaN" then .ok none
    else
      match ParseUint s.data with
      | .ok n => .ok (some n)
      | .error _ => .error ("strconv.ParseFloat: parsing \"" ++ s ++ "\": invalid syntax")
  FormatFloat := fun x prec =>
    match x with
    | none => "NaN"
    | some n =>
      if prec = 0 then toString n else toString n ++ "." ++ String.mk (List.replicate prec '0')
  Quote := fun s => "\"" ++ s ++ "\""

/-- The UTC epoch milliseconds of a clock reading. -/
def Time.millis (t : Time) : Int := t.unixSec * 1000 + t.nsec / 1000000

/-- The embedded timestamp of an encoded line as `consume` reads it: the value
that `strconv.ParseInt` returns for field 1. -/
def lineTimestamp (radarLine : String) : Int := (ParseIntValue (field radarLine 1)).1

/-- The segments of a batch that `consume` writes: those with more than one
comma-separated field. -/
def isRecord (radarLine : String) : Bool := (Split radarLine ',').length ≠ 1

/-! # Theorems -/

set_option maxRecDepth 8192

/-! ## Encoder dispatch -/


theorem append_ne_empty_left (a b : String) (h : a ≠ "") : a ++ b ≠ "" := by
  intro hab
  apply h
  have := congrArg String.data hab
  simp only [String.data_append] at this
  apply String.ext
  simp only [List.append_eq_nil] at this
  exact this.1

theorem processMsg1_ne_empty (L : Strconv) (r : radarRawLine L.Float64) :
    processMsg1 L r ≠ "" := by
  simp only [processMsg1]
  repeat apply append_ne_empty_left
  decide

theorem processMsg2_ne_empty (L : Strconv) (r : radarRawLine L.Float64) :
    processMsg2 L r ≠ "" := by
  simp only [processMsg2]
  repeat apply append_ne_empty_left
  decide

theorem processMsg3_ne_empty (L : Strconv) (r : radarRawLine L.Float64) :
    processMsg3 L r ≠ "" := by
  simp only [processMsg3]
  repeat apply append_ne_empty_left
  decide

theorem processMsg4_ne_empty (L : Strconv) (r : radarRawLine L.Float64) :
    processMsg4 L r ≠ "" := by
  simp only [processMsg4]
  repeat apply append_ne_empty_left
  decide

theorem processMsg5_ne_empty (L : Strconv) (r : radarRawLine L.Float64) :
    processMsg5 L r ≠ "" := by
  simp only [processMsg5]
  repeat apply append_ne_empty_left
  decide

theorem processMsg6_ne_empty (L : Strconv) (r : radarRawLine L.Float64) :
    processMsg6 L r ≠ "" := by
  simp only [processMsg6]
  repeat apply append_ne_empty_left
  decide

theorem decodeData_of_encoded (L : Strconv) (r : radarRawLine L.Float64)
    (hm : r.messageType = "MSG") (ht : r.transmissionType ∈ ["1", "2", "3", "4", "5", "6"]) :
    decodeData L r ≠ "" := by
  have hA : ¬ (("MSG" : String) = "AIR") := by decide
  have hI : ¬ (("MSG" : String) = "ID") := by decide
  have hS : ¬ (("MSG" : String) = "STA") := by decide
  simp only [List.mem_cons, List.mem_singleton, List.not_mem_nil, or_false] at ht
  unfold decodeData
  rw [hm]
  simp only [hA, hI, hS, if_false, true_and]
  rcases ht with h | h | h | h | h | h <;> rw [h]
  · rw [if_pos rfl]; exact processMsg1_ne_empty L r
  · rw [if_neg (by decide), if_pos rfl]; exact processMsg2_ne_empty L r
  · rw [if_neg (by decide), if_neg (by decide), if_pos rfl]; exact processMsg3_ne_empty L r
  · rw [if_neg (by decide), if_neg (by decide), if_neg (by decide), if_pos rfl]
    exact processMsg4_ne_empty L r
  · rw [if_neg (by decide), if_neg (by decide), if_neg (by decide), if_neg (by decide),
      if_pos rfl]
    exact processMsg5_ne_empty L r
  · rw [if_neg (by decide), if_neg (by decide), if_neg (by decide), if_neg (by decide),
      if_neg (by decide), if_pos rfl]
    exact processMsg6_ne_empty L r

theorem decodeData_of_not_encoded (L : Strconv) (r : radarRawLine L.Float64)
    (h : ¬ (r.messageType = "MSG" ∧ r.transmissionType ∈ ["1", "2", "3", "4", "5", "6"])) :
    decodeData L r = "" := by
  simp only [List.mem_cons, List.mem_singleton, List.not_mem_nil, or_false] at h
  unfold decodeData
  split_ifs with h1 h2 h3 h4 h5 h6 h7 h8 h9 <;> first | rfl | (exfalso; apply h; tauto)

/-- C1: `decodeData` returns a non-empty string exactly when `messageType` is
"MSG" and `transmissionType` is one of "1".."6"; for every other record (AIR,
ID, STA, any other message type, MSG with another subtype) it returns the
empty string. -/
theorem decodeData_nonempty_iff (L : Strconv) (r : radarRawLine L.Float64) :
    (decodeData L r ≠ "" ↔
      r.messageType = "MSG" ∧ r.transmissionType ∈ ["1", "2", "3", "4", "5", "6"]) ∧
    (decodeData L r = "" ↔
      ¬ (r.messageType = "MSG" ∧ r.transmissionType ∈ ["1", "2", "3", "4", "5", "6"])) := by
  have key : decodeData L r ≠ "" ↔
      r.messageType = "MSG" ∧ r.transmissionType ∈ ["1", "2", "3", "4", "5", "6"] := by
    refine ⟨fun hne => ?_, fun h => decodeData_of_encoded L r h.1 h.2⟩
    by_contra h
    exact hne (decodeData_of_not_encoded L r h)
  refine ⟨key, ⟨fun h hc => key.mpr hc h, decodeData_of_not_encoded L r⟩⟩


/-! ## Decoding a 22-field line -/


theorem exists_list22 (l : List String) (h : l.length = 22) :
    ∃ a0 a1 a2 a3 a4 a5 a6 a7 a8 a9 a10 a11 a12 a13 a14 a15 a16 a17 a18 a19 a20 a21,
      l = [a0, a1, a2, a3, a4, a5, a6, a7, a8, a9, a10, a11, a12, a13, a14, a15, a16, a17, a18,
        a19, a20, a21] := by
  refine ⟨l.getD 0 "", l.getD 1 "", l.getD 2 "", l.getD 3 "", l.getD 4 "", l.getD 5 "",
    l.getD 6 "", l.getD 7 "", l.getD 8 "", l.getD 9 "", l.getD 10 "", l.getD 11 "",
    l.getD 12 "", l.getD 13 "", l.getD 14 "", l.getD 15 "", l.getD 16 "", l.getD 17 "",
    l.getD 18 "", l.getD 19 "", l.getD 20 "", l.getD 21 "", ?_⟩
  apply List.ext_getElem
  · simp [h]
  · intro i h1 h2
    simp only [List.length_cons, List.length_nil] at h2
    have hi : i < 22 := by omega
    interval_cases i <;> simp [List.getD_eq_getElem?_getD, List.getElem?_eq_getElem, h]

theorem index_cons_zero {β : Type} (a : String) (l : List String) (k : String → Option β) :
    index (a :: l) 0 k = k a := by simp [index]

theorem index_cons_succ {β : Type} (a : String) (l : List String) (i : Nat)
    (k : String → Option β) : index (a :: l) (i + 1) k = index l i k := by simp [index]

theorem index_nil {β : Type} (i : Nat) (k : String → Option β) : index [] i k = none := by simp [index]

theorem storeAltitude_eq {F : Type} (r : radarRawLine F) (res : Except String Int) :
    storeAltitude r res =
      { r with
        status := if (failure res).isSome then "ERROR" else r.status
        errorMessage := (failure res).getD r.errorMessage
        altitude := decoded 0 res } := by
  cases res <;> rfl


theorem storeVerticalRate_eq {F : Type} (r : radarRawLine F) (res : Except String Int) :
    storeVerticalRate r res =
      { r with
        status := if (failure res).isSome then "ERROR" else r.status
        errorMessage := (failure res).getD r.errorMessage
        verticalRate := decoded 0 res } := by
  cases res <;> rfl

theorem storeGroundSpeed_eq {F : Type} (z : F) (r : radarRawLine F) (res : Except String F) :
    storeGroundSpeed z r res =
      { r with
        status := if (failure res).isSome then "ERROR" else r.status
        errorMessage := (failure res).getD r.errorMessage
        groundSpeed := decoded z res } := by
  cases res <;> rfl

theorem storeTrack_eq {F : Type} (z : F) (r : radarRawLine F) (res : Except String F) :
    storeTrack z r res =
      { r with
        status := if (failure res).isSome then "ERROR" else r.status
        errorMessage := (failure res).getD r.errorMessage
        track := decoded z res } := by
  cases res <;> rfl

theorem storeLatitude_eq {F : Type} (z : F) (r : radarRawLine F) (res : Except String F) :
    storeLatitude z r res =
      { r with
        status := if (failure res).isSome then "ERROR" else r.status
        errorMessage := (failure res).getD r.errorMessage
        latitude := decoded z res } := by
  cases res <;> rfl

theorem storeLongitude_eq {F : Type} (z : F) (r : radarRawLine F) (res : Except String F) :
    storeLongitude z r res =
      { r with
        status := if (failure res).isSome then "ERROR" else r.status
        errorMessage := (failure res).getD r.errorMessage
        longitude := decoded z res } := by
  cases res <;> rfl

/-- The record that `processLine` builds from a line with 22 fields. -/
theorem processLine_of_22 (L : Strconv) (line : String)
    (a0 a1 a2 a3 a4 a5 a6 a7 a8 a9 a10 a11 a12 a13 a14 a15 a16 a17 a18 a19 a20 a21 : String)
    (h : Split line ',' = [a0, a1, a2, a3, a4, a5, a6, a7, a8, a9, a10, a11, a12, a13, a14,
      a15, a16, a17, a18, a19, a20, a21]) :
    ∃ r, processLine L line = some r ∧
      r.messageType = a0 ∧ r.transmissionType = a1 ∧ r.hexIdent = a4 ∧
      r.timestamp = dateStringToTimestamp (a6 ++ "T" ++ a7) ∧
      r.callSign = a10 ∧
      r.altitude = decoded 0 (ParseInt L a11) ∧
      r.groundSpeed = decoded L.zero (L.ParseFloat a12) ∧
      r.track = decoded L.zero (L.ParseFloat a13) ∧
      r.latitude = decoded L.zero (L.ParseFloat a14) ∧
      r.longitude = decoded L.zero (L.ParseFloat a15) ∧
      r.verticalRate = decoded 0 (ParseInt L a16) ∧
      r.squak = a17 ∧ r.alert = a18 ∧ r.emergency = a19 ∧ r.spiIdent = a20 ∧
      r.isOnGround = a21 ∧
      (r.status = if [failure (ParseInt L a11), failure (L.ParseFloat a12),
          failure (L.ParseFloat a13), failure (L.ParseFloat a14), failure (L.ParseFloat a15),
          failure (ParseInt L a16)].filterMap id = [] then "" else "ERROR") ∧
      r.errorMessage = ([failure (ParseInt L a11), failure (L.ParseFloat a12),
          failure (L.ParseFloat a13), failure (L.ParseFloat a14), failure (L.ParseFloat a15),
          failure (ParseInt L a16)].filterMap id).getLast?.getD "" := by
  unfold processLine
  simp only [h, index_cons_zero, index_cons_succ, processLineExtras, List.length_cons,
    List.length_nil, processLineMsg, storeAltitude_eq, storeGroundSpeed_eq, storeTrack_eq,
    storeLatitude_eq, storeLongitude_eq, storeVerticalRate_eq]
  refine ⟨_, rfl, ?_⟩
  simp only [true_and]
  generalize failure (ParseInt L a11) = e1
  generalize failure (L.ParseFloat a12) = e2
  generalize failure (L.ParseFloat a13) = e3
  generalize failure (L.ParseFloat a14) = e4
  generalize failure (L.ParseFloat a15) = e5
  generalize failure (ParseInt L a16) = e6
  cases e1 <;> cases e2 <;> cases e3 <;> cases e4 <;> cases e5 <;> cases e6 <;>
    simp [radarRawLine.zeroValue]

theorem field_of_split (line : String) (l : List String) (h : Split line ',' = l) (i : Nat) :
    field line i = l.getD i "" := by
  simp [field, h]

theorem joinComma_eq (a : String) (l : List String) :
    joinComma (a :: l) = l.foldl (fun acc x => acc ++ "," ++ x) a := by
  unfold joinComma String.intercalate
  induction l generalizing a with
  | nil => rfl
  | cons b l ih => simpa [String.intercalate.go] using ih (a ++ "," ++ b)

/-- The record of a 22-field line, with the fields named through `field`. -/
theorem processLine_fields (L : Strconv) (line : String)
    (hlen : (Split line ',').length = 22) :
    ∃ r, processLine L line = some r ∧
      r.messageType = field line 0 ∧ r.transmissionType = field line 1 ∧
      r.hexIdent = field line 4 ∧
      r.timestamp = dateStringToTimestamp (field line 6 ++ "T" ++ field line 7) ∧
      r.callSign = field line 10 ∧
      r.altitude = decoded 0 (ParseInt L (field line 11)) ∧
      r.groundSpeed = decoded L.zero (L.ParseFloat (field line 12)) ∧
      r.track = decoded L.zero (L.ParseFloat (field line 13)) ∧
      r.latitude = decoded L.zero (L.ParseFloat (field line 14)) ∧
      r.longitude = decoded L.zero (L.ParseFloat (field line 15)) ∧
      r.verticalRate = decoded 0 (ParseInt L (field line 16)) ∧
      r.squak = field line 17 ∧ r.alert = field line 18 ∧ r.emergency = field line 19 ∧
      r.spiIdent = field line 20 ∧ r.isOnGround = field line 21 ∧
      (r.status = if numericFailures L line = [] then "" else "ERROR") ∧
      r.errorMessage = (numericFailures L line).getLast?.getD "" := by
  obtain ⟨a0, a1, a2, a3, a4, a5, a6, a7, a8, a9, a10, a11, a12, a13, a14, a15, a16, a17, a18,
    a19, a20, a21, h⟩ := exists_list22 _ hlen
  have hf : ∀ i, field line i = [a0, a1, a2, a3, a4, a5, a6, a7, a8, a9, a10, a11, a12, a13,
      a14, a15, a16, a17, a18, a19, a20, a21].getD i "" := field_of_split line _ h
  have := processLine_of_22 L line a0 a1 a2 a3 a4 a5 a6 a7 a8 a9 a10 a11 a12 a13 a14 a15 a16
    a17 a18 a19 a20 a21 h
  simpa only [numericFailures, hf, List.getD_cons_zero, List.getD_cons_succ] using this

/-! ## Decode then encode -/

/-- C2: for a line with exactly 22 comma-separated fields whose field 0 is
"MSG" and whose field 1 is the subtype k in 1..6, `decodeData (processLine
line)` is the comma-join of the subtype's fields in order: k=1: [1, ts, f4,
f10]; k=2,3: [k, ts, f4, altitude, lat, lon, f21]; k=4: [4, ts, f4, speed,
track, verticalRate]; k=5: [5, ts, f4, altitude, f21]; k=6: [6, ts, f4,
altitude, f17], where ts is the decimal timestamp decoded from f6 and f7 and
each numeric is the rendering of the decoded value of its field (f11
altitude, f12 speed, f13 track, f14 latitude, f15 longitude, f16 vertical
rate). -/
theorem decode_encode_fields (L : Strconv) (line : String)
    (hlen : (Split line ',').length = 22) (hmsg : field line 0 = "MSG") :
    let f := field line
    let ts := FormatInt (dateStringToTimestamp (f 6 ++ "T" ++ f 7))
    let altitude := FormatInt (decoded 0 (ParseInt L (f 11)))
    let speed := L.FormatFloat (decoded L.zero (L.ParseFloat (f 12))) 1
    let track := L.FormatFloat (decoded L.zero (L.ParseFloat (f 13))) 1
    let lat := L.FormatFloat (decoded L.zero (L.ParseFloat (f 14))) 5
    let lon := L.FormatFloat (decoded L.zero (L.ParseFloat (f 15))) 5
    let verticalRate := FormatInt (decoded 0 (ParseInt L (f 16)))
    (f 1 = "1" → (processLine L line).map (decodeData L)
        = some (joinComma ["1", ts, f 4, f 10])) ∧
    (f 1 = "2" → (processLine L line).map (decodeData L)
        = some (joinComma ["2", ts, f 4, altitude, lat, lon, f 21])) ∧
    (f 1 = "3" → (processLine L line).map (decodeData L)
        = some (joinComma ["3", ts, f 4, altitude, lat, lon, f 21])) ∧
    (f 1 = "4" → (processLine L line).map (decodeData L)
        = some (joinComma ["4", ts, f 4, speed, track, verticalRate])) ∧
    (f 1 = "5" → (processLine L line).map (decodeData L)
        = some (joinComma ["5", ts, f 4, altitude, f 21])) ∧
    (f 1 = "6" → (processLine L line).map (decodeData L)
        = some (joinComma ["6", ts, f 4, altitude, f 17])) := by
  obtain ⟨r, hr, h0, h1, h4, hts, h10, h11, h12, h13, h14, h15, h16, h17, _, _, _, h21, _, _⟩ :=
    processLine_fields L line hlen
  have hA : ¬ (("MSG" : String) = "AIR") := by decide
  have hI : ¬ (("MSG" : String) = "ID") := by decide
  have hS : ¬ (("MSG" : String) = "STA") := by decide
  have hd : decodeData L r =
      if r.transmissionType = "1" then processMsg1 L r
      else if r.transmissionType = "2" then processMsg2 L r
      else if r.transmissionType = "3" then processMsg3 L r
      else if r.transmissionType = "4" then processMsg4 L r
      else if r.transmissionType = "5" then processMsg5 L r
      else if r.transmissionType = "6" then processMsg6 L r
      else "" := by
    unfold decodeData
    rw [h0, hmsg]
    simp only [hA, hI, hS, if_false, true_and]
  dsimp only
  rw [hr, Option.map_some', hd, h1]
  refine ⟨fun hk => ?_, fun hk => ?_, fun hk => ?_, fun hk => ?_, fun hk => ?_, fun hk => ?_⟩
  · rw [hk, if_pos rfl]
    simp only [processMsg1, joinComma_eq, List.foldl_cons, List.foldl_nil, h4, hts, h10]
    rfl
  · rw [hk, if_neg (by decide), if_pos rfl]
    simp only [processMsg2, joinComma_eq, List.foldl_cons, List.foldl_nil, h4, hts, h11, h14,
      h15, h21]
    rfl
  · rw [hk, if_neg (by decide), if_neg (by decide), if_pos rfl]
    simp only [processMsg3, joinComma_eq, List.foldl_cons, List.foldl_nil, h4, hts, h11, h14,
      h15, h21]
    rfl
  · rw [hk, if_neg (by decide), if_neg (by decide), if_neg (by decide), if_pos rfl]
    simp only [processMsg4, joinComma_eq, List.foldl_cons, List.foldl_nil, h4, hts, h12, h13,
      h16]
    rfl
  · rw [hk, if_neg (by decide), if_neg (by decide), if_neg (by decide), if_neg (by decide),
      if_pos rfl]
    simp only [processMsg5, joinComma_eq, List.foldl_cons, List.foldl_nil, h4, hts, h11, h21]
    rfl
  · rw [hk, if_neg (by decide), if_neg (by decide), if_neg (by decide), if_neg (by decide),
      if_neg (by decide), if_pos rfl]
    simp only [processMsg6, joinComma_eq, List.foldl_cons, List.foldl_nil, h4, hts, h11, h17]
    rfl

/-- C2 at a subtype-3 line of the feed. -/
theorem decode_encode_fields_witness :
    (Split "MSG,3,1,1,4840D6,1,2020/01/01,00:00:00.000,2020/01/01,00:00:00.000,,37000,,,51,9,,,0,0,0,0"
        ',').length = 22 ∧
    field "MSG,3,1,1,4840D6,1,2020/01/01,00:00:00.000,2020/01/01,00:00:00.000,,37000,,,51,9,,,0,0,0,0"
        0 = "MSG" ∧
    (processLine sampleStrconv
        "MSG,3,1,1,4840D6,1,2020/01/01,00:00:00.000,2020/01/01,00:00:00.000,,37000,,,51,9,,,0,0,0,0").map
      (decodeData sampleStrconv) = some "3,1577836800000,4840D6,37000,51.00000,9.00000,0" :=
  ⟨by decide, by decide,
    ((decode_encode_fields sampleStrconv _ (by decide) (by decide)).2.2.1 (by decide)).trans
      (by decide)⟩

/-! ## Panics of `processLine` -/

theorem index_of_lt {β : Type} (a : List String) (i : Nat) (k : String → Option β)
    (h : i < a.length) : index a i k = k (a.getD i "") := by
  simp [index, List.getElem?_eq_getElem h, List.getD_eq_getElem?_getD]

theorem index_of_le {β : Type} (a : List String) (i : Nat) (k : String → Option β)
    (h : a.length ≤ i) : index a i k = none := by
  simp [index, List.getElem?_eq_none h]

theorem processLineMsg_isSome (L : Strconv) (l : List String) (r : radarRawLine L.Float64)
    (h : l.length = 22) : (processLineMsg L l r).isSome = true := by
  unfold processLineMsg
  simp only [index_of_lt l _ _ (show 10 < l.length by omega),
    index_of_lt l _ _ (show 11 < l.length by omega),
    index_of_lt l _ _ (show 12 < l.length by omega),
    index_of_lt l _ _ (show 13 < l.length by omega),
    index_of_lt l _ _ (show 14 < l.length by omega),
    index_of_lt l _ _ (show 15 < l.length by omega),
    index_of_lt l _ _ (show 16 < l.length by omega),
    index_of_lt l _ _ (show 17 < l.length by omega),
    index_of_lt l _ _ (show 18 < l.length by omega),
    index_of_lt l _ _ (show 19 < l.length by omega),
    index_of_lt l _ _ (show 20 < l.length by omega),
    index_of_lt l _ _ (show 21 < l.length by omega), Option.isSome_some]

theorem processLineExtras_isSome (L : Strconv) (l : List String) (r : radarRawLine L.Float64) :
    (processLineExtras L l r).isSome = true := by
  unfold processLineExtras
  by_cases h11 : l.length = 11
  · have h22 : ¬ l.length = 22 := by omega
    simp only [if_pos h11, if_neg h22, index_of_lt l 10 _ (show 10 < l.length by omega),
      Option.some_bind, Option.isSome_some]
  · by_cases h22 : l.length = 22
    · simp only [if_neg h11, if_pos h22, Option.some_bind]
      exact processLineMsg_isSome L l _ h22
    · simp only [if_neg h11, if_neg h22, Option.some_bind, Option.isSome_some]

/-- `processLine` returns a record exactly on the lines with at least eight
comma-separated fields; on every shorter line it panics. -/
theorem processLine_isSome_iff (L : Strconv) (line : String) :
    (processLine L line).isSome = true ↔ 8 ≤ (Split line ',').length := by
  unfold processLine
  generalize Split line ',' = l
  by_cases h : 8 ≤ l.length
  · simp only [h, iff_true]
    simp only [index_of_lt l _ _ (show 0 < l.length by omega),
      index_of_lt l _ _ (show 1 < l.length by omega),
      index_of_lt l _ _ (show 2 < l.length by omega),
      index_of_lt l _ _ (show 3 < l.length by omega),
      index_of_lt l _ _ (show 4 < l.length by omega),
      index_of_lt l _ _ (show 5 < l.length by omega),
      index_of_lt l _ _ (show 6 < l.length by omega),
      index_of_lt l _ _ (show 7 < l.length by omega)]
    exact processLineExtras_isSome L l _
  · simp only [h, iff_false, Bool.not_eq_true, Option.not_isSome, Option.isNone_iff_eq_none]
    have hl : l.length < 8 := by omega
    rcases l with _ | ⟨a0, _ | ⟨a1, _ | ⟨a2, _ | ⟨a3, _ | ⟨a4, _ | ⟨a5, _ | ⟨a6, _ | ⟨a7, t⟩⟩⟩⟩⟩⟩⟩⟩
    all_goals first
      | (simp only [List.length_cons] at hl; omega)
      | simp only [index_cons_zero, index_cons_succ, index_nil]

/-- C3 (failing input): on the empty line, whose split has a single field,
`processLine` reads `stringArray[1]` out of range and panics; no record is
returned. -/
theorem processLine_empty_line_panics (L : Strconv) :
    (Split "" ',').length = 1 ∧ processLine L "" = none := by
  refine ⟨by decide, ?_⟩
  have h := processLine_isSome_iff L ""
  have hlen : ¬ 8 ≤ (Split "" ',').length := by decide
  cases hp : processLine L "" with
  | none => rfl
  | some r => rw [hp] at h; exact absurd (h.mp rfl) hlen

/-! ## Line framing -/

theorem crlf_isPrefixOf (l : List Char) :
    List.isPrefixOf ['\r', '\n'] l = true ↔ ∃ t, l = '\r' :: '\n' :: t := by
  rcases l with _ | ⟨x, _ | ⟨y, t⟩⟩
  · refine ⟨fun h => ?_, ?_⟩
    · cases h
    · rintro ⟨t, ht⟩
      cases ht
  · refine ⟨fun h => ?_, ?_⟩
    · simp only [List.isPrefixOf, Bool.and_false] at h
      cases h
    · rintro ⟨t, ht⟩
      cases ht
  · simp only [List.isPrefixOf, Bool.and_true, Bool.and_eq_true, beq_iff_eq]
    constructor
    · rintro ⟨rfl, rfl⟩
      exact ⟨t, rfl⟩
    · rintro ⟨t', ht⟩
      simp only [List.cons.injEq] at ht
      exact ⟨ht.1.symm, ht.2.1.symm⟩

/-- Without an occurrence of `\r\n` the search fails. -/
theorem Index_of_no_crlf (l : List Char) (h : ¬ ['\r', '\n'] <:+: l) :
    Index l ['\r', '\n'] = -1 := by
  induction l with
  | nil => rfl
  | cons c rest ih =>
    have hrest : ¬ ['\r', '\n'] <:+: rest := fun hc => h (hc.trans (List.suffix_cons c rest).isInfix)
    have hp : ¬ List.isPrefixOf ['\r', '\n'] (c :: rest) = true := by
      rw [crlf_isPrefixOf]
      rintro ⟨t, ht⟩
      exact h ⟨[], t, by simp [ht]⟩
    unfold Index
    rw [if_neg hp, ih hrest]
    rfl

/-- The first `\r\n` after a prefix that has none and does not end in `\r` is
found right after the prefix. -/
theorem Index_append_crlf (a c : List Char) (h : ¬ ['\r', '\n'] <:+: a)
    (hlast : a.getLast? ≠ some '\r') :
    Index (a ++ '\r' :: '\n' :: c) ['\r', '\n'] = a.length := by
  induction a with
  | nil =>
    show Index ('\r' :: '\n' :: c) ['\r', '\n'] = 0
    unfold Index
    rw [if_pos (by simp [List.isPrefixOf])]
  | cons x rest ih =>
    have hrest : ¬ ['\r', '\n'] <:+: rest := fun hc => h (hc.trans (List.suffix_cons x rest).isInfix)
    have hlast' : rest.getLast? ≠ some '\r' := by
      rcases rest with _ | ⟨y, t⟩
      · simp
      · simpa [List.getLast?_cons_cons] using hlast
    have hp : ¬ List.isPrefixOf ['\r', '\n'] (x :: (rest ++ '\r' :: '\n' :: c)) = true := by
      rw [crlf_isPrefixOf]
      rintro ⟨t, ht⟩
      rcases rest with _ | ⟨y, t'⟩
      · simp only [List.cons_append, List.nil_append, List.cons.injEq] at ht
        apply hlast
        simp [ht.1]
      · simp only [List.cons_append, List.cons.injEq] at ht
        exact h ⟨[], t', by simp [ht.1, ht.2.1]⟩
    show Index (x :: (rest ++ '\r' :: '\n' :: c)) ['\r', '\n'] = _
    unfold Index
    rw [if_neg hp, ih hrest hlast']
    simp only [List.length_cons, Nat.cast_add, Nat.cast_one]
    rw [if_neg (by omega)]

theorem dropCR_of_last (data : List Char) (h : data.getLast? ≠ some '\r') : dropCR data = data := by
  unfold dropCR
  rw [if_neg]
  rintro ⟨_, h2⟩
  exact h (by rw [List.getLast?_eq_getElem?]; exact h2)

/-- C4: for `a` without "\r\n" and not ending in '\r', and non-empty `c`
without "\r\n" and not ending in '\r', `ScanCRLF (a ++ "\r\n" ++ c, atEOF)`
returns advance `len(a) + 2` and token `a` with no error, and then
`ScanCRLF (c, true)` returns advance `len(c)` and token `c`; so "A,B\r\nC"
yields the frames "A,B" and then, at end of stream, "C". -/
theorem ScanCRLF_frames (a c : List Char) (atEOF : Bool)
    (ha : ¬ ['\r', '\n'] <:+: a) (ha' : a.getLast? ≠ some '\r')
    (hc0 : c ≠ []) (hc : ¬ ['\r', '\n'] <:+: c) (hc' : c.getLast? ≠ some '\r') :
    ScanCRLF (a ++ ['\r', '\n'] ++ c) atEOF = ((a.length : Int) + 2, some a, none) ∧
    ScanCRLF c true = ((c.length : Int), some c, none) ∧
    ScanCRLF "A,B\r\nC".data false = (5, some "A,B".data, none) ∧
    ScanCRLF "C".data true = (1, some "C".data, none) := by
  refine ⟨?_, ?_, by decide, by decide⟩
  · have hi : Index (a ++ ['\r', '\n'] ++ c) ['\r', '\n'] = a.length := by
      simpa using Index_append_crlf a c ha ha'
    unfold ScanCRLF
    rw [if_neg (by simp)]
    simp only [hi]
    rw [if_pos (by omega)]
    simp [dropCR_of_last a ha']
  · unfold ScanCRLF
    rw [if_neg (by simp [hc0])]
    simp only [Index_of_no_crlf c hc]
    rw [if_neg (by decide), if_pos trivial, dropCR_of_last c hc']

/-- C4 at the stream "A,B\r\nC". -/
theorem ScanCRLF_frames_witness :
    ScanCRLF ("A,B".data ++ ['\r', '\n'] ++ "C".data) false
      = ((("A,B".data).length : Int) + 2, some "A,B".data, none) ∧
    ScanCRLF "C".data true = ((("C".data).length : Int), some "C".data, none) :=
  let h := ScanCRLF_frames "A,B".data "C".data false (by decide) (by decide) (by decide)
    (by decide) (by decide)
  ⟨h.1, h.2.1⟩

/-! ## The batch text -/

theorem string_append_assoc (a b c : String) : a ++ b ++ c = a ++ (b ++ c) := by
  apply String.ext
  simp only [String.data_append, List.append_assoc]

theorem string_empty_append (a : String) : "" ++ a = a := by
  apply String.ext
  simp only [String.data_append]
  rfl

theorem string_join_cons (a : String) (l : List String) :
    String.join (a :: l) = a ++ String.join l := by
  have key : ∀ (l : List String) (init : String),
      List.foldl (fun r s => r ++ s) init l = init ++ List.foldl (fun r s => r ++ s) "" l := by
    intro l
    induction l with
    | nil =>
      intro init
      apply String.ext
      simp only [List.foldl_nil, String.data_append]
      exact (List.append_nil _).symm
    | cons b l ih =>
      intro init
      simp only [List.foldl_cons]
      rw [ih (init ++ b), ih ("" ++ b), string_empty_append, string_append_assoc]
  unfold String.join
  rw [List.foldl_cons, key l ("" ++ a), string_empty_append]

theorem string_join_nil : String.join [] = "" := rfl

theorem superString_foldl (l : List String) (init : String) :
    List.foldl (fun superString s => superString ++ s ++ "\n") init l
      = init ++ String.join (l.map (· ++ "\n")) := by
  induction l generalizing init with
  | nil =>
    apply String.ext
    simp only [List.foldl_nil, List.map_nil, string_join_nil, String.data_append]
    exact (List.append_nil _).symm
  | cons a l ih =>
    simp only [List.foldl_cons, List.map_cons, string_join_cons]
    rw [ih, string_append_assoc, string_append_assoc, string_append_assoc]

/-- The accumulated text is the concatenation of the messages, each followed
by a newline. -/
theorem superString_eq (l : List String) : superString l = String.join (l.map (· ++ "\n")) := by
  unfold superString
  rw [superString_foldl, string_empty_append]

theorem decodedMessages_foldlM (L : Strconv) (lines : List String)
    (h : ∀ l ∈ lines, (processLine L l).isSome = true) (acc : List String) :
    List.foldlM
      (fun decodedMessages s =>
        (processLine L s).map fun rawLine =>
          let processedLine := decodeData L rawLine
          if processedLine = "" then decodedMessages
          else decodedMessages ++ [processedLine])
      acc lines
      = some (acc ++ (lines.filterMap (encode L)).filter (· ≠ "")) := by
  induction lines generalizing acc with
  | nil => simp
  | cons s rest ih =>
    have hs := h s (List.mem_cons_self _ _)
    obtain ⟨r, hr⟩ := Option.isSome_iff_exists.mp hs
    have hrest : ∀ l ∈ rest, (processLine L l).isSome = true :=
      fun l hl => h l (List.mem_cons_of_mem _ hl)
    rw [List.foldlM_cons, hr]
    simp only [Option.map_some', Option.bind_eq_bind, Option.some_bind]
    rw [ih hrest]
    have he : encode L s = some (decodeData L r) := by simp [encode, hr]
    rw [List.filterMap_cons_some he]
    by_cases hd : decodeData L r = ""
    · simp [hd]
    · simp [hd]

/-- The non-empty encodings of a list of lines, in arrival order. -/
theorem decodedMessages_eq (L : Strconv) (lines : List String)
    (h : ∀ l ∈ lines, (processLine L l).isSome = true) :
    decodedMessages L lines = some ((lines.filterMap (encode L)).filter (· ≠ "")) := by
  unfold decodedMessages
  rw [decodedMessages_foldlM L lines h []]
  rfl

/-- The text handed to gzip, for lines on which `processLine` returns. -/
theorem compressInput_eq (L : Strconv) (lines : List String)
    (h : ∀ l ∈ lines, (processLine L l).isSome = true) :
    compressInput L lines
      = some (String.join (((lines.filterMap (encode L)).filter (· ≠ "")).map (· ++ "\n"))) := by
  unfold compressInput
  rw [decodedMessages_eq L lines h, Option.map_some', superString_eq]

/-- C5: for every list of lines on which `processLine` is defined, the text
that `compress` gzip-encodes is the concatenation, in arrival order, of
`e ++ "\n"` for each line whose encoding `e = decodeData (processLine line)` is
non-empty; lines with an empty encoding contribute nothing, and an
all-filtered or empty batch gives the empty text. -/
theorem compress_text (L : Strconv) {B : Type} (gzip : String → B) (lines : List String)
    (h : ∀ l ∈ lines, (processLine L l).isSome = true) :
    compressInput L lines
      = some (String.join (((lines.filterMap (encode L)).filter (· ≠ "")).map (· ++ "\n"))) ∧
    compress L gzip lines
      = some (gzip
          (String.join (((lines.filterMap (encode L)).filter (· ≠ "")).map (· ++ "\n")))) ∧
    ((∀ l ∈ lines, encode L l = some "") → compressInput L lines = some "") := by
  have h1 : compressInput L lines
      = some (String.join (((lines.filterMap (encode L)).filter (· ≠ "")).map (· ++ "\n"))) :=
    compressInput_eq L lines h
  refine ⟨h1, ?_, ?_⟩
  · unfold compress
    rw [h1, Option.map_some']
  · intro hall
    rw [h1]
    have : (lines.filterMap (encode L)).filter (· ≠ "") = [] := by
      rw [List.filter_eq_nil_iff]
      intro e he
      obtain ⟨l, hl, hle⟩ := List.mem_filterMap.mp he
      rw [hall l hl] at hle
      simp only [Option.some.injEq] at hle
      simp [← hle]
    rw [this]
    rfl

/-- C5 at a batch of an encoded line, an ignored line and another encoded
line. -/
theorem compress_text_witness :
    (∀ l ∈ ["MSG,1,1,1,4840D6,1,2020/01/01,00:00:00.000,2020/01/01,00:00:00.000,KLM1023",
        "STA,,1,1,4840D6,1,2020/01/01,00:00:00.000",
        "MSG,7,1,1,4840D6,1,2020/01/01,00:00:01.000",
        "MSG,6,1,1,4840D6,1,2020/01/01,00:00:02.000"],
      (processLine sampleStrconv l).isSome = true) ∧
    compressInput sampleStrconv
      ["MSG,1,1,1,4840D6,1,2020/01/01,00:00:00.000,2020/01/01,00:00:00.000,KLM1023",
        "STA,,1,1,4840D6,1,2020/01/01,00:00:00.000",
        "MSG,7,1,1,4840D6,1,2020/01/01,00:00:01.000",
        "MSG,6,1,1,4840D6,1,2020/01/01,00:00:02.000"]
      = some "1,1577836800000,4840D6,KLM1023\n6,1577836802000,4840D6,0,\n" :=
  ⟨by decide, ((compress_text sampleStrconv id _ (by decide)).1).trans (by decide)⟩

/-! ## One record per line -/

theorem digitChar_ne_newline (d : Nat) (h : d < 10) : Nat.digitChar d ≠ '\n' := by
  interval_cases d <;> decide

theorem toDigitsCore_no_newline (fuel n : Nat) (acc : List Char) (h : '\n' ∉ acc) :
    '\n' ∉ Nat.toDigitsCore 10 fuel n acc := by
  induction fuel generalizing n acc with
  | zero => simpa [Nat.toDigitsCore] using h
  | succ fuel ih =>
    unfold Nat.toDigitsCore
    have hcons : '\n' ∉ Nat.digitChar (n % 10) :: acc := by
      simp only [List.mem_cons, not_or]
      exact ⟨fun hc => digitChar_ne_newline _ (Nat.mod_lt _ (by decide)) hc.symm, h⟩
    simp only []
    split_ifs
    · exact hcons
    · exact ih _ _ hcons

theorem natRepr_no_newline (n : Nat) : '\n' ∉ (Nat.repr n).data := by
  unfold Nat.repr Nat.toDigits
  exact toDigitsCore_no_newline _ _ _ (by simp)

/-- The decimal rendering of an integer has no newline. -/
theorem FormatInt_no_newline (i : Int) : '\n' ∉ (FormatInt i).data := by
  unfold FormatInt
  cases i with
  | ofNat m => exact natRepr_no_newline m
  | negSucc m =>
    show '\n' ∉ ("-" ++ Nat.repr (Nat.succ m)).data
    simp only [String.data_append, List.mem_append, not_or]
    exact ⟨by decide, natRepr_no_newline _⟩

theorem splitChars_ne_nil (sep : Char) (l : List Char) : splitChars sep l ≠ [] := by
  induction l with
  | nil => simp [splitChars]
  | cons c cs ih =>
    unfold splitChars
    split_ifs
    · simp
    · cases h : splitChars sep cs with
      | nil => exact absurd h ih
      | cons a t => simp

theorem splitChars_cons_sep (sep : Char) (cs : List Char) :
    splitChars sep (sep :: cs) = [] :: splitChars sep cs := by
  rw [splitChars, if_pos rfl]

theorem splitChars_cons_of_ne (sep c : Char) (cs : List Char) (h : ¬ c = sep)
    (a : List Char) (t : List (List Char)) (hs : splitChars sep cs = a :: t) :
    splitChars sep (c :: cs) = (c :: a) :: t := by
  rw [splitChars, if_neg h, hs]

/-- A piece followed by the separator is split off whole when it does not
contain the separator. -/
theorem splitChars_append_sep (sep : Char) (a rest : List Char) (h : sep ∉ a) :
    splitChars sep (a ++ sep :: rest) = a :: splitChars sep rest := by
  induction a with
  | nil => exact splitChars_cons_sep sep rest
  | cons c cs ih =>
    have hc : ¬ c = sep := fun hc => h (by simp [hc])
    have hcs : sep ∉ cs := fun hm => h (List.mem_cons_of_mem _ hm)
    exact splitChars_cons_of_ne sep c _ hc _ _ (ih hcs)

theorem splitChars_of_not_mem (sep : Char) (a : List Char) (h : sep ∉ a) :
    splitChars sep a = [a] := by
  induction a with
  | nil => rfl
  | cons c cs ih =>
    have hc : ¬ c = sep := fun hc => h (by simp [hc])
    have hcs : sep ∉ cs := fun hm => h (List.mem_cons_of_mem _ hm)
    exact splitChars_cons_of_ne sep c _ hc _ _ (ih hcs)

/-- Every byte of a piece is a byte of the text that was split. -/
theorem mem_of_mem_splitChars (sep : Char) (l : List Char) :
    ∀ piece ∈ splitChars sep l, ∀ c ∈ piece, c ∈ l := by
  induction l with
  | nil =>
    intro piece hp c hc
    simp only [splitChars, List.mem_singleton] at hp
    rw [hp] at hc
    exact hc
  | cons x xs ih =>
    intro piece hp c hc
    unfold splitChars at hp
    split_ifs at hp with hx
    · rcases List.mem_cons.mp hp with rfl | hp'
      · cases hc
      · exact List.mem_cons_of_mem _ (ih piece hp' c hc)
    · cases hs : splitChars sep xs with
      | nil => exact absurd hs (splitChars_ne_nil sep xs)
      | cons a t =>
        rw [hs] at hp ih
        rcases List.mem_cons.mp hp with rfl | hp'
        · rcases List.mem_cons.mp hc with rfl | hc'
          · exact List.mem_cons_self _ _
          · exact List.mem_cons_of_mem _ (ih a (List.mem_cons_self _ _) c hc')
        · exact List.mem_cons_of_mem _ (ih piece (List.mem_cons_of_mem _ hp') c hc)

/-- Splitting the batch text on newlines gives back the messages and one
final empty segment, when no message contains a newline. -/
theorem Split_join_newline (msgs : List String) (h : ∀ m ∈ msgs, '\n' ∉ m.data) :
    Split (String.join (msgs.map (· ++ "\n"))) '\n' = msgs ++ [""] := by
  induction msgs with
  | nil => rfl
  | cons m rest ih =>
    have hm := h m (List.mem_cons_self _ _)
    have hrest : ∀ m ∈ rest, '\n' ∉ m.data := fun x hx => h x (List.mem_cons_of_mem _ hx)
    have ih' := ih hrest
    unfold Split at ih' ⊢
    rw [List.map_cons, string_join_cons]
    have hd : (m ++ "\n" ++ String.join (List.map (fun x => x ++ "\n") rest)).data
        = m.data ++ '\n' :: (String.join (List.map (fun x => x ++ "\n") rest)).data := by
      simp only [String.data_append, List.append_assoc]
      rfl
    rw [hd, splitChars_append_sep '\n' _ _ hm, List.map_cons, ih']
    rfl

/-- The fields that the encoder reads from the line itself, for a line of any
length on which `processLine` returns. -/
theorem processLine_strings (L : Strconv) (line : String) (r : radarRawLine L.Float64)
    (h : processLine L line = some r) :
    r.messageType = field line 0 ∧ r.transmissionType = field line 1 ∧
    r.timestamp = dateStringToTimestamp (field line 6 ++ "T" ++ field line 7) ∧
    r.hexIdent = field line 4 ∧
    r.callSign = (if (Split line ',').length = 11 ∨ (Split line ',').length = 22
      then field line 10 else "") ∧
    r.squak = (if (Split line ',').length = 22 then field line 17 else "") ∧
    r.isOnGround = (if (Split line ',').length = 22 then field line 21 else "") := by
  have h8 : 8 ≤ (Split line ',').length := (processLine_isSome_iff L line).mp (by rw [h]; rfl)
  by_cases h22 : (Split line ',').length = 22
  · obtain ⟨r', hr', h0, h1, h4, hts, h10, _, _, _, _, _, _, h17, _, _, _, h21, _, _⟩ :=
      processLine_fields L line h22
    rw [h] at hr'
    cases hr'
    simp only [h22, or_true, if_true]
    exact ⟨h0, h1, hts, h4, h10, h17, h21⟩
  · unfold processLine at h
    unfold field
    revert h h8 h22
    generalize Split line ',' = l
    intro h h8 h22
    simp only [index_of_lt l _ _ (show 0 < l.length by omega),
      index_of_lt l _ _ (show 1 < l.length by omega),
      index_of_lt l _ _ (show 2 < l.length by omega),
      index_of_lt l _ _ (show 3 < l.length by omega),
      index_of_lt l _ _ (show 4 < l.length by omega),
      index_of_lt l _ _ (show 5 < l.length by omega),
      index_of_lt l _ _ (show 6 < l.length by omega),
      index_of_lt l _ _ (show 7 < l.length by omega), processLineExtras] at h
    by_cases h11 : l.length = 11
    · simp only [if_pos h11, if_neg h22, index_of_lt l 10 _ (show 10 < l.length by omega),
        Option.some_bind, Option.some.injEq] at h
      subst h
      simp only [h11, true_or, if_true, if_neg h22]
      refine ⟨?_, ?_, ?_, ?_, ?_, ?_, ?_⟩ <;> first | rfl | trivial
    · simp only [if_neg h11, if_neg h22, Option.some_bind, Option.some.injEq] at h
      subst h
      simp only [h11, h22, or_self, if_false]
      refine ⟨?_, ?_, ?_, ?_, ?_, ?_, ?_⟩ <;> first | rfl | trivial

theorem field_no_newline (line : String) (h : '\n' ∉ line.data) (i : Nat) :
    '\n' ∉ (field line i).data := by
  unfold field
  rw [List.getD_eq_getElem?_getD]
  cases hg : (Split line ',')[i]? with
  | none => simp
  | some f =>
    simp only [Option.getD_some]
    have hf : f ∈ Split line ',' := List.getElem?_mem hg
    unfold Split at hf
    obtain ⟨piece, hp, rfl⟩ := List.mem_map.mp hf
    exact fun hc => h (mem_of_mem_splitChars ',' _ piece hp _ hc)

theorem append_no_newline (a b : String) (ha : '\n' ∉ a.data) (hb : '\n' ∉ b.data) :
    '\n' ∉ (a ++ b).data := by
  simp only [String.data_append, List.mem_append, not_or]
  exact ⟨ha, hb⟩

/-- The value of `decodeData` is the empty string or the output of one of the
six encoders, with the subtype that selects it. -/
theorem decodeData_cases (L : Strconv) (r : radarRawLine L.Float64) :
    decodeData L r = "" ∨ decodeData L r = processMsg1 L r ∨ decodeData L r = processMsg2 L r ∨
    decodeData L r = processMsg3 L r ∨ decodeData L r = processMsg4 L r ∨
    decodeData L r = processMsg5 L r ∨ decodeData L r = processMsg6 L r := by
  unfold decodeData
  split_ifs
  · exact Or.inl rfl
  · exact Or.inl rfl
  · exact Or.inl rfl
  · exact Or.inr (Or.inl rfl)
  · exact Or.inr (Or.inr (Or.inl rfl))
  · exact Or.inr (Or.inr (Or.inr (Or.inl rfl)))
  · exact Or.inr (Or.inr (Or.inr (Or.inr (Or.inl rfl))))
  · exact Or.inr (Or.inr (Or.inr (Or.inr (Or.inr (Or.inl rfl)))))
  · exact Or.inr (Or.inr (Or.inr (Or.inr (Or.inr (Or.inr rfl)))))
  · exact Or.inl rfl

/-- A message built by the encoder has no newline when the line it comes
from has none and the rendering of a float has none. -/
theorem encode_no_newline (L : Strconv) (hfmt : ∀ x p, '\n' ∉ (L.FormatFloat x p).data)
    (line : String) (hline : '\n' ∉ line.data) (e : String) (he : encode L line = some e) :
    '\n' ∉ e.data := by
  unfold encode at he
  cases hr : processLine L line with
  | none => rw [hr] at he; cases he
  | some r =>
    rw [hr, Option.map_some', Option.some.injEq] at he
    obtain ⟨_, _, _, h4, h10, h17, h21⟩ := processLine_strings L line r hr
    have c4 : '\n' ∉ r.hexIdent.data := h4 ▸ field_no_newline line hline 4
    have c10 : '\n' ∉ r.callSign.data := by
      rw [h10]; split_ifs
      · exact field_no_newline line hline 10
      · simp
    have c17 : '\n' ∉ r.squak.data := by
      rw [h17]; split_ifs
      · exact field_no_newline line hline 17
      · simp
    have c21 : '\n' ∉ r.isOnGround.data := by
      rw [h21]; split_ifs
      · exact field_no_newline line hline 21
      · simp
    have hc : '\n' ∉ ("," : String).data := by decide
    have ht := FormatInt_no_newline r.timestamp
    have hal := FormatInt_no_newline r.altitude
    have hv := FormatInt_no_newline r.verticalRate
    subst he
    rcases decodeData_cases L r with h | h | h | h | h | h | h <;> rw [h]
    · simp
    · exact append_no_newline _ _ (append_no_newline _ _ (append_no_newline _ _
        (append_no_newline _ _ (by decide) ht) hc) c4) hc |> fun x => append_no_newline _ _ x c10
    · exact append_no_newline _ _ (append_no_newline _ _ (append_no_newline _ _
        (append_no_newline _ _ (append_no_newline _ _ (append_no_newline _ _
        (append_no_newline _ _ (append_no_newline _ _ (append_no_newline _ _
        (append_no_newline _ _ (append_no_newline _ _ (by decide) ht) hc) c4) hc) hal) hc)
        (hfmt _ _)) hc) (hfmt _ _)) hc) c21
    · exact append_no_newline _ _ (append_no_newline _ _ (append_no_newline _ _
        (append_no_newline _ _ (append_no_newline _ _ (append_no_newline _ _
        (append_no_newline _ _ (append_no_newline _ _ (append_no_newline _ _
        (append_no_newline _ _ (append_no_newline _ _ (by decide) ht) hc) c4) hc) hal) hc)
        (hfmt _ _)) hc) (hfmt _ _)) hc) c21
    · exact append_no_newline _ _ (append_no_newline _ _ (append_no_newline _ _
        (append_no_newline _ _ (append_no_newline _ _ (append_no_newline _ _
        (append_no_newline _ _ (append_no_newline _ _ (append_no_newline _ _ (by decide) ht) hc)
        c4) hc) (hfmt _ _)) hc) (hfmt _ _)) hc) hv
    · exact append_no_newline _ _ (append_no_newline _ _ (append_no_newline _ _
        (append_no_newline _ _ (append_no_newline _ _ (append_no_newline _ _
        (append_no_newline _ _ (by decide) ht) hc) c4) hc) hal) hc) c21
    · exact append_no_newline _ _ (append_no_newline _ _ (append_no_newline _ _
        (append_no_newline _ _ (append_no_newline _ _ (append_no_newline _ _
        (append_no_newline _ _ (by decide) ht) hc) c4) hc) hal) hc) c17

theorem Split_head_of_start (k : Char) (hk : ¬ k = ',') (e : String) (rest : List Char)
    (h : e.data = k :: ',' :: rest) : (Split e ',').head? = some (String.mk [k]) := by
  unfold Split
  have hs : splitChars ',' (k :: ',' :: rest) = [k] :: splitChars ',' rest :=
    splitChars_append_sep ',' [k] rest (by simp [eq_comm, hk])
  rw [h, hs]
  rfl

/-- The first comma-separated field of a non-empty encoded message is its
subtype number. -/
theorem decodeData_first_field (L : Strconv) (r : radarRawLine L.Float64)
    (hne : decodeData L r ≠ "") :
    (Split (decodeData L r) ',').head? ∈
      [some "1", some "2", some "3", some "4", some "5", some "6"] := by
  have h1 : ∃ rest, (processMsg1 L r).data = '1' :: ',' :: rest :=
    ⟨_, by simp only [processMsg1, String.data_append, List.append_assoc]; rfl⟩
  have h2 : ∃ rest, (processMsg2 L r).data = '2' :: ',' :: rest :=
    ⟨_, by simp only [processMsg2, String.data_append, List.append_assoc]; rfl⟩
  have h3 : ∃ rest, (processMsg3 L r).data = '3' :: ',' :: rest :=
    ⟨_, by simp only [processMsg3, String.data_append, List.append_assoc]; rfl⟩
  have h4 : ∃ rest, (processMsg4 L r).data = '4' :: ',' :: rest :=
    ⟨_, by simp only [processMsg4, String.data_append, List.append_assoc]; rfl⟩
  have h5 : ∃ rest, (processMsg5 L r).data = '5' :: ',' :: rest :=
    ⟨_, by simp only [processMsg5, String.data_append, List.append_assoc]; rfl⟩
  have h6 : ∃ rest, (processMsg6 L r).data = '6' :: ',' :: rest :=
    ⟨_, by simp only [processMsg6, String.data_append, List.append_assoc]; rfl⟩
  rcases decodeData_cases L r with h | h | h | h | h | h | h
  · exact absurd h hne
  · obtain ⟨rest, hr⟩ := h1
    rw [h, Split_head_of_start '1' (by decide) _ rest hr]
    exact List.mem_cons_self _ _
  · obtain ⟨rest, hr⟩ := h2
    rw [h, Split_head_of_start '2' (by decide) _ rest hr]
    exact List.mem_cons_of_mem _ (List.mem_cons_self _ _)
  · obtain ⟨rest, hr⟩ := h3
    rw [h, Split_head_of_start '3' (by decide) _ rest hr]
    exact List.mem_cons_of_mem _ (List.mem_cons_of_mem _ (List.mem_cons_self _ _))
  · obtain ⟨rest, hr⟩ := h4
    rw [h, Split_head_of_start '4' (by decide) _ rest hr]
    exact List.mem_cons_of_mem _ (List.mem_cons_of_mem _ (List.mem_cons_of_mem _
      (List.mem_cons_self _ _)))
  · obtain ⟨rest, hr⟩ := h5
    rw [h, Split_head_of_start '5' (by decide) _ rest hr]
    exact List.mem_cons_of_mem _ (List.mem_cons_of_mem _ (List.mem_cons_of_mem _
      (List.mem_cons_of_mem _ (List.mem_cons_self _ _))))
  · obtain ⟨rest, hr⟩ := h6
    rw [h, Split_head_of_start '6' (by decide) _ rest hr]
    exact List.mem_cons_of_mem _ (List.mem_cons_of_mem _ (List.mem_cons_of_mem _
      (List.mem_cons_of_mem _ (List.mem_cons_of_mem _ (List.mem_cons_self _ _)))))

/-- The float rendering of `sampleStrconv` has no newline. -/
theorem sampleStrconv_format_no_newline (x : sampleStrconv.Float64) (p : Nat) :
    '\n' ∉ (sampleStrconv.FormatFloat x p).data := by
  have hx : '\n' ∉ (Nat.repr x).data := natRepr_no_newline x
  show '\n' ∉ (if p = 0 then Nat.repr x
    else Nat.repr x ++ "." ++ String.mk (List.replicate p '0')).data
  split_ifs
  · exact hx
  · refine append_no_newline _ _ (append_no_newline _ _ hx (by decide)) ?_
    intro hc
    have := List.eq_of_mem_replicate hc
    exact absurd this (by decide)

/-- C6 (as stated, refuted): the frame below is produced by `ScanCRLF` and has
eight fields, but its field 4 holds a lone "\n"; the batch text of that single
frame splits on "\n" into two non-final segments, not into the one encoded
message, and the second segment starts with "40D6", not with a subtype
number. -/
theorem batch_split_counterexample :
    ScanCRLF ("MSG,1,1,1,48\n40D6,1,2020/01/01,00:00:00.000".data ++ ['\r', '\n']) false
      = (45, some "MSG,1,1,1,48\n40D6,1,2020/01/01,00:00:00.000".data, none) ∧
    (Split "MSG,1,1,1,48\n40D6,1,2020/01/01,00:00:00.000" ',').length = 8 ∧
    encode sampleStrconv "MSG,1,1,1,48\n40D6,1,2020/01/01,00:00:00.000"
      = some "1,1577836800000,48\n40D6," ∧
    compressInput sampleStrconv ["MSG,1,1,1,48\n40D6,1,2020/01/01,00:00:00.000"]
      = some "1,1577836800000,48\n40D6,\n" ∧
    Split "1,1577836800000,48\n40D6,\n" '\n' = ["1,1577836800000,48", "40D6,", ""] ∧
    Split "1,1577836800000,48\n40D6,\n" '\n' ≠ ["1,1577836800000,48\n40D6,", ""] ∧
    (Split "40D6," ',').head? = some "40D6" := by
  refine ⟨by decide, by decide, by decide, by decide, by decide, by decide, by decide⟩

/-- C6 (amended): for every list of frames that contain no "\n" byte, each
with at least 8 comma-separated fields (and a float rendering without "\n"),
splitting the pre-compression batch text on "\n" yields exactly the batch's
non-empty encoded messages, in order, followed by one final empty segment,
and every non-final segment has the literal subtype number 1..6 as its first
comma-separated field. -/
theorem batch_split_lines (L : Strconv) (hfmt : ∀ x p, '\n' ∉ (L.FormatFloat x p).data)
    (frames : List String) (h8 : ∀ f ∈ frames, 8 ≤ (Split f ',').length)
    (hnl : ∀ f ∈ frames, '\n' ∉ f.data) :
    ∃ text, compressInput L frames = some text ∧
      Split text '\n' = (frames.filterMap (encode L)).filter (· ≠ "") ++ [""] ∧
      ∀ seg ∈ (Split text '\n').dropLast,
        (Split seg ',').head? ∈ [some "1", some "2", some "3", some "4", some "5", some "6"] := by
  have hdef : ∀ l ∈ frames, (processLine L l).isSome = true :=
    fun l hl => (processLine_isSome_iff L l).mpr (h8 l hl)
  have hclean : ∀ m ∈ (frames.filterMap (encode L)).filter (· ≠ ""), '\n' ∉ m.data := by
    intro m hm
    obtain ⟨f, hf, hfe⟩ := List.mem_filterMap.mp (List.mem_filter.mp hm).1
    exact encode_no_newline L hfmt f (hnl f hf) m hfe
  have hsplit := Split_join_newline _ hclean
  refine ⟨_, compressInput_eq L frames hdef, hsplit, ?_⟩
  rw [hsplit, List.dropLast_concat]
  intro seg hseg
  obtain ⟨hmem, hne⟩ := List.mem_filter.mp hseg
  obtain ⟨f, _, hfe⟩ := List.mem_filterMap.mp hmem
  unfold encode at hfe
  cases hr : processLine L f with
  | none => rw [hr] at hfe; cases hfe
  | some r =>
    rw [hr, Option.map_some', Option.some.injEq] at hfe
    subst hfe
    exact decodeData_first_field L r (by simpa using hne)

/-- C6 (amended) at a batch of two encoded lines and an ignored one. -/
theorem batch_split_lines_witness :
    (∀ x p, '\n' ∉ (sampleStrconv.FormatFloat x p).data) ∧
    (∀ f ∈ ["MSG,1,1,1,4840D6,1,2020/01/01,00:00:00.000,2020/01/01,00:00:00.000,KLM1023",
        "AIR,,1,1,4840D6,1,2020/01/01,00:00:00.500",
        "MSG,5,1,1,4840D6,1,2020/01/01,00:00:01.000"], 8 ≤ (Split f ',').length) ∧
    (∀ f ∈ ["MSG,1,1,1,4840D6,1,2020/01/01,00:00:00.000,2020/01/01,00:00:00.000,KLM1023",
        "AIR,,1,1,4840D6,1,2020/01/01,00:00:00.500",
        "MSG,5,1,1,4840D6,1,2020/01/01,00:00:01.000"], '\n' ∉ f.data) ∧
    ∃ text,
      compressInput sampleStrconv
        ["MSG,1,1,1,4840D6,1,2020/01/01,00:00:00.000,2020/01/01,00:00:00.000,KLM1023",
          "AIR,,1,1,4840D6,1,2020/01/01,00:00:00.500",
          "MSG,5,1,1,4840D6,1,2020/01/01,00:00:01.000"] = some text ∧
      Split text '\n' =
        (["MSG,1,1,1,4840D6,1,2020/01/01,00:00:00.000,2020/01/01,00:00:00.000,KLM1023",
          "AIR,,1,1,4840D6,1,2020/01/01,00:00:00.500",
          "MSG,5,1,1,4840D6,1,2020/01/01,00:00:01.000"].filterMap
            (encode sampleStrconv)).filter (· ≠ "") ++ [""] ∧
      ∀ seg ∈ (Split text '\n').dropLast,
        (Split seg ',').head? ∈ [some "1", some "2", some "3", some "4", some "5", some "6"] :=
  ⟨sampleStrconv_format_no_newline, by decide, by decide,
    batch_split_lines sampleStrconv sampleStrconv_format_no_newline _ (by decide) (by decide)⟩

/-! ## The batch window -/

theorem wrapInt64_of_range (x : Int) (h1 : -2 ^ 63 ≤ x) (h2 : x < 2 ^ 63) : wrapInt64 x = x := by
  unfold wrapInt64
  have e63 : (2 : Int) ^ 63 = 9223372036854775808 := by norm_num
  have e64 : (2 : Int) ^ 64 = 18446744073709551616 := by norm_num
  rw [e63] at h1 h2 ⊢
  rw [e64]
  omega

theorem loopBody_flush (L : Strconv) {B : Type} (gzip : String → B) (timeWindow : Int)
    (st : LoopState) (radarLine : String) (endTime resetTime : Int)
    (hr : -2 ^ 63 ≤ endTime - st.startTime ∧ endTime - st.startTime < 2 ^ 63)
    (h : endTime - st.startTime ≥ timeWindow) :
    loopBody L gzip timeWindow st radarLine endTime resetTime
      = (compress L gzip (st.tmpMessageBuffer ++ [radarLine])).map fun p =>
          ({ tmpMessageBuffer := [], startTime := resetTime }, some p) := by
  unfold loopBody
  simp only [wrapInt64_of_range _ hr.1 hr.2]
  rw [if_pos h]

theorem loopBody_keep (L : Strconv) {B : Type} (gzip : String → B) (timeWindow : Int)
    (st : LoopState) (radarLine : String) (endTime resetTime : Int)
    (hr : -2 ^ 63 ≤ endTime - st.startTime ∧ endTime - st.startTime < 2 ^ 63)
    (h : ¬ endTime - st.startTime ≥ timeWindow) :
    loopBody L gzip timeWindow st radarLine endTime resetTime
      = some ({ tmpMessageBuffer := st.tmpMessageBuffer ++ [radarLine],
                startTime := st.startTime }, none) := by
  unfold loopBody
  simp only [wrapInt64_of_range _ hr.1 hr.2]
  rw [if_neg h]

/-- Arrivals that stay inside the window are accumulated and nothing is
sent. -/
theorem mainLoop_keep (L : Strconv) {B : Type} (gzip : String → B) (timeWindow : Int)
    (start : Int) (arrivals : List Arrival)
    (hr : ∀ a ∈ arrivals, -2 ^ 63 ≤ a.endTime - start ∧ a.endTime - start < 2 ^ 63)
    (hin : ∀ a ∈ arrivals, ¬ a.endTime - start ≥ timeWindow) (acc : List String) :
    mainLoop L gzip timeWindow { tmpMessageBuffer := acc, startTime := start } arrivals
      = some ({ tmpMessageBuffer := acc ++ arrivals.map (·.radarLine), startTime := start },
          []) := by
  induction arrivals generalizing acc with
  | nil => simp [mainLoop]
  | cons a rest ih =>
    have ha := loopBody_keep L gzip timeWindow { tmpMessageBuffer := acc, startTime := start }
      a.radarLine a.endTime a.resetTime (hr a (List.mem_cons_self _ _))
      (hin a (List.mem_cons_self _ _))
    rw [mainLoop, ha]
    simp only []
    rw [ih (fun b hb => hr b (List.mem_cons_of_mem _ hb))
      (fun b hb => hin b (List.mem_cons_of_mem _ hb))]
    simp

/-- Arrivals inside the window followed by one that reaches it: a single
payload is sent, made of all the lines offered, in order. -/
theorem mainLoop_flush (L : Strconv) {B : Type} (gzip : String → B) (timeWindow : Int)
    (start : Int) (arrivals : List Arrival) (last : Arrival)
    (hr : ∀ a ∈ arrivals, -2 ^ 63 ≤ a.endTime - start ∧ a.endTime - start < 2 ^ 63)
    (hin : ∀ a ∈ arrivals, ¬ a.endTime - start ≥ timeWindow)
    (hrl : -2 ^ 63 ≤ last.endTime - start ∧ last.endTime - start < 2 ^ 63)
    (hl : last.endTime - start ≥ timeWindow) (acc : List String) :
    mainLoop L gzip timeWindow { tmpMessageBuffer := acc, startTime := start }
        (arrivals ++ [last])
      = (compress L gzip (acc ++ arrivals.map (·.radarLine) ++ [last.radarLine])).map fun p =>
          ({ tmpMessageBuffer := [], startTime := last.resetTime }, [p]) := by
  induction arrivals generalizing acc with
  | nil =>
    have ha := loopBody_flush L gzip timeWindow { tmpMessageBuffer := acc, startTime := start }
      last.radarLine last.endTime last.resetTime hrl hl
    simp only [List.nil_append, List.map_nil, List.append_nil]
    rw [mainLoop, ha]
    cases compress L gzip (acc ++ [last.radarLine]) with
    | none => rfl
    | some p => simp [mainLoop]
  | cons a rest ih =>
    have ha := loopBody_keep L gzip timeWindow { tmpMessageBuffer := acc, startTime := start }
      a.radarLine a.endTime a.resetTime (hr a (List.mem_cons_self _ _))
      (hin a (List.mem_cons_self _ _))
    rw [List.cons_append, mainLoop, ha]
    simp only []
    rw [ih (fun b hb => hr b (List.mem_cons_of_mem _ hb))
      (fun b hb => hin b (List.mem_cons_of_mem _ hb))]
    have hX : acc ++ [a.radarLine] ++ List.map (·.radarLine) rest ++ [last.radarLine]
        = acc ++ List.map (·.radarLine) (a :: rest) ++ [last.radarLine] := by simp
    rw [hX]
    generalize compress L gzip (acc ++ List.map (·.radarLine) (a :: rest) ++ [last.radarLine]) = c
    cases c <;> simp

theorem decodedMessages_foldlM_none (L : Strconv) (lines : List String)
    (h : ∃ l ∈ lines, processLine L l = none) (acc : List String) :
    List.foldlM
      (fun decodedMessages s =>
        (processLine L s).map fun rawLine =>
          let processedLine := decodeData L rawLine
          if processedLine = "" then decodedMessages
          else decodedMessages ++ [processedLine])
      acc lines
      = none := by
  induction lines generalizing acc with
  | nil =>
    obtain ⟨l, hl, _⟩ := h
    cases hl
  | cons s rest ih =>
    rw [List.foldlM_cons]
    cases hs : processLine L s with
    | none => rfl
    | some r =>
      simp only [Option.map_some', Option.bind_eq_bind, Option.some_bind]
      apply ih
      obtain ⟨l, hl, hn⟩ := h
      rcases List.mem_cons.mp hl with rfl | hl
      · rw [hs] at hn
        cases hn
      · exact ⟨l, hl, hn⟩

/-- On lines with at least eight fields `compress` returns the gzip encoding of
the non-empty encodings, each followed by a newline. -/
theorem compress_of_fields (L : Strconv) {B : Type} (gzip : String → B) (lines : List String)
    (h : ∀ l ∈ lines, 8 ≤ (Split l ',').length) :
    compress L gzip lines
      = some (gzip
          (String.join (((lines.filterMap (encode L)).filter (· ≠ "")).map (· ++ "\n")))) := by
  unfold compress
  rw [compressInput_eq L lines (fun l hl => (processLine_isSome_iff L l).mpr (h l hl)),
    Option.map_some']

/-- One line with fewer than eight fields makes `compress` panic. -/
theorem compress_of_short (L : Strconv) {B : Type} (gzip : String → B) (lines : List String)
    (h : ∃ l ∈ lines, (Split l ',').length < 8) :
    compress L gzip lines = none := by
  obtain ⟨l, hl, hlen⟩ := h
  have hn : processLine L l = none := by
    cases hp : processLine L l with
    | none => rfl
    | some r =>
      have := (processLine_isSome_iff L l).mp (by rw [hp]; rfl)
      omega
  unfold compress compressInput decodedMessages
  rw [decodedMessages_foldlM_none L lines ⟨l, hl, hn⟩ []]
  rfl

/-- C7 (as stated, refuted): with a 3-second window opened at t=0 and one line
in the accumulator, the empty line (the frame of the stream "\r\n") arrives at
t=3; now - windowStart = 3 reaches the window, but the step sends no payload:
`compress` panics in `processLine` on a line with fewer than eight fields.
The same happens when the short line is the accumulated one.  Besides, the
difference of the two `int64` clock readings wraps: with windowStart = -2^63 and
now = 0 the difference 2^63 reaches the window, and the step only appends. -/
theorem batch_window_no_flush :
    (3 : Int) - 0 ≥ 3 ∧
    loopBody sampleStrconv id 3
        { tmpMessageBuffer := ["MSG,1,1,1,4840D6,1,2020/01/01,00:00:00.000"], startTime := 0 }
        "" 3 3 = none ∧
    loopBody sampleStrconv id 3 { tmpMessageBuffer := [""], startTime := 0 }
        "MSG,1,1,1,4840D6,1,2020/01/01,00:00:00.000" 3 3 = none ∧
    (0 : Int) - (-9223372036854775808) ≥ 3 ∧
    loopBody sampleStrconv id 3 { tmpMessageBuffer := [], startTime := -9223372036854775808 }
        "MSG,1,1,1,4840D6,1,2020/01/01,00:00:00.000" 0 0
      = some ({ tmpMessageBuffer := ["MSG,1,1,1,4840D6,1,2020/01/01,00:00:00.000"],
                startTime := -9223372036854775808 }, none) := by
  refine ⟨by decide, by decide, by decide, by decide, by decide⟩

/-- C7 (amended): one iteration of the read loop as a step on (accumulator,
windowStart) with an arriving line and the clock reading `now` (whole seconds),
for clock readings whose difference `now - windowStart` fits an `int64`.  A
step with `now - windowStart < windowLength` sends nothing, only appends the
line and leaves `windowStart` unchanged, whatever the lines.  When every
accumulated line and the arriving line have at least eight comma-separated
fields, the step flushes if and only if `now - windowStart >= windowLength`, and
a flush sends as one payload the gzip encoding of the encodings of the
accumulated lines followed by the arriving line, in order, and leaves the
accumulator empty with `windowStart` reset.  When `now - windowStart >=
windowLength` and one of these lines has fewer than eight fields, the step
panics and sends nothing.  Over a run that starts with an empty accumulator,
the payload of the flush is made of exactly the lines offered since then.  With
a 3-second window starting at t=0, lines offered at t=0,1,2 are not flushed,
and the flush at t=3 contains them. -/
theorem batch_window_step (L : Strconv) {B : Type} (gzip : String → B) (timeWindow : Int)
    (st : LoopState) (radarLine : String) (now resetTime : Int)
    (hr : -2 ^ 63 ≤ now - st.startTime ∧ now - st.startTime < 2 ^ 63) :
    (¬ now - st.startTime ≥ timeWindow →
      loopBody L gzip timeWindow st radarLine now resetTime
        = some ({ tmpMessageBuffer := st.tmpMessageBuffer ++ [radarLine],
                  startTime := st.startTime }, none)) ∧
    ((∀ l ∈ st.tmpMessageBuffer ++ [radarLine], 8 ≤ (Split l ',').length) →
      ((∃ st1 p, loopBody L gzip timeWindow st radarLine now resetTime = some (st1, some p))
        ↔ now - st.startTime ≥ timeWindow) ∧
      (now - st.startTime ≥ timeWindow →
        loopBody L gzip timeWindow st radarLine now resetTime
          = some ({ tmpMessageBuffer := [], startTime := resetTime },
              some (gzip (String.join
                ((((st.tmpMessageBuffer ++ [radarLine]).filterMap (encode L)).filter
                  (· ≠ "")).map (· ++ "\n"))))))) ∧
    ((∃ l ∈ st.tmpMessageBuffer ++ [radarLine], (Split l ',').length < 8) →
      now - st.startTime ≥ timeWindow →
      loopBody L gzip timeWindow st radarLine now resetTime = none) ∧
    (∀ (arrivals : List Arrival) (last : Arrival),
      (∀ a ∈ arrivals, (-2 ^ 63 ≤ a.endTime - st.startTime ∧ a.endTime - st.startTime < 2 ^ 63)
        ∧ ¬ a.endTime - st.startTime ≥ timeWindow) →
      (-2 ^ 63 ≤ last.endTime - st.startTime ∧ last.endTime - st.startTime < 2 ^ 63) →
      last.endTime - st.startTime ≥ timeWindow →
      (∀ l ∈ arrivals.map (·.radarLine) ++ [last.radarLine], 8 ≤ (Split l ',').length) →
      mainLoop L gzip timeWindow { tmpMessageBuffer := [], startTime := st.startTime }
          (arrivals ++ [last])
        = some ({ tmpMessageBuffer := [], startTime := last.resetTime },
            [gzip (String.join
              ((((arrivals.map (·.radarLine) ++ [last.radarLine]).filterMap (encode L)).filter
                (· ≠ "")).map (· ++ "\n")))])) ∧
    (∀ (l0 l1 l2 l3 : String) (r : Int),
      mainLoop L gzip 3 { tmpMessageBuffer := [], startTime := 0 }
          [⟨l0, 0, 0⟩, ⟨l1, 1, 1⟩, ⟨l2, 2, 2⟩]
        = some ({ tmpMessageBuffer := [l0, l1, l2], startTime := 0 }, []) ∧
      ((∀ l ∈ [l0, l1, l2, l3], 8 ≤ (Split l ',').length) →
        mainLoop L gzip 3 { tmpMessageBuffer := [], startTime := 0 }
            [⟨l0, 0, 0⟩, ⟨l1, 1, 1⟩, ⟨l2, 2, 2⟩, ⟨l3, 3, r⟩]
          = some ({ tmpMessageBuffer := [], startTime := r },
              [gzip (String.join
                ((([l0, l1, l2, l3].filterMap (encode L)).filter (· ≠ "")).map
                  (· ++ "\n")))]))) := by
  have hkeep := loopBody_keep L gzip timeWindow st radarLine now resetTime hr
  have hflush := loopBody_flush L gzip timeWindow st radarLine now resetTime hr
  refine ⟨hkeep, ?_, ?_, ?_, ?_⟩
  · intro hlines
    have hsend : now - st.startTime ≥ timeWindow →
        loopBody L gzip timeWindow st radarLine now resetTime
          = some ({ tmpMessageBuffer := [], startTime := resetTime },
              some (gzip (String.join
                ((((st.tmpMessageBuffer ++ [radarLine]).filterMap (encode L)).filter
                  (· ≠ "")).map (· ++ "\n"))))) := by
      intro hc
      rw [hflush hc, compress_of_fields L gzip _ hlines]
      rfl
    refine ⟨⟨?_, fun hc => ⟨_, _, hsend hc⟩⟩, hsend⟩
    rintro ⟨st1, p, hp⟩
    by_contra hc
    rw [hkeep hc] at hp
    cases hp
  · intro hshort hc
    rw [hflush hc, compress_of_short L gzip _ hshort]
    rfl
  · intro arrivals last hin hrl hl hlines
    have := mainLoop_flush L gzip timeWindow st.startTime arrivals last
      (fun a ha => (hin a ha).1) (fun a ha => (hin a ha).2) hrl hl []
    rw [List.nil_append] at this
    rw [this, compress_of_fields L gzip _ hlines]
    rfl
  · intro l0 l1 l2 l3 r
    have hk := mainLoop_keep L gzip 3 0 [⟨l0, 0, 0⟩, ⟨l1, 1, 1⟩, ⟨l2, 2, 2⟩]
      (by intro a ha; simp only [List.mem_cons, List.mem_singleton, List.not_mem_nil,
            or_false] at ha
          rcases ha with rfl | rfl | rfl <;> norm_num)
      (by intro a ha; simp only [List.mem_cons, List.mem_singleton, List.not_mem_nil,
            or_false] at ha
          rcases ha with rfl | rfl | rfl <;> norm_num) []
    have hf := mainLoop_flush L gzip 3 0 [⟨l0, 0, 0⟩, ⟨l1, 1, 1⟩, ⟨l2, 2, 2⟩] ⟨l3, 3, r⟩
      (by intro a ha; simp only [List.mem_cons, List.mem_singleton, List.not_mem_nil,
            or_false] at ha
          rcases ha with rfl | rfl | rfl <;> norm_num)
      (by intro a ha; simp only [List.mem_cons, List.mem_singleton, List.not_mem_nil,
            or_false] at ha
          rcases ha with rfl | rfl | rfl <;> norm_num) (by norm_num) (by norm_num) []
    refine ⟨by simpa using hk, ?_⟩
    intro hlines
    have hf2 : mainLoop L gzip 3 { tmpMessageBuffer := [], startTime := 0 }
        [⟨l0, 0, 0⟩, ⟨l1, 1, 1⟩, ⟨l2, 2, 2⟩, ⟨l3, 3, r⟩]
        = (compress L gzip [l0, l1, l2, l3]).map fun p =>
            ({ tmpMessageBuffer := [], startTime := r }, [p]) := by simpa using hf
    rw [hf2, compress_of_fields L gzip _ hlines]
    rfl

/-- C7 (amended) at the step that closes a 3-second window opened at t=0. -/
theorem batch_window_step_witness :
    ((-2 ^ 63 : Int) ≤ 3 - 0 ∧ (3 : Int) - 0 < 2 ^ 63) ∧
    (∀ l ∈ ["MSG,1,1,1,4840D6,1,2020/01/01,00:00:00.000"]
        ++ ["MSG,1,1,1,4840D7,1,2020/01/01,00:00:02.000"], 8 ≤ (Split l ',').length) ∧
    (3 : Int) - 0 ≥ 3 ∧
    loopBody sampleStrconv id 3
        { tmpMessageBuffer := ["MSG,1,1,1,4840D6,1,2020/01/01,00:00:00.000"], startTime := 0 }
        "MSG,1,1,1,4840D7,1,2020/01/01,00:00:02.000" 3 4
      = some ({ tmpMessageBuffer := [], startTime := 4 },
          some "1,1577836800000,4840D6,\n1,1577836802000,4840D7,\n") :=
  ⟨by decide, by decide, by decide,
    (((batch_window_step sampleStrconv id 3
        { tmpMessageBuffer := ["MSG,1,1,1,4840D6,1,2020/01/01,00:00:00.000"], startTime := 0 }
        "MSG,1,1,1,4840D7,1,2020/01/01,00:00:02.000" 3 4 (by decide)).2.1 (by decide)).2
      (by decide)).trans (by decide)⟩

/-! ## The timestamp -/

theorem digitChar_facts (d : Nat) (h : d < 10) :
    ('0' ≤ Nat.digitChar d ∧ Nat.digitChar d ≤ '9') ∧ digitVal (Nat.digitChar d) = d ∧
    Nat.digitChar d ≠ '-' ∧ Nat.digitChar d ≠ '+' := by
  interval_cases d <;> decide

theorem getnum_two (a b : Char) (rest : List Char) (fixed : Bool)
    (ha : '0' ≤ a ∧ a ≤ '9') (hb : '0' ≤ b ∧ b ≤ '9') :
    getnum (a :: b :: rest) fixed = some (digitVal a * 10 + digitVal b, rest) := by
  simp [getnum, isDigit, ha, hb]

theorem getnum_digits2 (n : Nat) (h : n < 100) (rest : List Char) (fixed : Bool) :
    getnum (digits2 n ++ rest) fixed = some (n, rest) := by
  have h1 := digitChar_facts (n / 10) (by omega)
  have h0 := digitChar_facts (n % 10) (Nat.mod_lt _ (by decide))
  show getnum (Nat.digitChar (n / 10) :: Nat.digitChar (n % 10) :: rest) fixed = _
  rw [getnum_two _ _ _ _ h1.1 h0.1, h1.2.1, h0.2.1]
  congr 2
  omega

theorem allDigitsVal_cons (c : Char) (cs : List Char) (acc : Nat) (hc : '0' ≤ c ∧ c ≤ '9') :
    allDigitsVal (c :: cs) acc = allDigitsVal cs (acc * 10 + digitVal c) := by
  rw [allDigitsVal, if_pos hc]

theorem allDigitsVal_digits2 (n : Nat) (h : n < 100) (acc : Nat) :
    allDigitsVal (digits2 n) acc = some (acc * 100 + n) := by
  have h1 := digitChar_facts (n / 10) (by omega)
  have h0 := digitChar_facts (n % 10) (Nat.mod_lt _ (by decide))
  simp only [digits2, allDigitsVal, h1.1, h0.1, and_self, if_true, h1.2.1, h0.2.1]
  congr 1
  omega

theorem allDigitsVal_digits3 (n : Nat) (h : n < 1000) (acc : Nat) :
    allDigitsVal (digits3 n) acc = some (acc * 1000 + n) := by
  have h2 := digitChar_facts (n / 100) (by omega)
  rw [digits3, allDigitsVal_cons _ _ _ h2.1, h2.2.1,
    allDigitsVal_digits2 _ (Nat.mod_lt _ (by decide))]
  have e : (acc * 10 + n / 100) * 100 + n % 100 = acc * 1000 + n := by omega
  rw [e]

theorem allDigitsVal_digits4 (n : Nat) (h : n < 10000) (acc : Nat) :
    allDigitsVal (digits4 n) acc = some (acc * 10000 + n) := by
  have h3 := digitChar_facts (n / 1000) (by omega)
  rw [digits4, allDigitsVal_cons _ _ _ h3.1, h3.2.1,
    allDigitsVal_digits3 _ (Nat.mod_lt _ (by decide))]
  have e : (acc * 10 + n / 1000) * 1000 + n % 1000 = acc * 10000 + n := by omega
  rw [e]

theorem atoi_of_first (c : Char) (cs : List Char) (h1 : c ≠ '-') (h2 : c ≠ '+') :
    atoi (c :: cs) = (allDigitsVal (c :: cs) 0).map fun n => (n : Int) := by
  unfold atoi
  split
  · rename_i heq
    simp only [List.cons.injEq] at heq
    exact absurd heq.1 h1
  · rename_i heq
    simp only [List.cons.injEq] at heq
    exact absurd heq.1 h2
  · rfl

theorem atoi_digits4 (y : Nat) (h : y < 10000) : atoi (digits4 y) = some (y : Int) := by
  have h3 := digitChar_facts (y / 1000) (by omega)
  have := allDigitsVal_digits4 y h 0
  unfold digits4 at this ⊢
  rw [atoi_of_first _ _ h3.2.2.1 h3.2.2.2, this]
  simp

theorem atoi_digits3 (n : Nat) (h : n < 1000) : atoi (digits3 n) = some (n : Int) := by
  have h2 := digitChar_facts (n / 100) (by omega)
  have := allDigitsVal_digits3 n h 0
  unfold digits3 at this ⊢
  rw [atoi_of_first _ _ h2.2.2.1 h2.2.2.2, this]
  simp

theorem digits4_length (y : Nat) : (digits4 y).length = 4 := rfl

theorem digits3_length (y : Nat) : (digits3 y).length = 3 := rfl

theorem skip_cons (c : Char) (r : List Char) : skip (c :: r) c = some r := by
  rw [skip, if_pos rfl]

theorem failIf_false : failIf false = some () := rfl

theorem parseDateChunks_fields (y m d : Nat) (hy : y < 10000) (hm1 : 1 ≤ m) (hm : m ≤ 12)
    (hd : d < 100) (rest : List Char) :
    parseDateChunks (digits4 y ++ '/' :: (digits2 m ++ '/' :: (digits2 d ++ rest)))
      = some ((y : Int), m, d, rest) := by
  have h3 := digitChar_facts (y / 1000) (by omega)
  have hdig : isDigit (digits4 y ++ '/' :: (digits2 m ++ '/' :: (digits2 d ++ rest))) 0 = true := by
    show isDigit (Nat.digitChar (y / 1000) :: _) 0 = true
    simp [isDigit, h3.1]
  have hlen : ¬ (digits4 y ++ '/' :: (digits2 m ++ '/' :: (digits2 d ++ rest))).length < 4 := by
    rw [List.length_append, digits4_length]
    omega
  have htake : (digits4 y ++ '/' :: (digits2 m ++ '/' :: (digits2 d ++ rest))).take 4
      = digits4 y := List.take_left' (digits4_length y)
  have hdrop : (digits4 y ++ '/' :: (digits2 m ++ '/' :: (digits2 d ++ rest))).drop 4
      = '/' :: (digits2 m ++ '/' :: (digits2 d ++ rest)) := List.drop_left' (digits4_length y)
  have hmr : (decide (m ≤ 0) || decide (12 < m)) = false := by
    simp only [Bool.or_eq_false_iff, decide_eq_false_iff_not]
    omega
  unfold parseDateChunks
  simp only [hdig, hlen, htake, hdrop, atoi_digits4 y hy, skip_cons,
    getnum_digits2 m (by omega), getnum_digits2 d hd, hmr, failIf_false, decide_False,
    Bool.not_true, Bool.or_false, Option.bind_eq_bind, Option.some_bind, Option.pure_def]

theorem parseClockChunks_fields (hh mm ss : Nat) (h1 : hh < 24) (h2 : mm < 60) (h3 : ss < 60)
    (rest : List Char) :
    parseClockChunks (digits2 hh ++ ':' :: (digits2 mm ++ ':' :: (digits2 ss ++ rest)))
      = some (hh, mm, ss, rest) := by
  have e1 : decide (24 ≤ hh) = false := by simp only [decide_eq_false_iff_not]; omega
  have e2 : decide (60 ≤ mm) = false := by simp only [decide_eq_false_iff_not]; omega
  have e3 : decide (60 ≤ ss) = false := by simp only [decide_eq_false_iff_not]; omega
  unfold parseClockChunks
  simp only [getnum_digits2 hh (by omega), getnum_digits2 mm (by omega),
    getnum_digits2 ss (by omega), skip_cons, e1, e2, e3, failIf_false, Option.bind_eq_bind,
    Option.some_bind, Option.pure_def]

theorem parseNanoseconds_digits3 (ms : Nat) (h : ms < 1000) :
    parseNanoseconds ('.' :: digits3 ms) 4 = some ((ms : Int) * 1000000) := by
  have ht : (('.' :: digits3 ms).take 4).drop 1 = digits3 ms := by
    show ((digits3 ms).take 3) = digits3 ms
    exact List.take_of_length_le (by rw [digits3_length])
  unfold parseNanoseconds
  simp only [true_or, if_true, ht, atoi_digits3 ms h]
  rw [if_neg (by omega)]
  norm_num

theorem isLeap_natCast (y : Nat) : isLeap (y : Int) = isLeapYear y := by
  unfold isLeap isLeapYear
  rw [Bool.eq_iff_iff]
  simp only [Bool.and_eq_true, Bool.or_eq_true, beq_iff_eq, bne_iff_ne, ne_eq,
    decide_eq_true_eq]
  omega

theorem daysIn_eq (y m : Nat) (h1 : 1 ≤ m) (h2 : m ≤ 12) :
    daysIn m (y : Int) = (daysInMonth y m : Int) := by
  unfold daysIn
  rw [isLeap_natCast]
  interval_cases m <;> cases hl : isLeapYear y <;> simp [daysInMonth, daysBefore, hl]

theorem daysSinceYearOne_succ (y : Nat) :
    daysSinceYearOne ((y : Int) + 1) = daysSinceYearOne y + daysInYear y := by
  unfold daysSinceYearOne daysInYear isLeapYear
  simp only [add_sub_cancel_right]
  split_ifs with h
  · simp only [decide_eq_true_eq] at h
    push_cast
    omega
  · simp only [decide_eq_true_eq] at h
    push_cast
    omega

/-- The year-by-year count agrees with the closed form of `time.Date`. -/
theorem sum_daysInYear (y : Nat) :
    (((List.range y).map daysInYear).sum : Int) = daysSinceYearOne y + 366 := by
  induction y with
  | zero => decide
  | succ y ih =>
    rw [List.sum_range_succ, Nat.cast_add, ih, Nat.cast_add, Nat.cast_one,
      daysSinceYearOne_succ]
    ring

/-- The month-by-month count agrees with the table `daysBefore` and the leap
day adjustment of `time.Date`. -/
theorem sum_daysInMonth (y m : Nat) (h1 : 1 ≤ m) (h2 : m ≤ 12) :
    (((List.range' 1 (m - 1)).map (daysInMonth y)).sum : Int)
      = daysBefore (m - 1) + (if isLeap (y : Int) ∧ m ≥ 3 then 1 else 0) := by
  rw [isLeap_natCast]
  interval_cases m <;> cases hl : isLeapYear y <;>
    simp [daysInMonth, daysBefore, hl, List.range']

theorem dayNumber_epoch : (dayNumber 1970 1 1 : Int) = 719162 + 366 := by
  unfold dayNumber
  have := sum_daysInYear 1970
  simp only [Nat.sub_self, List.range'_zero, List.map_nil, List.sum_nil, add_zero]
  push_cast at this ⊢
  rw [this]
  decide

/-- The seconds of `time.Date` are the day count from 1970-01-01 and the time
of day. -/
theorem Date_unixSec (y m d hh mm ss ns : Nat) (h1 : 1 ≤ m) (h2 : m ≤ 12) (hd : 1 ≤ d) :
    (Date (y : Int) m d hh mm ss ns).unixSec
      = daysFromEpoch y m d * 86400 + hh * 3600 + mm * 60 + ss := by
  unfold Date daysFromEpoch
  rw [dayNumber_epoch]
  unfold dayNumber
  have hd1 : ((d - 1 : Nat) : Int) = (d : Int) - 1 := by omega
  have e : ((((List.range y).map daysInYear).sum
      + ((List.range' 1 (m - 1)).map (daysInMonth y)).sum + (d - 1) : Nat) : Int)
      = daysSinceYearOne y + 366
        + (daysBefore (m - 1) + (if isLeap (y : Int) ∧ m ≥ 3 then 1 else 0)) + ((d : Int) - 1) := by
    rw [Nat.cast_add, Nat.cast_add, sum_daysInYear, sum_daysInMonth y m h1 h2, hd1]
  rw [e]
  simp only []
  push_cast
  ring

theorem dateTime_data (y m d hh mm ss ms : Nat) :
    (dateField y m d ++ "T" ++ timeField hh mm ss ms).data
      = digits4 y ++ '/' :: (digits2 m ++ '/' :: (digits2 d ++ 'T' ::
          (digits2 hh ++ ':' :: (digits2 mm ++ ':' :: (digits2 ss ++ '.' :: digits3 ms))))) := by
  simp only [dateField, timeField, String.data_append, List.append_assoc, List.cons_append]
  rfl

/-- The layout parser reads a valid date and time field by field. -/
theorem parseTime_fields (y m d hh mm ss ms : Nat) (hd : validDate y m d)
    (ht : validTime hh mm ss ms) :
    parseTime (dateField y m d ++ "T" ++ timeField hh mm ss ms).data
      = some (Date (y : Int) m d hh mm ss (ms * 1000000)) := by
  obtain ⟨hy, hm1, hm12, hd1, hdm⟩ := hd
  obtain ⟨h1, h2, h3, h4⟩ := ht
  have hd100 : d < 100 := by
    have : daysInMonth y m ≤ 31 := by
      unfold daysInMonth
      interval_cases m <;> simp only [] <;> first | omega | (split_ifs <;> omega)
    omega
  have hday : (decide (d < 1) || decide ((d : Int) > daysIn m (y : Int))) = false := by
    rw [daysIn_eq y m hm1 hm12]
    simp only [Bool.or_eq_false_iff, decide_eq_false_iff_not, gt_iff_lt, Nat.cast_lt]
    omega
  have hlen : decide (('.' :: digits3 ms).length < 4) = false := by
    simp [digits3_length]
  have hrest : decide ((List.drop 4 ('.' :: digits3 ms)).length ≠ 0) = false := by
    simp [digits3_length]
  have hnat : ((ms : Int) * 1000000).toNat = ms * 1000000 := by omega
  rw [dateTime_data]
  unfold parseTime
  simp only [parseDateChunks_fields y m d (by omega) hm1 hm12 hd100, skip_cons,
    parseClockChunks_fields hh mm ss h1 h2 h3, parseNanoseconds_digits3 ms h4, hlen, hrest, hday,
    hnat, failIf_false, Option.bind_eq_bind, Option.some_bind, Option.pure_def]

theorem epochMillis_eq_Date (y m d hh mm ss ms : Nat) (h1 : 1 ≤ m) (h2 : m ≤ 12) (hd : 1 ≤ d) :
    epochMillis y m d hh mm ss ms = (Date (y : Int) m d hh mm ss 0).unixSec * 1000 + ms := by
  rw [Date_unixSec y m d hh mm ss 0 h1 h2 hd]
  rfl

theorem dateStringToTimestamp_fields (y m d hh mm ss ms : Nat) (hd : validDate y m d)
    (ht : validTime hh mm ss ms)
    (hr : -2 ^ 63 ≤ epochMillis y m d hh mm ss ms * 1000000 ∧
      epochMillis y m d hh mm ss ms * 1000000 < 2 ^ 63) :
    dateStringToTimestamp (dateField y m d ++ "T" ++ timeField hh mm ss ms)
      = epochMillis y m d hh mm ss ms := by
  unfold dateStringToTimestamp
  rw [parseTime_fields y m d hh mm ss ms hd ht]
  simp only []
  have hnano : (Date (y : Int) m d hh mm ss (ms * 1000000)).unixSec * 1000000000
      + (Date (y : Int) m d hh mm ss (ms * 1000000)).nsec
      = epochMillis y m d hh mm ss ms * 1000000 := by
    rw [Date_unixSec y m d hh mm ss _ hd.2.1 hd.2.2.1 hd.2.2.2.1]
    show _ + ((ms * 1000000 : Nat) : Int) = _
    unfold epochMillis
    push_cast
    ring
  unfold Time.UnixNano
  rw [hnano, wrapInt64_of_range _ hr.1 hr.2]
  exact Int.mul_tdiv_cancel _ (by decide)

/-- C8 (as stated, refuted): 2262-04-12 00:00:00.000 is a valid date and time,
its epoch milliseconds are 9223372800000, but the nanosecond count does not
fit an `int64` and `dateStringToTimestamp` returns -9223371273709. -/
theorem dateStringToTimestamp_overflow :
    validDate 2262 4 12 ∧ validTime 0 0 0 0 ∧
    dateField 2262 4 12 ++ "T" ++ timeField 0 0 0 0 = "2262/04/12T00:00:00.000" ∧
    epochMillis 2262 4 12 0 0 0 0 = 9223372800000 ∧
    dateStringToTimestamp (dateField 2262 4 12 ++ "T" ++ timeField 0 0 0 0) = -9223371273709 ∧
    dateStringToTimestamp (dateField 2262 4 12 ++ "T" ++ timeField 0 0 0 0)
      ≠ epochMillis 2262 4 12 0 0 0 0 := by
  have hv : validDate 2262 4 12 := by unfold validDate; decide
  have ht : validTime 0 0 0 0 := by unfold validTime; decide
  have he : epochMillis 2262 4 12 0 0 0 0 = 9223372800000 := by
    rw [epochMillis_eq_Date 2262 4 12 0 0 0 0 (by decide) (by decide) (by decide)]
    decide
  have hc : dateStringToTimestamp (dateField 2262 4 12 ++ "T" ++ timeField 0 0 0 0)
      = -9223371273709 := by decide
  refine ⟨hv, ht, by decide, he, hc, ?_⟩
  rw [hc, he]
  decide

/-- C8 (amended): for every valid calendar date YYYY/MM/DD and valid time of
day HH:MM:SS.mmm whose instant, counted in nanoseconds from the epoch, fits an
`int64` (1677-09-21 to 2262-04-11), `dateStringToTimestamp (date ++ "T" ++
time)`, and hence the timestamp of the record that `processLine` builds from a
line carrying these two fields, equals the UTC epoch milliseconds
((days from 1970-01-01) * 86400 + HH*3600 + MM*60 + SS) * 1000 + mmm. -/
theorem dateStringToTimestamp_epochMillis (y m d hh mm ss ms : Nat) (hd : validDate y m d)
    (ht : validTime hh mm ss ms)
    (hr : -2 ^ 63 ≤ epochMillis y m d hh mm ss ms * 1000000 ∧
      epochMillis y m d hh mm ss ms * 1000000 < 2 ^ 63) :
    dateStringToTimestamp (dateField y m d ++ "T" ++ timeField hh mm ss ms)
      = epochMillis y m d hh mm ss ms ∧
    ∀ (L : Strconv) (line : String) (r : radarRawLine L.Float64),
      processLine L line = some r → field line 6 = dateField y m d →
      field line 7 = timeField hh mm ss ms → r.timestamp = epochMillis y m d hh mm ss ms := by
  have h := dateStringToTimestamp_fields y m d hh mm ss ms hd ht hr
  refine ⟨h, ?_⟩
  intro L line r hp h6 h7
  obtain ⟨_, _, hts, _⟩ := processLine_strings L line r hp
  rw [hts, h6, h7, h]

/-- C8 (amended) at 2020-02-29 12:34:56.789. -/
theorem dateStringToTimestamp_epochMillis_witness :
    validDate 2020 2 29 ∧ validTime 12 34 56 789 ∧
    (-2 ^ 63 ≤ epochMillis 2020 2 29 12 34 56 789 * 1000000 ∧
      epochMillis 2020 2 29 12 34 56 789 * 1000000 < 2 ^ 63) ∧
    dateStringToTimestamp "2020/02/29T12:34:56.789" = 1582979696789 ∧
    epochMillis 2020 2 29 12 34 56 789 = 1582979696789 := by
  have hv : validDate 2020 2 29 := by unfold validDate; decide
  have ht : validTime 12 34 56 789 := by unfold validTime; decide
  have he : epochMillis 2020 2 29 12 34 56 789 = 1582979696789 := by
    rw [epochMillis_eq_Date 2020 2 29 12 34 56 789 (by decide) (by decide) (by decide)]
    decide
  have hr : -2 ^ 63 ≤ epochMillis 2020 2 29 12 34 56 789 * 1000000 ∧
      epochMillis 2020 2 29 12 34 56 789 * 1000000 < 2 ^ 63 := by
    rw [he]
    decide
  have h := (dateStringToTimestamp_epochMillis 2020 2 29 12 34 56 789 hv ht hr).1
  exact ⟨hv, ht, hr, h.trans he, he⟩

/-! ## Parse failures -/

theorem numericFailures_eq_nil_iff (L : Strconv) (line : String) :
    numericFailures L line = [] ↔
      ¬ ((failure (ParseInt L (field line 11))).isSome = true ∨
        (failure (L.ParseFloat (field line 12))).isSome = true ∨
        (failure (L.ParseFloat (field line 13))).isSome = true ∨
        (failure (L.ParseFloat (field line 14))).isSome = true ∨
        (failure (L.ParseFloat (field line 15))).isSome = true ∨
        (failure (ParseInt L (field line 16))).isSome = true) := by
  unfold numericFailures
  generalize failure (ParseInt L (field line 11)) = e1
  generalize failure (L.ParseFloat (field line 12)) = e2
  generalize failure (L.ParseFloat (field line 13)) = e3
  generalize failure (L.ParseFloat (field line 14)) = e4
  generalize failure (L.ParseFloat (field line 15)) = e5
  generalize failure (ParseInt L (field line 16)) = e6
  cases e1 <;> cases e2 <;> cases e3 <;> cases e4 <;> cases e5 <;> cases e6 <;> simp

/-- C9: for every 22-field line, the record's status is "ERROR" exactly when
at least one of the six numeric fields (altitude f11, ground speed f12, track
f13, latitude f14, longitude f15, vertical rate f16) fails to parse; each
numeric field of the record holds its decoded value (the parsed value, or zero
when its own parse failed, whatever happens to the other fields), and the
string fields (call sign, squawk, alert, emergency, SPI, on-ground) are copied
from f10 and f17..f21. -/
theorem numeric_fields_status (L : Strconv) (line : String)
    (hlen : (Split line ',').length = 22) :
    ∃ r, processLine L line = some r ∧
      (r.status = "ERROR" ↔
        ((failure (ParseInt L (field line 11))).isSome = true ∨
          (failure (L.ParseFloat (field line 12))).isSome = true ∨
          (failure (L.ParseFloat (field line 13))).isSome = true ∨
          (failure (L.ParseFloat (field line 14))).isSome = true ∨
          (failure (L.ParseFloat (field line 15))).isSome = true ∨
          (failure (ParseInt L (field line 16))).isSome = true)) ∧
      r.altitude = decoded 0 (ParseInt L (field line 11)) ∧
      r.groundSpeed = decoded L.zero (L.ParseFloat (field line 12)) ∧
      r.track = decoded L.zero (L.ParseFloat (field line 13)) ∧
      r.latitude = decoded L.zero (L.ParseFloat (field line 14)) ∧
      r.longitude = decoded L.zero (L.ParseFloat (field line 15)) ∧
      r.verticalRate = decoded 0 (ParseInt L (field line 16)) ∧
      r.callSign = field line 10 ∧ r.squak = field line 17 ∧ r.alert = field line 18 ∧
      r.emergency = field line 19 ∧ r.spiIdent = field line 20 ∧
      r.isOnGround = field line 21 := by
  obtain ⟨r, hr, _, _, _, _, h10, h11, h12, h13, h14, h15, h16, h17, h18, h19, h20, h21, hst,
    _⟩ := processLine_fields L line hlen
  refine ⟨r, hr, ?_, h11, h12, h13, h14, h15, h16, h10, h17, h18, h19, h20, h21⟩
  rw [hst, ← not_iff_not, ← numericFailures_eq_nil_iff]
  by_cases hn : numericFailures L line = []
  · rw [if_pos hn]
    exact ⟨fun _ => hn, fun _ => by decide⟩
  · rw [if_neg hn]
    exact ⟨fun h => absurd rfl h, fun h => absurd h hn⟩

/-- C9 at a line whose altitude and vertical rate do not parse. -/
theorem numeric_fields_status_witness :
    (Split "MSG,3,1,1,4840D6,1,2020/01/01,00:00:00.000,2020/01/01,00:00:00.000,,x,0,0,51,9,y,,,,,0"
      ',').length = 22 ∧
    ∃ r, processLine sampleStrconv
        "MSG,3,1,1,4840D6,1,2020/01/01,00:00:00.000,2020/01/01,00:00:00.000,,x,0,0,51,9,y,,,,,0"
        = some r ∧
      r.status = "ERROR" ∧ r.altitude = 0 ∧ r.latitude = (51 : Nat) ∧ r.longitude = (9 : Nat) ∧
      r.verticalRate = 0 ∧ r.isOnGround = "0" := by
  refine ⟨by decide, ?_⟩
  obtain ⟨r, hr, hst, h11, _, _, h14, h15, h16, _, _, _, _, _, h21⟩ :=
    numeric_fields_status sampleStrconv
      "MSG,3,1,1,4840D6,1,2020/01/01,00:00:00.000,2020/01/01,00:00:00.000,,x,0,0,51,9,y,,,,,0"
      (by decide)
  exact ⟨r, hr, hst.mpr (by decide), h11.trans (by decide), h14.trans (by rfl),
    h15.trans (by rfl), h16.trans (by decide), h21.trans (by decide)⟩

/-- C10 (as stated, refuted): in the 22-field line below the altitude "x" and
the vertical rate "y" both fail to parse; the first failure in field order is
that of "x", but the record's `errorMessage` is the message for "y". -/
theorem errorMessage_not_first_failure :
    (Split "MSG,3,1,1,4840D6,1,2020/01/01,00:00:00.000,2020/01/01,00:00:00.000,,x,0,0,0,0,y,,,,,"
      ',').length = 22 ∧
    numericFailures sampleStrconv
        "MSG,3,1,1,4840D6,1,2020/01/01,00:00:00.000,2020/01/01,00:00:00.000,,x,0,0,0,0,y,,,,,"
      = ["strconv.ParseInt: parsing \"x\": invalid syntax",
         "strconv.ParseInt: parsing \"y\": invalid syntax"] ∧
    (processLine sampleStrconv
        "MSG,3,1,1,4840D6,1,2020/01/01,00:00:00.000,2020/01/01,00:00:00.000,,x,0,0,0,0,y,,,,,").map
        (·.errorMessage)
      = some "strconv.ParseInt: parsing \"y\": invalid syntax" ∧
    (processLine sampleStrconv
        "MSG,3,1,1,4840D6,1,2020/01/01,00:00:00.000,2020/01/01,00:00:00.000,,x,0,0,0,0,y,,,,,").map
        (·.errorMessage)
      ≠ (numericFailures sampleStrconv
        "MSG,3,1,1,4840D6,1,2020/01/01,00:00:00.000,2020/01/01,00:00:00.000,,x,0,0,0,0,y,,,,,").head? := by
  refine ⟨by decide, by decide, by decide, by decide⟩

/-- C10 (amended): for every 22-field line in which one or more numeric
fields fail to parse, the record's `errorMessage` is the error message of the
last failing field in field order (altitude, ground speed, track, latitude,
longitude, vertical rate), also when an earlier field fails too. -/
theorem errorMessage_last_failure (L : Strconv) (line : String)
    (hlen : (Split line ',').length = 22) (hf : numericFailures L line ≠ []) :
    ∃ r, processLine L line = some r ∧
      some r.errorMessage = (numericFailures L line).getLast? := by
  obtain ⟨r, hr, _, _, _, _, _, _, _, _, _, _, _, _, _, _, _, _, _, hmsg⟩ :=
    processLine_fields L line hlen
  refine ⟨r, hr, ?_⟩
  rw [hmsg]
  cases hg : (numericFailures L line).getLast? with
  | none => exact absurd (List.getLast?_eq_none_iff.mp hg) hf
  | some e => rfl

/-- C10 (amended) at a line whose altitude and vertical rate do not parse. -/
theorem errorMessage_last_failure_witness :
    (Split "MSG,4,1,1,4840D6,1,2020/01/01,00:00:00.000,2020/01/01,00:00:00.000,,x,0,0,0,0,y,,,,,"
      ',').length = 22 ∧
    numericFailures sampleStrconv
        "MSG,4,1,1,4840D6,1,2020/01/01,00:00:00.000,2020/01/01,00:00:00.000,,x,0,0,0,0,y,,,,,"
      ≠ [] ∧
    ∃ r, processLine sampleStrconv
        "MSG,4,1,1,4840D6,1,2020/01/01,00:00:00.000,2020/01/01,00:00:00.000,,x,0,0,0,0,y,,,,,"
        = some r ∧
      some r.errorMessage = some "strconv.ParseInt: parsing \"y\": invalid syntax" := by
  refine ⟨by decide, by decide, ?_⟩
  obtain ⟨r, hr, hm⟩ := errorMessage_last_failure sampleStrconv
    "MSG,4,1,1,4840D6,1,2020/01/01,00:00:00.000,2020/01/01,00:00:00.000,,x,0,0,0,0,y,,,,,"
    (by decide) (by decide)
  exact ⟨r, hr, hm.trans (by decide)⟩

/-! ## Lines without the MSG payload -/

/-- C11 (as stated, refuted): the MSG line below has eight fields, fewer than
the 22 of its subtype; `processLine` returns a record whose extras are at
their zero values, but whose status is empty.  With eleven fields the call
sign is copied as well. -/
theorem short_line_status_counterexample :
    (Split "MSG,3,1,1,4840D6,1,2020/01/01,00:00:00.000" ',').length = 8 ∧
    (processLine sampleStrconv "MSG,3,1,1,4840D6,1,2020/01/01,00:00:00.000").map
      (fun r => (r.status, r.errorMessage)) = some ("", "") ∧
    (Split "MSG,1,1,1,4840D6,1,2020/01/01,00:00:00.000,2020/01/01,00:00:00.000,KLM1023"
      ',').length = 11 ∧
    (processLine sampleStrconv
      "MSG,1,1,1,4840D6,1,2020/01/01,00:00:00.000,2020/01/01,00:00:00.000,KLM1023").map
      (fun r => (r.status, r.callSign)) = some ("", "KLM1023") := by
  refine ⟨by decide, by decide, by decide, by decide⟩

/-- C11 (amended): for every line with at least eight fields whose field count
is not 22, `processLine` produces a record whose status and error message are
empty and whose type-specific extras are at their zero values, except that
with exactly eleven fields the call sign is field 10. -/
theorem short_line_record (L : Strconv) (line : String)
    (h8 : 8 ≤ (Split line ',').length) (h22 : (Split line ',').length ≠ 22) :
    ∃ r, processLine L line = some r ∧
      r.status = "" ∧ r.errorMessage = "" ∧
      r.callSign = (if (Split line ',').length = 11 then field line 10 else "") ∧
      r.altitude = 0 ∧ r.groundSpeed = L.zero ∧ r.track = L.zero ∧ r.latitude = L.zero ∧
      r.longitude = L.zero ∧ r.verticalRate = 0 ∧ r.squak = "" ∧ r.alert = "" ∧
      r.emergency = "" ∧ r.spiIdent = "" ∧ r.isOnGround = "" := by
  unfold processLine field
  revert h8 h22
  generalize Split line ',' = l
  intro h8 h22
  simp only [index_of_lt l _ _ (show 0 < l.length by omega),
    index_of_lt l _ _ (show 1 < l.length by omega),
    index_of_lt l _ _ (show 2 < l.length by omega),
    index_of_lt l _ _ (show 3 < l.length by omega),
    index_of_lt l _ _ (show 4 < l.length by omega),
    index_of_lt l _ _ (show 5 < l.length by omega),
    index_of_lt l _ _ (show 6 < l.length by omega),
    index_of_lt l _ _ (show 7 < l.length by omega), processLineExtras]
  by_cases h11 : l.length = 11
  · simp only [if_pos h11, if_neg h22, index_of_lt l 10 _ (show 10 < l.length by omega),
      Option.some_bind]
    exact ⟨_, rfl, rfl, rfl, rfl, rfl, rfl, rfl, rfl, rfl, rfl, rfl, rfl, rfl, rfl, rfl⟩
  · simp only [if_neg h11, if_neg h22, Option.some_bind]
    exact ⟨_, rfl, rfl, rfl, rfl, rfl, rfl, rfl, rfl, rfl, rfl, rfl, rfl, rfl, rfl, rfl⟩

/-- C11 (amended) at an eight-field MSG line. -/
theorem short_line_record_witness :
    8 ≤ (Split "MSG,3,1,1,4840D6,1,2020/01/01,00:00:00.000" ',').length ∧
    (Split "MSG,3,1,1,4840D6,1,2020/01/01,00:00:00.000" ',').length ≠ 22 ∧
    ∃ r, processLine sampleStrconv "MSG,3,1,1,4840D6,1,2020/01/01,00:00:00.000" = some r ∧
      r.status = "" ∧ r.errorMessage = "" ∧ r.callSign = "" ∧ r.altitude = 0 ∧
      r.isOnGround = "" := by
  refine ⟨by decide, by decide, ?_⟩
  obtain ⟨r, hr, h1, h2, h3, h4, _, _, _, _, _, _, _, _, _, h14⟩ :=
    short_line_record sampleStrconv "MSG,3,1,1,4840D6,1,2020/01/01,00:00:00.000"
      (by decide) (by decide)
  exact ⟨r, hr, h1, h2, h3.trans (by decide), h4, h14⟩

/-! ## The positions of the encoded line -/

theorem digitChar_ne_comma (d : Nat) (h : d < 10) : Nat.digitChar d ≠ ',' := by
  interval_cases d <;> decide

theorem toDigitsCore_no_comma (fuel n : Nat) (acc : List Char) (h : ',' ∉ acc) :
    ',' ∉ Nat.toDigitsCore 10 fuel n acc := by
  induction fuel generalizing n acc with
  | zero => simpa [Nat.toDigitsCore] using h
  | succ fuel ih =>
    unfold Nat.toDigitsCore
    have hcons : ',' ∉ Nat.digitChar (n % 10) :: acc := by
      simp only [List.mem_cons, not_or]
      exact ⟨fun hc => digitChar_ne_comma _ (Nat.mod_lt _ (by decide)) hc.symm, h⟩
    simp only []
    split_ifs
    · exact hcons
    · exact ih _ _ hcons

theorem natRepr_no_comma (n : Nat) : ',' ∉ (Nat.repr n).data := by
  unfold Nat.repr Nat.toDigits
  exact toDigitsCore_no_comma _ _ _ (by simp)

/-- The decimal rendering of an integer has no comma. -/
theorem FormatInt_no_comma (i : Int) : ',' ∉ (FormatInt i).data := by
  unfold FormatInt
  cases i with
  | ofNat m => exact natRepr_no_comma m
  | negSucc m =>
    show ',' ∉ ("-" ++ Nat.repr (Nat.succ m)).data
    simp only [String.data_append, List.mem_append, not_or]
    exact ⟨by decide, natRepr_no_comma _⟩

/-- A piece of a split does not contain the separator. -/
theorem sep_not_mem_of_mem_splitChars (sep : Char) (l : List Char) :
    ∀ piece ∈ splitChars sep l, sep ∉ piece := by
  induction l with
  | nil =>
    intro piece hp
    simp only [splitChars, List.mem_singleton] at hp
    rw [hp]
    exact List.not_mem_nil _
  | cons x xs ih =>
    intro piece hp
    by_cases hx : x = sep
    · rw [hx, splitChars_cons_sep] at hp
      rcases List.mem_cons.mp hp with rfl | hp'
      · exact List.not_mem_nil _
      · exact ih piece hp'
    · cases hs : splitChars sep xs with
      | nil => exact absurd hs (splitChars_ne_nil sep xs)
      | cons a t =>
        rw [splitChars_cons_of_ne sep x xs hx a t hs] at hp
        rw [hs] at ih
        rcases List.mem_cons.mp hp with rfl | hp'
        · intro hc
          rcases List.mem_cons.mp hc with h | h
          · exact hx h.symm
          · exact ih a (List.mem_cons_self _ _) h
        · exact ih piece (List.mem_cons_of_mem _ hp')

theorem field_no_comma (line : String) (i : Nat) : ',' ∉ (field line i).data := by
  unfold field
  rw [List.getD_eq_getElem?_getD]
  cases hg : (Split line ',')[i]? with
  | none => simp
  | some f =>
    simp only [Option.getD_some]
    have hf : f ∈ Split line ',' := List.getElem?_mem hg
    unfold Split at hf
    obtain ⟨piece, hp, rfl⟩ := List.mem_map.mp hf
    exact sep_not_mem_of_mem_splitChars ',' _ piece hp

/-- A fixed-point decimal has no comma. -/
theorem isFixedPoint_no_comma (prec : Nat) (s : String) (h : isFixedPoint prec s) :
    ',' ∉ s.data := by
  obtain ⟨sign, intPart, frac, hs, hsign, _, hint, _, hfrac⟩ := h
  have hd : ∀ c : Char, ('0' ≤ c ∧ c ≤ '9') → c ≠ ',' := by
    intro c hc he
    rw [he] at hc
    exact absurd hc (by decide)
  rw [hs]
  simp only [List.mem_append, List.mem_cons, not_or]
  refine ⟨⟨?_, fun hc => hd _ (hint _ hc) rfl⟩, by decide, fun hc => hd _ (hfrac _ hc) rfl⟩
  rcases hsign with rfl | rfl <;> decide

theorem joinComma_foldl_append (p x : String) (l : List String) :
    List.foldl (fun acc y => acc ++ "," ++ y) (p ++ x) l
      = p ++ List.foldl (fun acc y => acc ++ "," ++ y) x l := by
  induction l generalizing x with
  | nil => rfl
  | cons b l ih =>
    simp only [List.foldl_cons]
    rw [string_append_assoc p x ",", string_append_assoc p (x ++ ",") b, ih]

theorem joinComma_cons_cons (a b : String) (l : List String) :
    joinComma (a :: b :: l) = a ++ "," ++ joinComma (b :: l) := by
  rw [joinComma_eq, joinComma_eq, List.foldl_cons, joinComma_foldl_append]

theorem joinComma_singleton (a : String) : joinComma [a] = a := by
  rw [joinComma_eq]
  rfl

/-- Splitting a comma-join gives back the fields, when no field contains a
comma. -/
theorem Split_joinComma (a : String) (l : List String) (h : ∀ f ∈ a :: l, ',' ∉ f.data) :
    Split (joinComma (a :: l)) ',' = a :: l := by
  induction l generalizing a with
  | nil =>
    rw [joinComma_singleton]
    unfold Split
    rw [splitChars_of_not_mem ',' a.data (h a (List.mem_cons_self _ _))]
    rfl
  | cons b l ih =>
    have ha := h a (List.mem_cons_self _ _)
    have ih' := ih b (fun f hf => h f (List.mem_cons_of_mem _ hf))
    unfold Split at ih' ⊢
    rw [joinComma_cons_cons]
    have hd : (a ++ "," ++ joinComma (b :: l)).data = a.data ++ ',' :: (joinComma (b :: l)).data := by
      simp only [String.data_append, List.append_assoc]
      rfl
    rw [hd, splitChars_append_sep ',' _ _ ha, List.map_cons, ih']

/-- The encoded line of a 22-field MSG line of subtype 2, 3 or 4 as a
comma-join. -/
theorem encode_position_subtypes (L : Strconv) (line : String)
    (hlen : (Split line ',').length = 22) (hmsg : field line 0 = "MSG") :
    (field line 1 = "2" → encode L line = some (joinComma
      ["2", FormatInt (dateStringToTimestamp (field line 6 ++ "T" ++ field line 7)),
        field line 4, FormatInt (decoded 0 (ParseInt L (field line 11))),
        L.FormatFloat (decoded L.zero (L.ParseFloat (field line 14))) 5,
        L.FormatFloat (decoded L.zero (L.ParseFloat (field line 15))) 5, field line 21])) ∧
    (field line 1 = "3" → encode L line = some (joinComma
      ["3", FormatInt (dateStringToTimestamp (field line 6 ++ "T" ++ field line 7)),
        field line 4, FormatInt (decoded 0 (ParseInt L (field line 11))),
        L.FormatFloat (decoded L.zero (L.ParseFloat (field line 14))) 5,
        L.FormatFloat (decoded L.zero (L.ParseFloat (field line 15))) 5, field line 21])) ∧
    (field line 1 = "4" → encode L line = some (joinComma
      ["4", FormatInt (dateStringToTimestamp (field line 6 ++ "T" ++ field line 7)),
        field line 4, L.FormatFloat (decoded L.zero (L.ParseFloat (field line 12))) 1,
        L.FormatFloat (decoded L.zero (L.ParseFloat (field line 13))) 1,
        FormatInt (decoded 0 (ParseInt L (field line 16)))])) := by
  obtain ⟨r, hr, h0, h1, h4, hts, _, h11, h12, h13, h14, h15, h16, _, _, _, _, h21, _, _⟩ :=
    processLine_fields L line hlen
  have hA : ¬ (("MSG" : String) = "AIR") := by decide
  have hI : ¬ (("MSG" : String) = "ID") := by decide
  have hS : ¬ (("MSG" : String) = "STA") := by decide
  have hd : decodeData L r =
      if r.transmissionType = "1" then processMsg1 L r
      else if r.transmissionType = "2" then processMsg2 L r
      else if r.transmissionType = "3" then processMsg3 L r
      else if r.transmissionType = "4" then processMsg4 L r
      else if r.transmissionType = "5" then processMsg5 L r
      else if r.transmissionType = "6" then processMsg6 L r
      else "" := by
    unfold decodeData
    rw [h0, hmsg]
    simp only [hA, hI, hS, if_false, true_and]
  unfold encode
  rw [hr, Option.map_some', hd, h1]
  refine ⟨fun hk => ?_, fun hk => ?_, fun hk => ?_⟩
  · rw [hk, if_neg (by decide), if_pos rfl]
    simp only [processMsg2, joinComma_eq, List.foldl_cons, List.foldl_nil, h4, hts, h11, h14,
      h15, h21]
    rfl
  · rw [hk, if_neg (by decide), if_neg (by decide), if_pos rfl]
    simp only [processMsg3, joinComma_eq, List.foldl_cons, List.foldl_nil, h4, hts, h11, h14,
      h15, h21]
    rfl
  · rw [hk, if_neg (by decide), if_neg (by decide), if_neg (by decide), if_pos rfl]
    simp only [processMsg4, joinComma_eq, List.foldl_cons, List.foldl_nil, h4, hts, h12, h13,
      h16]
    rfl

/-- C12 (as stated, refuted): in the 22-field MSG line of subtype 3 below the
latitude field f14 carries the text "NaN", which `ParseFloat` accepts; field 4
of the encoded line is then "NaN", which has no decimal point. -/
theorem coordinates_nan_counterexample :
    (Split "MSG,3,1,1,4840D6,1,2020/01/01,00:00:00.000,2020/01/01,00:00:00.000,,37000,,,NaN,9,,,0,0,0,0"
      ',').length = 22 ∧
    encode nanStrconv
        "MSG,3,1,1,4840D6,1,2020/01/01,00:00:00.000,2020/01/01,00:00:00.000,,37000,,,NaN,9,,,0,0,0,0"
      = some "3,1577836800000,4840D6,37000,NaN,9.00000,0" ∧
    (Split "3,1577836800000,4840D6,37000,NaN,9.00000,0" ',').getD 4 "" = "NaN" ∧
    ¬ isFixedPoint 5 "NaN" := by
  refine ⟨by decide, by decide, by decide, ?_⟩
  rintro ⟨sign, intPart, frac, hs, _⟩
  have hmem : '.' ∈ "NaN".data := by
    rw [hs]
    simp
  exact absurd hmem (by decide)

/-- C12 (amended): for every 22-field MSG line of subtype 2 or 3 whose
decoded latitude and longitude are finite, fields 4 and 5 of the encoded line
are decimal numbers with exactly five digits after the decimal point, and for
every 22-field MSG line of subtype 4 whose decoded speed and track are finite,
fields 3 and 4 have exactly one digit after the decimal point; `isFinite` and
`hfmt` state that `FormatFloat` writes every finite value in fixed-point form
with the requested number of decimals, as `strconv` does. -/
theorem coordinates_fixed_point (L : Strconv) (isFinite : L.Float64 → Prop)
    (hfmt : ∀ x p, 1 ≤ p → isFinite x → isFixedPoint p (L.FormatFloat x p))
    (line : String) (hlen : (Split line ',').length = 22) (hmsg : field line 0 = "MSG") :
    ((field line 1 = "2" ∨ field line 1 = "3") →
      isFinite (decoded L.zero (L.ParseFloat (field line 14))) →
      isFinite (decoded L.zero (L.ParseFloat (field line 15))) →
      ∃ e, encode L line = some e ∧ isFixedPoint 5 ((Split e ',').getD 4 "") ∧
        isFixedPoint 5 ((Split e ',').getD 5 "")) ∧
    (field line 1 = "4" →
      isFinite (decoded L.zero (L.ParseFloat (field line 12))) →
      isFinite (decoded L.zero (L.ParseFloat (field line 13))) →
      ∃ e, encode L line = some e ∧ isFixedPoint 1 ((Split e ',').getD 3 "") ∧
        isFixedPoint 1 ((Split e ',').getD 4 "")) := by
  obtain ⟨h2, h3, h4⟩ := encode_position_subtypes L line hlen hmsg
  have hts := FormatInt_no_comma (dateStringToTimestamp (field line 6 ++ "T" ++ field line 7))
  have halt := FormatInt_no_comma (decoded 0 (ParseInt L (field line 11)))
  have hvr := FormatInt_no_comma (decoded 0 (ParseInt L (field line 16)))
  refine ⟨fun hk hlat hlon => ?_, fun hk hsp htr => ?_⟩
  · have flat := hfmt _ 5 (by decide) hlat
    have flon := hfmt _ 5 (by decide) hlon
    have key : ∀ k : String, ',' ∉ k.data →
        encode L line = some (joinComma
          [k, FormatInt (dateStringToTimestamp (field line 6 ++ "T" ++ field line 7)),
            field line 4, FormatInt (decoded 0 (ParseInt L (field line 11))),
            L.FormatFloat (decoded L.zero (L.ParseFloat (field line 14))) 5,
            L.FormatFloat (decoded L.zero (L.ParseFloat (field line 15))) 5, field line 21]) →
        ∃ e, encode L line = some e ∧ isFixedPoint 5 ((Split e ',').getD 4 "") ∧
          isFixedPoint 5 ((Split e ',').getD 5 "") := by
      intro k hkc he
      refine ⟨_, he, ?_⟩
      rw [Split_joinComma]
      · exact ⟨flat, flon⟩
      · intro f hf
        simp only [List.mem_cons, List.mem_singleton, List.not_mem_nil, or_false] at hf
        rcases hf with rfl | rfl | rfl | rfl | rfl | rfl | rfl
        · exact hkc
        · exact hts
        · exact field_no_comma line 4
        · exact halt
        · exact isFixedPoint_no_comma 5 _ flat
        · exact isFixedPoint_no_comma 5 _ flon
        · exact field_no_comma line 21
    rcases hk with hk | hk
    · exact key "2" (by decide) (h2 hk)
    · exact key "3" (by decide) (h3 hk)
  · have fsp := hfmt _ 1 (by decide) hsp
    have ftr := hfmt _ 1 (by decide) htr
    refine ⟨_, h4 hk, ?_⟩
    rw [Split_joinComma]
    · exact ⟨fsp, ftr⟩
    · intro f hf
      simp only [List.mem_cons, List.mem_singleton, List.not_mem_nil, or_false] at hf
      rcases hf with rfl | rfl | rfl | rfl | rfl | rfl
      · decide
      · exact hts
      · exact field_no_comma line 4
      · exact isFixedPoint_no_comma 1 _ fsp
      · exact isFixedPoint_no_comma 1 _ ftr
      · exact hvr

theorem digitChar_isDigit (d : Nat) (h : d < 10) :
    '0' ≤ Nat.digitChar d ∧ Nat.digitChar d ≤ '9' := (digitChar_facts d h).1

theorem toDigitsCore_digits (fuel n : Nat) (acc : List Char)
    (h : ∀ c ∈ acc, '0' ≤ c ∧ c ≤ '9') :
    ∀ c ∈ Nat.toDigitsCore 10 fuel n acc, '0' ≤ c ∧ c ≤ '9' := by
  induction fuel generalizing n acc with
  | zero => simpa [Nat.toDigitsCore] using h
  | succ fuel ih =>
    unfold Nat.toDigitsCore
    have hcons : ∀ c ∈ Nat.digitChar (n % 10) :: acc, '0' ≤ c ∧ c ≤ '9' := by
      intro c hc
      rcases List.mem_cons.mp hc with rfl | hc
      · exact digitChar_isDigit _ (Nat.mod_lt _ (by decide))
      · exact h c hc
    simp only []
    split_ifs
    · exact hcons
    · exact ih _ _ hcons

theorem toDigitsCore_ne_nil (fuel n : Nat) (acc : List Char) (h : acc ≠ []) :
    Nat.toDigitsCore 10 fuel n acc ≠ [] := by
  induction fuel generalizing n acc with
  | zero => simpa [Nat.toDigitsCore] using h
  | succ fuel ih =>
    unfold Nat.toDigitsCore
    simp only []
    split_ifs
    · exact List.cons_ne_nil _ _
    · exact ih _ _ (List.cons_ne_nil _ _)

theorem natRepr_digits (n : Nat) :
    (Nat.repr n).data ≠ [] ∧ ∀ c ∈ (Nat.repr n).data, '0' ≤ c ∧ c ≤ '9' := by
  unfold Nat.repr Nat.toDigits
  refine ⟨?_, toDigitsCore_digits _ _ _ (by simp)⟩
  show Nat.toDigitsCore 10 (n + 1) n [] ≠ []
  unfold Nat.toDigitsCore
  simp only []
  split_ifs
  · exact List.cons_ne_nil _ _
  · exact toDigitsCore_ne_nil _ _ _ (List.cons_ne_nil _ _)

/-- The float rendering of `nanStrconv` is in fixed-point form for every value
other than NaN. -/
theorem nanStrconv_format_fixed (x : nanStrconv.Float64) (p : Nat) (hp : 1 ≤ p)
    (hx : Option.isSome (α := Nat) x = true) : isFixedPoint p (nanStrconv.FormatFloat x p) := by
  obtain ⟨n, rfl⟩ := Option.isSome_iff_exists.mp hx
  have hp0 : ¬ p = 0 := by omega
  show isFixedPoint p (if p = 0 then Nat.repr n
    else Nat.repr n ++ "." ++ String.mk (List.replicate p '0'))
  rw [if_neg hp0]
  refine ⟨[], (Nat.repr n).data, List.replicate p '0', ?_, Or.inl rfl, (natRepr_digits n).1,
    (natRepr_digits n).2, List.length_replicate _ _, ?_⟩
  · simp only [String.data_append, List.nil_append, List.append_assoc]
    rfl
  · intro c hc
    rw [List.eq_of_mem_replicate hc]
    decide

/-- C12 (amended) at a subtype-3 line with latitude 51 and longitude 9. -/
theorem coordinates_fixed_point_witness :
    (∀ (x : nanStrconv.Float64) (p : Nat), 1 ≤ p → Option.isSome (α := Nat) x = true →
      isFixedPoint p (nanStrconv.FormatFloat x p)) ∧
    (Split "MSG,3,1,1,4840D6,1,2020/01/01,00:00:00.000,2020/01/01,00:00:00.000,,37000,,,51,9,,,0,0,0,0"
      ',').length = 22 ∧
    field "MSG,3,1,1,4840D6,1,2020/01/01,00:00:00.000,2020/01/01,00:00:00.000,,37000,,,51,9,,,0,0,0,0"
      0 = "MSG" ∧
    ∃ e, encode nanStrconv
        "MSG,3,1,1,4840D6,1,2020/01/01,00:00:00.000,2020/01/01,00:00:00.000,,37000,,,51,9,,,0,0,0,0"
        = some e ∧
      isFixedPoint 5 ((Split e ',').getD 4 "") ∧ isFixedPoint 5 ((Split e ',').getD 5 "") :=
  ⟨nanStrconv_format_fixed, by decide, by decide,
    (coordinates_fixed_point nanStrconv (fun x => Option.isSome (α := Nat) x = true)
      nanStrconv_format_fixed _ (by decide) (by decide)).1 (Or.inr (by decide)) (by decide)
      (by decide)⟩

/-! ## The timestamp of an unparseable date -/

/-- C13 (as stated, refuted): the text "bad" does not parse under the layout;
the epoch milliseconds of the zero time are -62135596800000, but its
nanosecond count does not fit an `int64` and `dateStringToTimestamp` returns
-6795364578871. -/
theorem unparseable_sentinel_counterexample :
    parseTime "bad".data = none ∧
    Time.zeroValue.unixSec * 1000 = -62135596800000 ∧
    dateStringToTimestamp "bad" = -6795364578871 ∧
    dateStringToTimestamp "bad" ≠ -62135596800000 := by
  refine ⟨by decide, by decide, by decide, by decide⟩

/-- C13 (amended): for every string that does not parse under the layout
2006/01/02T15:04:05.000, `dateStringToTimestamp` returns -6795364578871, the
`int64` wrap-around of the nanosecond count of the zero time 0001-01-01T00:00:00
divided by 10^6, the same value for every unparseable input, and `processLine`
still decodes the remaining fields of the line. -/
theorem unparseable_sentinel (dateString : String) (h : parseTime dateString.data = none) :
    dateStringToTimestamp dateString = -6795364578871 ∧
    (∀ (L : Strconv) (line : String), 8 ≤ (Split line ',').length →
      field line 6 ++ "T" ++ field line 7 = dateString →
      ∃ r, processLine L line = some r ∧ r.timestamp = -6795364578871 ∧
        r.messageType = field line 0 ∧ r.transmissionType = field line 1 ∧
        r.hexIdent = field line 4) ∧
    (∀ (L : Strconv) (line : String), (Split line ',').length = 22 →
      field line 6 ++ "T" ++ field line 7 = dateString →
      ∃ r, processLine L line = some r ∧ r.timestamp = -6795364578871 ∧
        r.callSign = field line 10 ∧
        r.altitude = decoded 0 (ParseInt L (field line 11)) ∧
        r.groundSpeed = decoded L.zero (L.ParseFloat (field line 12)) ∧
        r.track = decoded L.zero (L.ParseFloat (field line 13)) ∧
        r.latitude = decoded L.zero (L.ParseFloat (field line 14)) ∧
        r.longitude = decoded L.zero (L.ParseFloat (field line 15)) ∧
        r.verticalRate = decoded 0 (ParseInt L (field line 16)) ∧
        r.squak = field line 17 ∧ r.alert = field line 18 ∧ r.emergency = field line 19 ∧
        r.spiIdent = field line 20 ∧ r.isOnGround = field line 21) := by
  have hs : dateStringToTimestamp dateString = -6795364578871 := by
    unfold dateStringToTimestamp
    rw [h]
    decide
  refine ⟨hs, ?_, ?_⟩
  · intro L line h8 hd
    cases hp : processLine L line with
    | none =>
      have := (processLine_isSome_iff L line).mpr h8
      rw [hp] at this
      cases this
    | some r =>
      obtain ⟨h0, h1, hts, h4, _⟩ := processLine_strings L line r hp
      exact ⟨r, rfl, by rw [hts, hd, hs], h0, h1, h4⟩
  · intro L line h22 hd
    obtain ⟨r, hr, _, _, _, hts, h10, h11, h12, h13, h14, h15, h16, h17, h18, h19, h20, h21, _,
      _⟩ := processLine_fields L line h22
    exact ⟨r, hr, by rw [hts, hd, hs], h10, h11, h12, h13, h14, h15, h16, h17, h18, h19, h20,
      h21⟩

/-- C13 (amended) at a date with a thirteenth month. -/
theorem unparseable_sentinel_witness :
    parseTime "2020/13/01T00:00:00.000".data = none ∧
    dateStringToTimestamp "2020/13/01T00:00:00.000" = -6795364578871 :=
  ⟨by decide, (unparseable_sentinel "2020/13/01T00:00:00.000" (by decide)).1⟩

/-! ## The store consumer -/

theorem Split_ne_nil (s : String) (sep : Char) : Split s sep ≠ [] := by
  unfold Split
  intro h
  exact splitChars_ne_nil sep s.data (List.map_eq_nil_iff.mp h)

theorem Split_getElem_one (radarLine : String) (h : ¬ (Split radarLine ',').length = 1) :
    (Split radarLine ',')[1]? = some (field radarLine 1) := by
  have hne := Split_ne_nil radarLine ','
  unfold field
  rcases hs : Split radarLine ',' with _ | ⟨a, _ | ⟨b, t⟩⟩
  · exact absurd hs hne
  · rw [hs] at h
    exact absurd rfl h
  · simp

/-- A segment with a single field is skipped. -/
theorem consumeLine_skip (joinPath : String → String) (st : StoreState) (radarLine : String)
    (env : Env) (h : isRecord radarLine = false) :
    consumeLine joinPath st radarLine env = .ok (st, []) := by
  have h1 : (Split radarLine ',').length = 1 := by
    simpa [isRecord] using h
  unfold consumeLine
  simp only [h1, if_true]

/-- A record whose timestamp is below the deadline is appended to the open
file. -/
theorem consumeLine_write (joinPath : String → String) (st : StoreState) (radarLine : String)
    (env : Env) (h : isRecord radarLine = true) (hts : lineTimestamp radarLine < st.nextRoll) :
    consumeLine joinPath st radarLine env
      = .ok (st, [.writeString st.file (radarLine ++ "\n")]) := by
  have h1 : ¬ (Split radarLine ',').length = 1 := by
    simpa [isRecord] using h
  have h2 : ¬ (ParseIntValue (field radarLine 1)).1 ≥ st.nextRoll := not_le.mpr hts
  unfold consumeLine
  simp only [if_neg h1, Split_getElem_one radarLine h1, if_neg h2]

/-- A record whose timestamp reaches the deadline rotates the file: the open
file is closed, the path held in `fullpath` is renamed, a file named after the
hour of the clock is opened, and the record is appended to it. -/
theorem consumeLine_rotate (joinPath : String → String) (st : StoreState) (radarLine : String)
    (env : Env) (h : isRecord radarLine = true) (hts : st.nextRoll ≤ lineTimestamp radarLine)
    (hren : env.renameOk = true) (hopen : env.openOk = true) :
    consumeLine joinPath st radarLine env
      = .ok ({ nextRoll := (nextRollOver env.now).1, startTime := (nextRollOver env.now).2,
               filename := genFileName (nextRollOver env.now).2, fullpath := st.fullpath,
               file := joinPath (genFileName (nextRollOver env.now).2) ++ ".tmp" },
             [.close st.file, .rename (st.fullpath ++ ".tmp") st.fullpath,
              .openAppend (joinPath (genFileName (nextRollOver env.now).2) ++ ".tmp"),
              .writeString (joinPath (genFileName (nextRollOver env.now).2) ++ ".tmp")
                (radarLine ++ "\n")]) := by
  have h1 : ¬ (Split radarLine ',').length = 1 := by
    simpa [isRecord] using h
  have h2 : (ParseIntValue (field radarLine 1)).1 ≥ st.nextRoll := hts
  unfold consumeLine
  simp only [if_neg h1, Split_getElem_one radarLine h1, if_pos h2, hren, hopen, Bool.not_true,
    Bool.false_eq_true, if_false]

/-- A rotation in which `os.Rename` or `os.OpenFile` fails ends the
process. -/
theorem consumeLine_exit (joinPath : String → String) (st : StoreState) (radarLine : String)
    (env : Env) (h : isRecord radarLine = true) (hts : st.nextRoll ≤ lineTimestamp radarLine)
    (hio : env.renameOk = false ∨ env.openOk = false) :
    ∃ e, consumeLine joinPath st radarLine env = .error e := by
  have h1 : ¬ (Split radarLine ',').length = 1 := by
    simpa [isRecord] using h
  have h2 : (ParseIntValue (field radarLine 1)).1 ≥ st.nextRoll := hts
  unfold consumeLine
  simp only [if_neg h1, Split_getElem_one radarLine h1, if_pos h2]
  cases hr : env.renameOk
  · exact ⟨_, rfl⟩
  · rcases hio with hio | hio
    · rw [hr] at hio
      cases hio
    · simp only [hio, Bool.not_true, Bool.not_false, Bool.false_eq_true, if_false, if_true]
      exact ⟨_, rfl⟩

/-- The deadline after a line is the deadline before it or the one computed
from the clock. -/
theorem consumeLine_nextRoll (joinPath : String → String) (st st1 : StoreState)
    (radarLine : String) (env : Env) (ops : List FileOp)
    (h : consumeLine joinPath st radarLine env = .ok (st1, ops)) :
    st1.nextRoll = st.nextRoll ∨ st1.nextRoll = (nextRollOver env.now).1 := by
  cases hrec : isRecord radarLine
  · rw [consumeLine_skip joinPath st radarLine env hrec] at h
    cases h
    exact Or.inl rfl
  · by_cases hts : lineTimestamp radarLine < st.nextRoll
    · rw [consumeLine_write joinPath st radarLine env hrec hts] at h
      cases h
      exact Or.inl rfl
    · have hts' : st.nextRoll ≤ lineTimestamp radarLine := not_lt.mp hts
      by_cases hio : env.renameOk = true ∧ env.openOk = true
      · rw [consumeLine_rotate joinPath st radarLine env hrec hts' hio.1 hio.2] at h
        cases h
        exact Or.inr rfl
      · have hio' : env.renameOk = false ∨ env.openOk = false := by
          cases h1 : env.renameOk <;> cases h2 : env.openOk <;> simp_all
        obtain ⟨e, he⟩ := consumeLine_exit joinPath st radarLine env hrec hts' hio'
        rw [he] at h
        cases h

/-- Segments with a single field leave no trace. -/
theorem consumeLines_filter (joinPath : String → String) (st : StoreState)
    (timed : List (String × Env)) :
    consumeLines joinPath st timed
      = consumeLines joinPath st (timed.filter fun p => isRecord p.1) := by
  induction timed generalizing st with
  | nil => rfl
  | cons p rest ih =>
    obtain ⟨l, e⟩ := p
    cases hrec : isRecord l
    · rw [List.filter_cons_of_neg (by simp [hrec]), consumeLines,
        consumeLine_skip joinPath st l e hrec]
      simp only [List.nil_append]
      rw [ih st]
      cases consumeLines joinPath st (List.filter (fun p => isRecord p.1) rest) with
      | error x => rfl
      | ok r => rfl
    · rw [List.filter_cons_of_pos (by simp [hrec]), consumeLines, consumeLines]
      cases consumeLine joinPath st l e with
      | error x => rfl
      | ok r =>
        simp only []
        rw [ih r.1]

theorem consumeLines_cons_ok (joinPath : String → String) (st st1 st2 : StoreState)
    (l : String) (e : Env) (rest : List (String × Env)) (ops ops2 : List FileOp)
    (h1 : consumeLine joinPath st l e = .ok (st1, ops))
    (h2 : consumeLines joinPath st1 rest = .ok (st2, ops2)) :
    consumeLines joinPath st ((l, e) :: rest) = .ok (st2, ops ++ ops2) := by
  unfold consumeLines
  simp only [h1, h2]

/-- Records below the deadline are appended to the open file, in order. -/
theorem consumeLines_writes (joinPath : String → String) (st : StoreState)
    (timed : List (String × Env)) (hrec : ∀ p ∈ timed, isRecord p.1 = true)
    (hts : ∀ p ∈ timed, lineTimestamp p.1 < st.nextRoll) :
    consumeLines joinPath st timed
      = .ok (st, timed.map fun p => FileOp.writeString st.file (p.1 ++ "\n")) := by
  induction timed with
  | nil => rfl
  | cons p rest ih =>
    obtain ⟨l, e⟩ := p
    have h1 : isRecord l = true := hrec (l, e) (List.mem_cons_self _ _)
    have h2 : lineTimestamp l < st.nextRoll := hts (l, e) (List.mem_cons_self _ _)
    have h3 := consumeLine_write joinPath st l e h1 h2
    have h4 := ih (fun q hq => hrec q (List.mem_cons_of_mem _ hq))
      (fun q hq => hts q (List.mem_cons_of_mem _ hq))
    have h5 := consumeLines_cons_ok joinPath st st st l e rest
      [FileOp.writeString st.file (l ++ "\n")]
      (rest.map fun p => FileOp.writeString st.file (p.1 ++ "\n")) h3 h4
    rw [h5]
    rfl

/-- Records below the deadline, then one that reaches it, then records below
the new deadline: the first go to the open file, the file is rotated, and the
rest go to the new file. -/
theorem consumeLines_rotation (joinPath : String → String) (st : StoreState)
    (pre post : List (String × Env)) (t : String) (e : Env)
    (hrec : ∀ p ∈ pre ++ (t, e) :: post, isRecord p.1 = true)
    (hpre : ∀ p ∈ pre, lineTimestamp p.1 < st.nextRoll)
    (ht : st.nextRoll ≤ lineTimestamp t) (hren : e.renameOk = true) (hopen : e.openOk = true)
    (hpost : ∀ p ∈ post, lineTimestamp p.1 < (nextRollOver e.now).1) :
    consumeLines joinPath st (pre ++ (t, e) :: post)
      = .ok ({ nextRoll := (nextRollOver e.now).1, startTime := (nextRollOver e.now).2,
               filename := genFileName (nextRollOver e.now).2, fullpath := st.fullpath,
               file := joinPath (genFileName (nextRollOver e.now).2) ++ ".tmp" },
             (pre.map fun p => FileOp.writeString st.file (p.1 ++ "\n"))
               ++ [.close st.file, .rename (st.fullpath ++ ".tmp") st.fullpath,
                   .openAppend (joinPath (genFileName (nextRollOver e.now).2) ++ ".tmp")]
               ++ (((t, e) :: post).map fun p =>
                   FileOp.writeString (joinPath (genFileName (nextRollOver e.now).2) ++ ".tmp")
                     (p.1 ++ "\n"))) := by
  induction pre with
  | nil =>
    have hrt : isRecord t = true := hrec (t, e) (by simp)
    have hrp : ∀ p ∈ post, isRecord p.1 = true := fun p hp => hrec p (by simp [hp])
    have h3 := consumeLine_rotate joinPath st t e hrt ht hren hopen
    have h4 := consumeLines_writes joinPath
      { nextRoll := (nextRollOver e.now).1, startTime := (nextRollOver e.now).2,
        filename := genFileName (nextRollOver e.now).2, fullpath := st.fullpath,
        file := joinPath (genFileName (nextRollOver e.now).2) ++ ".tmp" } post hrp hpost
    have h5 := consumeLines_cons_ok joinPath st _ _ t e post _ _ h3 h4
    rw [List.nil_append, h5]
    rfl
  | cons p rest ih =>
    obtain ⟨l, el⟩ := p
    have hrl : isRecord l = true := hrec (l, el) (by simp)
    have h2 : lineTimestamp l < st.nextRoll := hpre (l, el) (List.mem_cons_self _ _)
    have h3 := consumeLine_write joinPath st l el hrl h2
    have h4 := ih
      (fun q hq => hrec q (by simp only [List.cons_append, List.mem_cons]; exact Or.inr hq))
      (fun q hq => hpre q (List.mem_cons_of_mem _ hq))
    have h5 := consumeLines_cons_ok joinPath st st _ l el (rest ++ (t, e) :: post) _ _ h3 h4
    rw [List.cons_append, h5]
    rfl

/-- C14 (as stated, refuted), in the Open state with deadline D = 1577840400000
(01:00 UTC on 2020-01-01) reached from start.  (1) Order: the first line carries
D and rotates the file, the second carries D - 1 and is appended to the new
file, not to the old one.  (2) Two rotations: the first line carries D and is
handled at 01:10, the second carries D + 1h and is handled at 02:05; the lines
with a timestamp >= D land in two different new files, and the second rotation
renames the 00:00 temp path, not the 01:00 file it closes; when that second
rename fails the process ends and the second line is not appended at all.
(3) Open state after a first rotation (open file 01:00, rename base 00:00): the
rotation closes the 01:00 temp file and renames the 00:00 temp path. -/
theorem rotation_order_counterexample :
    lineTimestamp "1,1577840400000,4840D6,A" = 1577840400000 ∧
    lineTimestamp "1,1577840399999,4840D6,B" = 1577840399999 ∧
    lineTimestamp "1,1577844000000,4840D6,C" = 1577844000000 ∧
    consumeBatch (fun f => "data/" ++ f)
        { nextRoll := 1577840400000, startTime := ⟨1577836800, 0⟩,
          filename := "fr-20200101_0000.csv", fullpath := "data/fr-20200101_0000.csv",
          file := "data/fr-20200101_0000.csv.tmp" }
        "1,1577840400000,4840D6,A\n1,1577840399999,4840D6,B\n"
        (fun _ => ⟨⟨1577841000, 0⟩, true, true⟩)
      = .ok ({ nextRoll := 1577844000000, startTime := ⟨1577840400, 0⟩,
               filename := "fr-20200101_0100.csv", fullpath := "data/fr-20200101_0000.csv",
               file := "data/fr-20200101_0100.csv.tmp" },
             [.close "data/fr-20200101_0000.csv.tmp",
              .rename "data/fr-20200101_0000.csv.tmp" "data/fr-20200101_0000.csv",
              .openAppend "data/fr-20200101_0100.csv.tmp",
              .writeString "data/fr-20200101_0100.csv.tmp" "1,1577840400000,4840D6,A\n",
              .writeString "data/fr-20200101_0100.csv.tmp" "1,1577840399999,4840D6,B\n"]) ∧
    consumeBatch (fun f => "data/" ++ f)
        { nextRoll := 1577840400000, startTime := ⟨1577836800, 0⟩,
          filename := "fr-20200101_0000.csv", fullpath := "data/fr-20200101_0000.csv",
          file := "data/fr-20200101_0000.csv.tmp" }
        "1,1577840400000,4840D6,A\n1,1577844000000,4840D6,C\n"
        (fun i => if i = 0 then ⟨⟨1577841000, 0⟩, true, true⟩ else ⟨⟨1577844300, 0⟩, true, true⟩)
      = .ok ({ nextRoll := 1577847600000, startTime := ⟨1577844000, 0⟩,
               filename := "fr-20200101_0200.csv", fullpath := "data/fr-20200101_0000.csv",
               file := "data/fr-20200101_0200.csv.tmp" },
             [.close "data/fr-20200101_0000.csv.tmp",
              .rename "data/fr-20200101_0000.csv.tmp" "data/fr-20200101_0000.csv",
              .openAppend "data/fr-20200101_0100.csv.tmp",
              .writeString "data/fr-20200101_0100.csv.tmp" "1,1577840400000,4840D6,A\n",
              .close "data/fr-20200101_0100.csv.tmp",
              .rename "data/fr-20200101_0000.csv.tmp" "data/fr-20200101_0000.csv",
              .openAppend "data/fr-20200101_0200.csv.tmp",
              .writeString "data/fr-20200101_0200.csv.tmp" "1,1577844000000,4840D6,C\n"]) ∧
    consumeBatch (fun f => "data/" ++ f)
        { nextRoll := 1577840400000, startTime := ⟨1577836800, 0⟩,
          filename := "fr-20200101_0000.csv", fullpath := "data/fr-20200101_0000.csv",
          file := "data/fr-20200101_0000.csv.tmp" }
        "1,1577840400000,4840D6,A\n1,1577844000000,4840D6,C\n"
        (fun i => if i = 0 then ⟨⟨1577841000, 0⟩, true, true⟩ else ⟨⟨1577844300, 0⟩, false, true⟩)
      = .error .fatal ∧
    consumeBatch (fun f => "data/" ++ f)
        { nextRoll := 1577844000000, startTime := ⟨1577840400, 0⟩,
          filename := "fr-20200101_0100.csv", fullpath := "data/fr-20200101_0000.csv",
          file := "data/fr-20200101_0100.csv.tmp" }
        "1,1577844000000,4840D6,C\n"
        (fun _ => ⟨⟨1577844300, 0⟩, true, true⟩)
      = .ok ({ nextRoll := 1577847600000, startTime := ⟨1577844000, 0⟩,
               filename := "fr-20200101_0200.csv", fullpath := "data/fr-20200101_0000.csv",
               file := "data/fr-20200101_0200.csv.tmp" },
             [.close "data/fr-20200101_0100.csv.tmp",
              .rename "data/fr-20200101_0000.csv.tmp" "data/fr-20200101_0000.csv",
              .openAppend "data/fr-20200101_0200.csv.tmp",
              .writeString "data/fr-20200101_0200.csv.tmp" "1,1577844000000,4840D6,C\n"]) := by
  refine ⟨by decide, by decide, by decide, by decide, by decide, by decide, by decide⟩

/-- C14 (amended): for every batch text handled by the store consumer in an
Open state with deadline D in which a rotation happens (a record with a
timestamp at or above D arrives, and the rename and the open of the rotation
succeed), every record after the rotating one has a timestamp below the new
deadline (so that exactly one rotation happens) and no record with a timestamp
below D follows a record with a timestamp at or above D: the lines appended to
the new file are exactly the batch's records whose embedded timestamp (field 1)
is >= D, and the lines appended to the old file are exactly those whose
timestamp is < D; the close of the old file and the rename of the rename
base's temp path to the base precede every write to the new file, and the path
renamed is the old temp file exactly when the open file is the rename base's
temp path, as it is from start until the first rotation.  A record is a
segment of the batch with two or more comma-separated fields; `pre`, `t` and
`post` are the records before the rotation, the record that triggers it and the
records after it. -/
theorem rotation_within_batch (joinPath : String → String) (st : StoreState) (msg : String)
    (env : Nat → Env) (pre post : List (String × Env)) (t : String) (e : Env)
    (hsplit : ((Split msg '\n').enum.map fun p => (p.2, env p.1)).filter
      (fun p => isRecord p.1) = pre ++ (t, e) :: post)
    (hpre : ∀ p ∈ pre, lineTimestamp p.1 < st.nextRoll)
    (ht : st.nextRoll ≤ lineTimestamp t) (hren : e.renameOk = true) (hopenOk : e.openOk = true)
    (hpost : ∀ p ∈ post, lineTimestamp p.1 < (nextRollOver e.now).1)
    (hsorted : ∀ p ∈ post, st.nextRoll ≤ lineTimestamp p.1) :
    consumeBatch joinPath st msg env
      = .ok ({ nextRoll := (nextRollOver e.now).1, startTime := (nextRollOver e.now).2,
               filename := genFileName (nextRollOver e.now).2, fullpath := st.fullpath,
               file := joinPath (genFileName (nextRollOver e.now).2) ++ ".tmp" },
             (pre.map fun p => FileOp.writeString st.file (p.1 ++ "\n"))
               ++ [.close st.file, .rename (st.fullpath ++ ".tmp") st.fullpath,
                   .openAppend (joinPath (genFileName (nextRollOver e.now).2) ++ ".tmp")]
               ++ (((t, e) :: post).map fun p =>
                   FileOp.writeString (joinPath (genFileName (nextRollOver e.now).2) ++ ".tmp")
                     (p.1 ++ "\n"))) ∧
    pre = (((Split msg '\n').enum.map fun p => (p.2, env p.1)).filter
        (fun p => isRecord p.1)).filter (fun p => decide (lineTimestamp p.1 < st.nextRoll)) ∧
    (t, e) :: post = (((Split msg '\n').enum.map fun p => (p.2, env p.1)).filter
        (fun p => isRecord p.1)).filter (fun p => decide (st.nextRoll ≤ lineTimestamp p.1)) ∧
    (FileOp.rename (st.fullpath ++ ".tmp") st.fullpath = FileOp.rename st.file st.fullpath
      ↔ st.file = st.fullpath ++ ".tmp") := by
  have hrec : ∀ p ∈ pre ++ (t, e) :: post, isRecord p.1 = true := by
    intro p hp
    rw [← hsplit] at hp
    exact (List.mem_filter.mp hp).2
  have hrun := consumeLines_rotation joinPath st pre post t e hrec hpre ht hren hopenOk hpost
  refine ⟨?_, ?_, ?_, ?_⟩
  · unfold consumeBatch
    rw [consumeLines_filter, hsplit, hrun]
  · rw [hsplit, List.filter_append, List.filter_cons_of_neg (by simpa using ht)]
    have h1 : pre.filter (fun p => decide (lineTimestamp p.1 < st.nextRoll)) = pre :=
      List.filter_eq_self.mpr (fun p hp => by simpa using hpre p hp)
    have h2 : post.filter (fun p => decide (lineTimestamp p.1 < st.nextRoll)) = [] :=
      List.filter_eq_nil_iff.mpr (fun p hp => by simpa using hsorted p hp)
    rw [h1, h2, List.append_nil]
  · rw [hsplit, List.filter_append, List.filter_cons_of_pos (by simpa using ht)]
    have h1 : pre.filter (fun p => decide (st.nextRoll ≤ lineTimestamp p.1)) = [] :=
      List.filter_eq_nil_iff.mpr (fun p hp => by simpa using hpre p hp)
    have h2 : post.filter (fun p => decide (st.nextRoll ≤ lineTimestamp p.1)) = post :=
      List.filter_eq_self.mpr (fun p hp => by simpa using hsorted p hp)
    rw [h1, h2, List.nil_append]
  · constructor
    · intro h
      injection h with h1 _
      exact h1.symm
    · intro h
      rw [h]

/-- C14 (amended) at a batch of three records and the final empty segment: one
record below the deadline, then two at or above it. -/
theorem rotation_within_batch_witness :
    consumeBatch (fun f => "data/" ++ f)
        { nextRoll := 1577840400000, startTime := ⟨1577836800, 0⟩,
          filename := "fr-20200101_0000.csv", fullpath := "data/fr-20200101_0000.csv",
          file := "data/fr-20200101_0000.csv.tmp" }
        "1,1577840399999,4840D6,A\n1,1577840400000,4840D6,B\n1,1577840400001,4840D6,C\n"
        (fun _ => ⟨⟨1577841000, 0⟩, true, true⟩)
      = .ok ({ nextRoll := 1577844000000, startTime := ⟨1577840400, 0⟩,
               filename := "fr-20200101_0100.csv", fullpath := "data/fr-20200101_0000.csv",
               file := "data/fr-20200101_0100.csv.tmp" },
             [.writeString "data/fr-20200101_0000.csv.tmp" "1,1577840399999,4840D6,A\n",
              .close "data/fr-20200101_0000.csv.tmp",
              .rename "data/fr-20200101_0000.csv.tmp" "data/fr-20200101_0000.csv",
              .openAppend "data/fr-20200101_0100.csv.tmp",
              .writeString "data/fr-20200101_0100.csv.tmp" "1,1577840400000,4840D6,B\n",
              .writeString "data/fr-20200101_0100.csv.tmp" "1,1577840400001,4840D6,C\n"]) :=
  (rotation_within_batch (fun f => "data/" ++ f)
      { nextRoll := 1577840400000, startTime := ⟨1577836800, 0⟩,
        filename := "fr-20200101_0000.csv", fullpath := "data/fr-20200101_0000.csv",
        file := "data/fr-20200101_0000.csv.tmp" }
      "1,1577840399999,4840D6,A\n1,1577840400000,4840D6,B\n1,1577840400001,4840D6,C\n"
      (fun _ => ⟨⟨1577841000, 0⟩, true, true⟩)
      [("1,1577840399999,4840D6,A", ⟨⟨1577841000, 0⟩, true, true⟩)]
      [("1,1577840400001,4840D6,C", ⟨⟨1577841000, 0⟩, true, true⟩)]
      "1,1577840400000,4840D6,B" ⟨⟨1577841000, 0⟩, true, true⟩
      (by decide) (by decide) (by decide) (by decide) (by decide) (by decide)
      (by decide)).1.trans (by decide)

/-- With a syntax error `ParseInt` returns zero. -/
theorem ParseIntValue_of_ErrSyntax (s : String)
    (h : (ParseIntValue s).2 = some .ErrSyntax) : (ParseIntValue s).1 = 0 := by
  unfold ParseIntValue at h ⊢
  by_cases hs : s = ""
  · simp only [hs, if_true]
  · simp only [hs, if_false] at h ⊢
    split at h
    · rfl
    · split_ifs at h <;> cases h
    · split_ifs at h <;> cases h

/-- With a range error on a text that starts with a minus sign `ParseInt`
returns the smallest `int64`. -/
theorem ParseIntValue_of_ErrRange_neg (s : String)
    (h : (ParseIntValue s).2 = some .ErrRange) (hneg : s.data.head? = some '-') :
    (ParseIntValue s).1 = -(2 ^ 63) := by
  obtain ⟨r, hr⟩ : ∃ r, s.data = '-' :: r := by
    cases hd : s.data with
    | nil => rw [hd] at hneg; cases hneg
    | cons c r =>
      rw [hd] at hneg
      simp only [List.head?_cons, Option.some.injEq] at hneg
      exact ⟨r, by rw [hneg]⟩
  have hs : ¬ s = "" := by
    intro he
    rw [he] at hr
    cases hr
  unfold ParseIntValue at h ⊢
  simp only [hs, if_false, hr] at h ⊢
  split at h
  · cases h
  · rfl
  · simp only [Bool.not_true, Bool.false_and, Bool.false_eq_true, if_false, Bool.true_and,
      decide_eq_true_eq] at h ⊢
    split_ifs at h ⊢
    rfl

/-- C15 (as stated, refuted): field 1 of the line below lies above the `int64`
range, so it fails to parse; `ParseInt` then returns the largest `int64`,
which reaches every deadline, and the consumer rotates the file. -/
theorem unparsed_timestamp_rotates :
    2 ≤ (Split "1,99999999999999999999,4840D6,KLM1023" ',').length ∧
    ParseIntValue (field "1,99999999999999999999,4840D6,KLM1023" 1)
      = (9223372036854775807, some .ErrRange) ∧
    consumeLine (fun f => "data/" ++ f)
        { nextRoll := 1577840400000, startTime := ⟨1577836800, 0⟩,
          filename := "fr-20200101_0000.csv", fullpath := "data/fr-20200101_0000.csv",
          file := "data/fr-20200101_0000.csv.tmp" }
        "1,99999999999999999999,4840D6,KLM1023" ⟨⟨1577838600, 0⟩, true, true⟩
      = .ok ({ nextRoll := 1577840400000, startTime := ⟨1577836800, 0⟩,
               filename := "fr-20200101_0000.csv", fullpath := "data/fr-20200101_0000.csv",
               file := "data/fr-20200101_0000.csv.tmp" },
             [.close "data/fr-20200101_0000.csv.tmp",
              .rename "data/fr-20200101_0000.csv.tmp" "data/fr-20200101_0000.csv",
              .openAppend "data/fr-20200101_0000.csv.tmp",
              .writeString "data/fr-20200101_0000.csv.tmp"
                "1,99999999999999999999,4840D6,KLM1023\n"]) := by
  refine ⟨by decide, by decide, by decide⟩

/-- C15 (amended): for every line with at least two comma-separated fields
whose field 1 fails to parse with a syntax error (non-numeric text) or lies
below the `int64` range, and every positive deadline, the store consumer
performs no rotation for that line (deadline, file name and open file are
unchanged) and appends the line followed by "\n" to the currently open
file. -/
theorem unparsed_timestamp_no_rotation (joinPath : String → String) (st : StoreState)
    (radarLine : String) (env : Env) (h2 : 2 ≤ (Split radarLine ',').length)
    (herr : (ParseIntValue (field radarLine 1)).2 = some .ErrSyntax ∨
      ((ParseIntValue (field radarLine 1)).2 = some .ErrRange ∧
        (field radarLine 1).data.head? = some '-'))
    (hD : 0 < st.nextRoll) :
    consumeLine joinPath st radarLine env
      = .ok (st, [.writeString st.file (radarLine ++ "\n")]) := by
  have hrec : isRecord radarLine = true := by
    unfold isRecord
    simp only [ne_eq, decide_not, Bool.not_eq_true', decide_eq_false_iff_not]
    omega
  apply consumeLine_write joinPath st radarLine env hrec
  unfold lineTimestamp
  rcases herr with h | ⟨h, hneg⟩
  · rw [ParseIntValue_of_ErrSyntax _ h]
    exact hD
  · rw [ParseIntValue_of_ErrRange_neg _ h hneg]
    have : (0 : Int) < 2 ^ 63 := by norm_num
    omega

/-- C15 (amended) at a line whose timestamp field is not a number. -/
theorem unparsed_timestamp_no_rotation_witness :
    2 ≤ (Split "1,1577840x00000,4840D6,KLM1023" ',').length ∧
    (ParseIntValue (field "1,1577840x00000,4840D6,KLM1023" 1)).2 = some .ErrSyntax ∧
    (0 : Int) < 1577840400000 ∧
    consumeLine (fun f => "data/" ++ f)
        { nextRoll := 1577840400000, startTime := ⟨1577836800, 0⟩,
          filename := "fr-20200101_0000.csv", fullpath := "data/fr-20200101_0000.csv",
          file := "data/fr-20200101_0000.csv.tmp" }
        "1,1577840x00000,4840D6,KLM1023" ⟨⟨1577838600, 0⟩, true, true⟩
      = .ok ({ nextRoll := 1577840400000, startTime := ⟨1577836800, 0⟩,
               filename := "fr-20200101_0000.csv", fullpath := "data/fr-20200101_0000.csv",
               file := "data/fr-20200101_0000.csv.tmp" },
             [.writeString "data/fr-20200101_0000.csv.tmp"
                "1,1577840x00000,4840D6,KLM1023\n"]) :=
  ⟨by decide, by decide, by decide,
    unparsed_timestamp_no_rotation _ _ _ _ (by decide) (Or.inl (by decide)) (by decide)⟩

/-- C16 (refuted by the code): the consumer starts at 00:30 UTC on 2020-01-01
with the temp path of the open file equal to the rename base plus ".tmp".  The
first rotation (clock 01:10) renames that temp file and opens
"data/fr-20200101_0100.csv.tmp", but the rename base of the state stays
"data/fr-20200101_0000.csv": the new path is bound to a variable of the inner
block.  The second rotation (clock 02:05) closes the 01:00 temp file and
renames the path of the 00:00 one; when that rename fails the process ends. -/
theorem second_rotation_renames_first_file :
    consumeStart (fun f => "data/" ++ f) ⟨⟨1577838600, 0⟩, true, true⟩
      = .ok ({ nextRoll := 1577840400000, startTime := ⟨1577836800, 0⟩,
               filename := "fr-20200101_0000.csv", fullpath := "data/fr-20200101_0000.csv",
               file := "data/fr-20200101_0000.csv.tmp" },
             [.openAppend "data/fr-20200101_0000.csv.tmp"]) ∧
    consumeLine (fun f => "data/" ++ f)
        { nextRoll := 1577840400000, startTime := ⟨1577836800, 0⟩,
          filename := "fr-20200101_0000.csv", fullpath := "data/fr-20200101_0000.csv",
          file := "data/fr-20200101_0000.csv.tmp" }
        "1,1577840400000,4840D6,A" ⟨⟨1577841000, 0⟩, true, true⟩
      = .ok ({ nextRoll := 1577844000000, startTime := ⟨1577840400, 0⟩,
               filename := "fr-20200101_0100.csv", fullpath := "data/fr-20200101_0000.csv",
               file := "data/fr-20200101_0100.csv.tmp" },
             [.close "data/fr-20200101_0000.csv.tmp",
              .rename "data/fr-20200101_0000.csv.tmp" "data/fr-20200101_0000.csv",
              .openAppend "data/fr-20200101_0100.csv.tmp",
              .writeString "data/fr-20200101_0100.csv.tmp" "1,1577840400000,4840D6,A\n"]) ∧
    consumeLine (fun f => "data/" ++ f)
        { nextRoll := 1577844000000, startTime := ⟨1577840400, 0⟩,
          filename := "fr-20200101_0100.csv", fullpath := "data/fr-20200101_0000.csv",
          file := "data/fr-20200101_0100.csv.tmp" }
        "1,1577844000000,4840D6,B" ⟨⟨1577844300, 0⟩, true, true⟩
      = .ok ({ nextRoll := 1577847600000, startTime := ⟨1577844000, 0⟩,
               filename := "fr-20200101_0200.csv", fullpath := "data/fr-20200101_0000.csv",
               file := "data/fr-20200101_0200.csv.tmp" },
             [.close "data/fr-20200101_0100.csv.tmp",
              .rename "data/fr-20200101_0000.csv.tmp" "data/fr-20200101_0000.csv",
              .openAppend "data/fr-20200101_0200.csv.tmp",
              .writeString "data/fr-20200101_0200.csv.tmp" "1,1577844000000,4840D6,B\n"]) ∧
    "data/fr-20200101_0000.csv" ++ ".tmp" ≠ "data/fr-20200101_0100.csv.tmp" ∧
    "data/fr-20200101_0000.csv" ≠ "data/" ++ genFileName ⟨1577840400, 0⟩ ∧
    consumeLine (fun f => "data/" ++ f)
        { nextRoll := 1577844000000, startTime := ⟨1577840400, 0⟩,
          filename := "fr-20200101_0100.csv", fullpath := "data/fr-20200101_0000.csv",
          file := "data/fr-20200101_0100.csv.tmp" }
        "1,1577844000000,4840D6,B" ⟨⟨1577844300, 0⟩, false, true⟩
      = .error .fatal := by
  refine ⟨by decide, by decide, by decide, by decide, by decide, by decide⟩

/-! ## The hour window -/

/-- The year found by `absYear` and the day within it add up to the day
count. -/
theorem absYear_spec (days : Int) :
    daysSinceYearOne (absYear days).1 + (absYear days).2 = days ∧
    0 ≤ (absYear days).2 ∧ (absYear days).2 ≤ 365 := by
  unfold absYear daysSinceYearOne
  simp only [add_sub_cancel_right]
  generalize hn400 : days / 146097 = n400
  generalize hr1 : days - 146097 * n400 = r1
  have hr1b : 0 ≤ r1 ∧ r1 < 146097 := by omega
  generalize hq1 : r1 / 36524 = q1
  have hq1b : 0 ≤ q1 ∧ q1 ≤ 3 ∨ q1 = 4 ∧ r1 = 146096 := by omega
  generalize hn100 : q1 - q1 / 4 = n100
  have hn100b : 0 ≤ n100 ∧ n100 ≤ 3 := by omega
  generalize hr2 : r1 - 36524 * n100 = r2
  have hr2b : 0 ≤ r2 ∧ r2 ≤ 36524 := by omega
  generalize hn4 : r2 / 1461 = n4
  have hn4b : 0 ≤ n4 ∧ n4 ≤ 24 := by omega
  generalize hr3 : r2 - 1461 * n4 = r3
  have hr3b : 0 ≤ r3 ∧ r3 < 1461 := by omega
  generalize hq3 : r3 / 365 = q3
  have hq3b : 0 ≤ q3 ∧ q3 ≤ 4 := by omega
  generalize hn1 : q3 - q3 / 4 = n1
  have hn1b : 0 ≤ n1 ∧ n1 ≤ 3 := by omega
  have hyd : 0 ≤ r3 - 365 * n1 ∧ r3 - 365 * n1 ≤ 365 := by omega
  have e4 : (400 * n400 + 100 * n100 + 4 * n4 + n1) / 4 = 100 * n400 + 25 * n100 + n4 := by
    omega
  have e100 : (400 * n400 + 100 * n100 + 4 * n4 + n1) / 100 = 4 * n400 + n100 := by omega
  have e400 : (400 * n400 + 100 * n100 + 4 * n4 + n1) / 400 = n400 := by omega
  rw [e4, e100, e400]
  refine ⟨?_, hyd⟩
  omega

/-- The month and day found by `monthDay` lead back to the day of the year
through the table `daysBefore` and the leap-day adjustment of `time.Date`. -/
theorem monthDay_spec (leap : Bool) (yday : Nat) (h : yday < 366) :
    daysBefore ((monthDay leap yday).1 - 1)
      + (if leap = true ∧ (monthDay leap yday).1 ≥ 3 then 1 else 0)
      + (((monthDay leap yday).2 : Int) - 1) = (yday : Int) := by
  have key : ∀ leap : Bool, ∀ yday < 366,
      daysBefore ((monthDay leap yday).1 - 1)
        + (if leap = true ∧ (monthDay leap yday).1 ≥ 3 then 1 else 0)
        + (((monthDay leap yday).2 : Int) - 1) = (yday : Int) := by
    decide
  exact key leap yday h

/-- The start of the hour of a clock reading, rebuilt by `time.Date` from the
year, month, day and hour of the reading. -/
theorem Date_of_clock (t : Time) :
    Date t.Year t.Month t.Day t.Clock.1 0 0 0 = ⟨3600 * (t.unixSec / 3600), 0⟩ := by
  obtain ⟨hsum, hy0, hy1⟩ := absYear_spec t.absDays
  have hmd := monthDay_spec (isLeap (absYear t.absDays).1) (absYear t.absDays).2.toNat
    (by omega)
  have hnat : (((absYear t.absDays).2.toNat : Nat) : Int) = (absYear t.absDays).2 := by omega
  rw [hnat] at hmd
  unfold Date Time.Year Time.Month Time.Day Time.Clock
  simp only []
  have hd : daysSinceYearOne (absYear t.absDays).1
      + daysBefore ((monthDay (isLeap (absYear t.absDays).1) (absYear t.absDays).2.toNat).1 - 1)
      + (if isLeap (absYear t.absDays).1 = true ∧
          (monthDay (isLeap (absYear t.absDays).1) (absYear t.absDays).2.toNat).1 ≥ 3 then 1
        else 0)
      + (((monthDay (isLeap (absYear t.absDays).1) (absYear t.absDays).2.toNat).2 : Int) - 1)
      = t.absDays := by
    linarith
  rw [hd]
  unfold Time.absDays
  congr 1
  push_cast
  omega

theorem Time_Add_Hour (s : Int) : Time.Add ⟨s, 0⟩ Hour = ⟨s + 3600, 0⟩ := by
  have e1 : Int.tmod 3600000000000 1000000000 = 0 := by decide
  have e2 : Int.tdiv 3600000000000 1000000000 = 3600 := by decide
  unfold Time.Add Hour
  simp only [e1, e2, add_zero]
  rw [if_neg (by decide), if_neg (by decide)]

/-- The value of `nextRollOver` when the nanosecond count of the deadline fits
an `int64`. -/
theorem nextRollOver_eq (t : Time)
    (hr : (3600 * (t.unixSec / 3600) + 3600) * 1000000000 < 2 ^ 63)
    (h0 : 0 ≤ t.unixSec) :
    nextRollOver t = ((3600 * (t.unixSec / 3600) + 3600) * 1000, ⟨3600 * (t.unixSec / 3600), 0⟩) := by
  unfold nextRollOver
  simp only [Date_of_clock, Time_Add_Hour]
  unfold Time.UnixNano
  simp only [add_zero]
  have hlow : -2 ^ 63 ≤ (3600 * (t.unixSec / 3600) + 3600) * 1000000000 := by
    have : 0 ≤ 3600 * (t.unixSec / 3600) := by omega
    have e63 : (2 : Int) ^ 63 = 9223372036854775808 := by norm_num
    rw [e63]
    omega
  rw [wrapInt64_of_range _ hlow hr]
  have e : (3600 * (t.unixSec / 3600) + 3600) * 1000000000
      = (3600 * (t.unixSec / 3600) + 3600) * 1000 * 1000000 := by ring
  rw [e, Int.mul_tdiv_cancel _ (by decide)]

/-- C17 (as stated, refuted): the clock reading 9223372036854 ms
(2262-04-11T23:47:16.854Z) is non-negative and its nanosecond count fits an
`int64`, but the deadline of its hour, 9223372800000 ms, does not, and
`nextRollOver` returns the deadline -9223371273709, which lies before the
reading. -/
theorem nextRollOver_overflow :
    (⟨9223372036, 854000000⟩ : Time).millis = 9223372036854 ∧
    (0 : Int) ≤ 9223372036854 ∧ (9223372036854 : Int) * 1000000 < 2 ^ 63 ∧
    3600000 * ((9223372036854 : Int) / 3600000) + 3600000 = 9223372800000 ∧
    (nextRollOver ⟨9223372036, 854000000⟩).1 = -9223371273709 ∧
    (nextRollOver ⟨9223372036, 854000000⟩).1 ≠ 9223372800000 ∧
    ¬ (⟨9223372036, 854000000⟩ : Time).millis < (nextRollOver ⟨9223372036, 854000000⟩).1 := by
  refine ⟨by decide, by decide, by decide, by decide, by decide, by decide, by decide⟩

/-- C17 (amended): for a wall clock reading `now` (UTC epoch milliseconds,
non-negative) such that the nanosecond count of the deadline of its hour fits
an `int64`, `nextRollOver` returns the window start S = 3600000 *
floor(now / 3600000) as a UTC time with minute, second and nanosecond zero, and
the deadline D = S + 3600000 in epoch milliseconds, so that S <= now < D and D
is a multiple of 3600000; the deadline that `consume` holds after a line is
the one it held before or the one `nextRollOver` computes from the clock,
whatever the timestamp of the line. -/
theorem nextRollOver_window (t : Time) (h0 : 0 ≤ t.unixSec)
    (hn : 0 ≤ t.nsec ∧ t.nsec < 1000000000)
    (hr : (3600000 * (t.millis / 3600000) + 3600000) * 1000000 < 2 ^ 63) :
    (nextRollOver t).2.millis = 3600000 * (t.millis / 3600000) ∧
    (nextRollOver t).2.nsec = 0 ∧ (nextRollOver t).2.Clock.2 = (0, 0) ∧
    (nextRollOver t).1 = 3600000 * (t.millis / 3600000) + 3600000 ∧
    3600000 * (t.millis / 3600000) ≤ t.millis ∧ t.millis < (nextRollOver t).1 ∧
    (nextRollOver t).1 % 3600000 = 0 ∧
    (∀ (joinPath : String → String) (st st1 : StoreState) (radarLine : String) (env : Env)
      (ops : List FileOp), consumeLine joinPath st radarLine env = .ok (st1, ops) →
      st1.nextRoll = st.nextRoll ∨ st1.nextRoll = (nextRollOver env.now).1) := by
  have hms : 3600000 * (t.millis / 3600000) = 3600 * (t.unixSec / 3600) * 1000 := by
    unfold Time.millis
    omega
  have hr' : (3600 * (t.unixSec / 3600) + 3600) * 1000000000 < 2 ^ 63 := by
    have e63 : (2 : Int) ^ 63 = 9223372036854775808 := by norm_num
    rw [e63] at hr ⊢
    rw [hms] at hr
    omega
  rw [nextRollOver_eq t hr' h0]
  refine ⟨?_, rfl, ?_, ?_, ?_, ?_, ?_, ?_⟩
  · rw [hms]
    unfold Time.millis
    simp only []
    omega
  · unfold Time.Clock
    simp only [Prod.mk.injEq]
    omega
  · rw [hms]
    simp only []
    ring
  · omega
  · simp only []
    unfold Time.millis
    omega
  · simp only []
    omega
  · intro joinPath st st1 radarLine env ops h
    exact consumeLine_nextRoll joinPath st st1 radarLine env ops h

/-- C17 (amended) at the reading 2020-01-01T00:30:00.123456789Z. -/
theorem nextRollOver_window_witness :
    (0 : Int) ≤ 1577838600 ∧ ((0 : Int) ≤ 123456789 ∧ (123456789 : Int) < 1000000000) ∧
    (3600000 * ((⟨1577838600, 123456789⟩ : Time).millis / 3600000) + 3600000) * 1000000
      < 2 ^ 63 ∧
    (nextRollOver ⟨1577838600, 123456789⟩).2.millis = 1577836800000 ∧
    (nextRollOver ⟨1577838600, 123456789⟩).1 = 1577840400000 :=
  ⟨by decide, by decide, by decide,
    (nextRollOver_window ⟨1577838600, 123456789⟩ (by decide) (by decide) (by decide)).1.trans
      (by decide),
    (nextRollOver_window ⟨1577838600, 123456789⟩ (by decide) (by decide)
      (by decide)).2.2.2.1.trans (by decide)⟩

end Dump1090
